import Mathlib

/-!
Oktalyzer (OKT) module loader: `CSoundFile::ReadOKT`, a shallow embedding of
`modplug/src/load_okt.cpp`.

* The input stream `lpStream` is a pointer: it is modelled as `Option (Nat → BYTE)`
  (`none` is the null pointer, `some lp` gives the byte found at every offset from
  the pointer), and `dwMemLength` is a separate number, exactly as in the C signature.
* `DWORD`/`UINT` additions are reduced modulo `2^32` (`u32`); `DWORD` subtractions
  wrap (`subDW`).
* The song (`CSoundFile`) is passed explicitly.  A ghost flag `oob` is raised by every
  read of the stream at an offset `≥ dwMemLength` and by every array write at an index
  outside the array; it has no influence on the computation.
* `while` loops take fuel; `Flow.stuck` is the out-of-fuel outcome, and `ReadOKT` gives
  them `dwMemLength + 1` units, which is always enough.
* `u32` and `subDW` are irreducible: closed goals that compute through them are decided
  by kernel evaluation.
* The namespace `Gnulib` holds `iswdigit` (`gnulib/lib/iswdigit.c`) and the table path
  of `log1p` (`gnulib/lib/log1p.c`), the latter on exact rational arguments.
-/

namespace Gnulib

/-- The function `iswdigit (wint_t wc)` of `gnulib/lib/iswdigit.c`:
`return wc >= '0' && wc <= '9';`.  The argument is an integer (`wint_t` is `int` or
`unsigned int`), the result is the `int` value of the condition. -/
def iswdigit (wc : Int) : Int :=
  if wc ≥ ('0'.toNat : Int) ∧ wc ≤ ('9'.toNat : Int) then 1 else 0

/-- The C library function `round` on an exact value: the nearest integer, halfway cases
away from zero. -/
def round (x : ℚ) : ℤ := if 0 ≤ x then ⌊x + 1 / 2⌋ else ⌈x - 1 / 2⌉

/-- The number of entries of `log_table` (`static const double log_table[385]`). -/
def log_table_size : ℤ := 385

/-- The decomposition `log1p` computes on its table path: `m`, `y` and the index of the
table lookup. -/
structure Decomposition where
  m : ℤ
  y : ℚ
  index : ℤ

/-- The table path of `log1p (x)` of `gnulib/lib/log1p.c` on an exact argument.  `none`:
the function returns before the decomposition (`x <= -1.0`, `x < -0.5 || x > 1.0`,
`x == 0.0`).  Otherwise `m = round (x * 256.0)`, `y = ((x * 256.0) - m) / (m + 256.0)`
and the lookup is `log_table[128 + (int) m]`. -/
def log1p_table_path (x : ℚ) : Option Decomposition :=
  if x ≤ -1 then none
  else if x < -(1 / 2) ∨ x > 1 then none
  else if x = 0 then none
  else
    let m := round (x * 256)
    some ⟨m, ((x * 256) - m) / (m + 256), 128 + m⟩

end Gnulib

namespace OKT

/-- A byte of the stream (`BYTE`). -/
abbrev BYTE := Fin 256

/-- Reduction of an unsigned 32-bit (`DWORD`, `UINT`) result. -/
@[irreducible]
def u32 (n : Nat) : Nat := n % 4294967296

/-- Unsigned 32-bit subtraction `a - b` of two `DWORD`s. -/
@[irreducible]
def subDW (a b : Nat) : Nat := (a + 4294967296 - b) % 4294967296

/-- Constants of `sndfile.h` used by the loader.  The header is not part of the
sources at hand, so the values are parameters of the development.  `MAX_SAMPLES`,
`MAX_ORDERS` and `MAX_PATTERNS` are array dimensions (`Ins`, `m_szNames`, `Order`,
`Patterns`, `PatternSize`), hence positive in the C program; `MAX_SAMPLES-1` and
`MAX_ORDERS-1` are written with the subtraction of `Nat`. -/
structure Consts where
  MAX_CHANNELS : Nat
  MAX_SAMPLES : Nat
  MAX_ORDERS : Nat
  MAX_PATTERNS : Nat
  MOD_TYPE_OKT : Nat
  CHN_LOOP : Nat
  RS_PCM8S : Nat

/-- The values libmodplug gives to the constants. -/
def libmodplug : Consts where
  MAX_CHANNELS := 128
  MAX_SAMPLES := 240
  MAX_ORDERS := 256
  MAX_PATTERNS := 240
  MOD_TYPE_OKT := 0x8000
  CHN_LOOP := 0x02
  RS_PCM8S := 0

/-- Code of a character constant. -/
def chr (c : Char) : Nat := c.toNat

/-- The macro `MAGIC(a,b,c,d)`. -/
def MAGIC (a b c d : Nat) : Nat := (a <<< 24) ||| (b <<< 16) ||| (c <<< 8) ||| d

/-- Pointer arithmetic `lpStream + off`. -/
def ptr (lp : Nat → BYTE) (off : Nat) : Nat → BYTE := fun k => lp (off + k)

/-- The function `readBE32(v)`. -/
def readBE32 (v : Nat → BYTE) : Nat :=
  u32 (((v 0).val <<< 24) ||| ((v 1).val <<< 16) ||| ((v 2).val <<< 8) ||| (v 3).val)

/-- Modelled from the spec: the macro `bswapBE32` of `sndfile.h` applied to a `DWORD`
field of a packed struct lying at `v`; the spec says every multi-byte field is
big-endian, so the result is the big-endian value of the four bytes. -/
def bswapBE32 (v : Nat → BYTE) : Nat := readBE32 v

/-- Modelled from the spec: the macro `bswapBE16` of `sndfile.h` applied to a `WORD`
field of a packed struct lying at `v`: the big-endian value of the two bytes. -/
def bswapBE16 (v : Nat → BYTE) : Nat := ((v 0).val <<< 8) ||| (v 1).val

/-- The normalized effect commands the loader produces (`CMD_*` of `sndfile.h`);
`CMD_NONE` is the value of a zero-initialised command field. -/
inductive Command where
  | CMD_NONE
  | CMD_ARPEGGIO
  | CMD_PORTAMENTOUP
  | CMD_PORTAMENTODOWN
  | CMD_VOLUMESLIDE
  | CMD_POSITIONJUMP
  | CMD_VOLUME
  | CMD_SPEED
  | CMD_MODCMDEX
  deriving DecidableEq, Repr

/-- A pattern cell (`MODCOMMAND`): the fields the loader touches.  They are `BYTE`
fields, so the stores of `note + 48` and `p[1] + 1` are reduced modulo 256. -/
structure MODCOMMAND where
  note : Nat
  instr : Nat
  command : Command
  param : Nat
  deriving DecidableEq, Repr

/-- A zero-initialised cell. -/
def zeroCell : MODCOMMAND := ⟨0, 0, Command.CMD_NONE, 0⟩

/-- The instrument header (`MODINSTRUMENT`): the fields the loader touches, and the
sample data `pSample` that `ReadSample` fills. -/
structure MODINSTRUMENT where
  pSample : List BYTE
  nLength : Nat
  nLoopStart : Nat
  nLoopEnd : Nat
  nC4Speed : Nat
  nVolume : Nat
  nGlobalVol : Nat
  uFlags : Nat
  deriving DecidableEq, Repr

/-- The part of `CSoundFile` the loader reads or writes. -/
structure CSoundFile where
  m_nType : Nat
  m_nChannels : Nat
  m_nSamples : Nat
  m_nDefaultSpeed : Nat
  Ins : Nat → MODINSTRUMENT
  m_szNames : Nat → Nat → BYTE
  Order : Nat → Nat
  Patterns : Nat → Option (List MODCOMMAND)
  PatternSize : Nat → Nat

/-- The song together with the ghost flag `oob`. -/
structure St where
  song : CSoundFile
  oob : Bool

/-- Ghost: a read of `n` bytes of the stream starting at offset `off`. -/
def St.rd (s : St) (dwMemLength off n : Nat) : St :=
  { s with oob := s.oob || decide (dwMemLength < off + n) }

/-- Ghost: an access to element `i` of an array of `bound` elements. -/
def St.ix (s : St) (bound i : Nat) : St :=
  { s with oob := s.oob || decide (bound ≤ i) }

/-- The body of the cell loop (lines 151-205): decode the quad at `p` into the cell `m`. -/
def decodeCell (m : MODCOMMAND) (p : Nat → BYTE) : MODCOMMAND :=
  let note := (p 0).val
  let m1 : MODCOMMAND :=
    if note ≠ 0 then { m with note := (note + 48) % 256, instr := ((p 1).val + 1) % 256 } else m
  let command := (p 2).val
  let param := (p 3).val
  let m2 : MODCOMMAND := { m1 with param := param }
  if command = 0 then m2
  else if command = 1 ∨ command = 17 ∨ command = 30 then
    if param ≠ 0 then { m2 with command := Command.CMD_PORTAMENTOUP } else m2
  else if command = 2 ∨ command = 13 ∨ command = 21 then
    if param ≠ 0 then { m2 with command := Command.CMD_PORTAMENTODOWN } else m2
  else if command = 10 ∨ command = 11 ∨ command = 12 then
    { m2 with command := Command.CMD_ARPEGGIO }
  else if command = 15 then
    { m2 with command := Command.CMD_MODCMDEX, param := param &&& 0x0F }
  else if command = 25 then { m2 with command := Command.CMD_POSITIONJUMP }
  else if command = 28 then { m2 with command := Command.CMD_SPEED }
  else if command = 31 then
    if param ≤ 0x40 then { m2 with command := Command.CMD_VOLUME }
    else if param ≤ 0x50 then
      let q := m2.param &&& 0x0F
      { m2 with command := Command.CMD_VOLUMESLIDE, param := if q = 0 then 0x0F else q }
    else if param ≤ 0x60 then
      let q := (param &&& 0x0F) <<< 4
      { m2 with command := Command.CMD_VOLUMESLIDE, param := if q = 0 then 0xF0 else q }
    else if param ≤ 0x70 then
      { m2 with command := Command.CMD_MODCMDEX,
                param := if param &&& 0x0F = 0 then 0xBF else 0xB0 ||| (param &&& 0x0F) }
    else if param ≤ 0x80 then
      { m2 with command := Command.CMD_MODCMDEX,
                param := if param &&& 0x0F = 0 then 0xAF else 0xA0 ||| (param &&& 0x0F) }
    else m2
  else m2

/-- Outcome of a section of `ReadOKT`: `done` is an early `return TRUE`, `next` falls
through to the following section with the live locals, `stuck` is a loop out of fuel. -/
inductive Flow (α : Type) where
  | done (s : St)
  | next (a : α) (s : St)
  | stuck

/-- Sequencing of sections. -/
def Flow.bind {α β : Type} (f : Flow α) (k : α → St → Flow β) : Flow β :=
  match f with
  | .done s => .done s
  | .next a s => k a s
  | .stuck => .stuck

/-- The external collaborators: `allocOk n` says whether the `AllocatePattern` call made
for pattern `n` succeeds, `ReadSample ins nFlags lpMemFile dwMemLength` is the
instrument left by `CSoundFile::ReadSample`. -/
structure Collab where
  allocOk : Nat → Bool
  ReadSample : MODINSTRUMENT → Nat → (Nat → BYTE) → Nat → MODINSTRUMENT

/-- Modelled from the spec: `CSoundFile::AllocatePattern(rows, nchns)` (sndfile.cpp, not
part of the sources at hand) returns a zero-initialised grid of `rows × nchns` cells,
or `NULL` when the grid cannot be obtained. -/
def AllocatePattern (ok : Bool) (rows nchns : Nat) : Option (List MODCOMMAND) :=
  if ok then some (List.replicate (rows * nchns) zeroCell) else none

/-- The header test of lines 57-63: true when `ReadOKT` rejects the header. -/
def badHeader (lp : Nat → BYTE) : Prop :=
  bswapBE32 (ptr lp 0) ≠ MAGIC (chr 'O') (chr 'K') (chr 'T') (chr 'A')
  ∨ bswapBE32 (ptr lp 4) ≠ MAGIC (chr 'S') (chr 'O') (chr 'N') (chr 'G')
  ∨ bswapBE32 (ptr lp 8) ≠ MAGIC (chr 'C') (chr 'M') (chr 'O') (chr 'D')
  ∨ bswapBE32 (ptr lp 12) ≠ 8
  ∨ (lp 16).val ≠ 0 ∨ (lp 18).val ≠ 0
  ∨ (lp 20).val ≠ 0 ∨ (lp 22).val ≠ 0
  ∨ bswapBE32 (ptr lp 24) ≠ MAGIC (chr 'S') (chr 'A') (chr 'M') (chr 'P')

instance (lp : Nat → BYTE) : Decidable (badHeader lp) := by
  unfold badHeader; infer_instance

/-- Lines 64-69: the assignments made from an accepted header. -/
def initSong (K : Consts) (lp : Nat → BYTE) (f : CSoundFile) : CSoundFile :=
  let nch := u32 (4 + (lp 17).val + (lp 19).val + (lp 21).val + (lp 23).val)
  let nsamples := bswapBE32 (ptr lp 28) >>> 5
  { f with
    m_nType := K.MOD_TYPE_OKT
    m_nChannels := if nch > K.MAX_CHANNELS then K.MAX_CHANNELS else nch
    m_nSamples := if nsamples ≥ K.MAX_SAMPLES then K.MAX_SAMPLES - 1 else nsamples }

/-- Lines 76-87: decode the sample record at `dwMemPos` into slot `smp`. -/
def storeSample (K : Consts) (lp : Nat → BYTE) (dwMemPos smp : Nat) (f : CSoundFile) :
    CSoundFile :=
  let psmp := ptr lp dwMemPos
  let nLoopStart := bswapBE16 (ptr psmp 24)
  let nLoopEnd := u32 (nLoopStart + bswapBE16 (ptr psmp 26))
  { f with
    m_szNames := Function.update f.m_szNames smp
      (fun j => if j < 20 then psmp j else f.m_szNames smp j)
    Ins := Function.update f.Ins smp
      { f.Ins smp with
        uFlags := if u32 (nLoopStart + 2) < nLoopEnd then 0 ||| K.CHN_LOOP else 0
        nLength := bswapBE32 (ptr psmp 20) &&& 0xFFFFFFFE
        nLoopStart := nLoopStart
        nLoopEnd := nLoopEnd
        nGlobalVol := 64
        nVolume := (psmp 29).val <<< 2
        nC4Speed := 8363 } }

/-- Lines 71-90, the sample loop with `n` iterations left (`n = nsamples + 1 - smp`).
`dwMemLength - sizeof(OKTSAMPLE)` cannot wrap: `dwMemLength ≥ 1024` here. -/
def readSamples (K : Consts) (lp : Nat → BYTE) (dwMemLength : Nat) :
    Nat → Nat → Nat → St → Flow Nat
  | 0, _, dwMemPos, s => .next dwMemPos s
  | n + 1, smp, dwMemPos, s =>
    if dwMemPos ≥ dwMemLength - 32 then .done s
    else
      let s1 : St :=
        if smp < K.MAX_SAMPLES then
          { (((s.rd dwMemLength dwMemPos 28).rd dwMemLength (dwMemPos + 29) 1).ix
              K.MAX_SAMPLES smp) with
            song := storeSample K lp dwMemPos smp s.song }
        else s
      readSamples K lp dwMemLength n (smp + 1) (u32 (dwMemPos + 32)) s1

/-- The skip discipline (lines 97-99, 107-109, 117-119, 131-133, 210-212, 221-223). -/
def skipChunk (lp : Nat → BYTE) (dwMemLength dwMemPos : Nat) (s : St) : Flow Nat :=
  let dwSize := readBE32 (ptr lp (dwMemPos + 4))
  let s1 := s.rd dwMemLength (dwMemPos + 4) 4
  if dwSize > subDW dwMemLength 8 ∨ dwMemPos > subDW (subDW dwMemLength dwSize) 8 then
    .done s1
  else .next (u32 (dwMemPos + u32 (dwSize + 8))) s1

/-- Lines 92-100: the SPEE chunk. -/
def speeChunk (lp : Nat → BYTE) (dwMemLength dwMemPos : Nat) (s : St) : Flow Nat :=
  if dwMemPos ≥ subDW dwMemLength 12 then .done s
  else
    let s0 := s.rd dwMemLength dwMemPos 4
    if readBE32 (ptr lp dwMemPos) = MAGIC (chr 'S') (chr 'P') (chr 'E') (chr 'E') then
      let s1 := s0.rd dwMemLength (u32 (dwMemPos + 9)) 1
      skipChunk lp dwMemLength dwMemPos
        { s1 with song := { s1.song with m_nDefaultSpeed := (lp (u32 (dwMemPos + 9))).val } }
    else .next dwMemPos s0

/-- Lines 102-110: the SLEN chunk. -/
def slenChunk (lp : Nat → BYTE) (dwMemLength dwMemPos : Nat) (s : St) : Flow Nat :=
  if u32 (dwMemPos + 10) > dwMemLength then .done s
  else
    let s0 := s.rd dwMemLength dwMemPos 4
    if readBE32 (ptr lp dwMemPos) = MAGIC (chr 'S') (chr 'L') (chr 'E') (chr 'N') then
      skipChunk lp dwMemLength dwMemPos s0
    else .next dwMemPos s0

/-- Lines 112-120: the PLEN chunk; the local `norders` (initially 0) is passed on. -/
def plenChunk (lp : Nat → BYTE) (dwMemLength dwMemPos : Nat) (s : St) : Flow (Nat × Nat) :=
  if u32 (dwMemPos + 10) > dwMemLength then .done s
  else
    let s0 := s.rd dwMemLength dwMemPos 4
    if readBE32 (ptr lp dwMemPos) = MAGIC (chr 'P') (chr 'L') (chr 'E') (chr 'N') then
      let norders := (lp (u32 (dwMemPos + 9))).val
      (skipChunk lp dwMemLength dwMemPos (s0.rd dwMemLength (u32 (dwMemPos + 9)) 1)).bind
        fun pos s1 => .next (pos, norders) s1
    else .next (dwMemPos, 0) s0

/-- Line 128: the copy loop, `n` iterations left, at index `i`. -/
def copyOrders (K : Consts) (lp : Nat → BYTE) (dwMemLength dwMemPos : Nat) :
    Nat → Nat → St → St
  | 0, _, s => s
  | n + 1, i, s =>
    let k := u32 (u32 (dwMemPos + 8) + i)
    copyOrders K lp dwMemLength dwMemPos n (i + 1)
      { ((s.rd dwMemLength k 1).ix K.MAX_ORDERS i) with
        song := { s.song with Order := Function.update s.song.Order i (lp k).val } }

/-- Line 129: the backward loop `for (j; j>1; j--)`, entered with the value `j`. -/
def trimOrders (K : Consts) : Nat → St → St
  | 0, s => s
  | j + 1, s =>
    if j + 1 > 1 then
      if s.song.Order j ≠ 0 then s.ix K.MAX_ORDERS j
      else trimOrders K j
        { (s.ix K.MAX_ORDERS j) with
          song := { s.song with Order := Function.update s.song.Order j 0xFF } }
    else s

/-- Lines 122-134: the PATT chunk. -/
def pattChunk (K : Consts) (lp : Nat → BYTE) (dwMemLength dwMemPos norders : Nat) (s : St) :
    Flow Nat :=
  if u32 (dwMemPos + 8) > dwMemLength then .done s
  else
    let s0 := s.rd dwMemLength dwMemPos 4
    if readBE32 (ptr lp dwMemPos) = MAGIC (chr 'P') (chr 'A') (chr 'T') (chr 'T') then
      let orderlen := if norders ≥ K.MAX_ORDERS then K.MAX_ORDERS - 1 else norders
      if u32 (u32 (dwMemPos + 8) + orderlen) > dwMemLength then .done s0
      else
        skipChunk lp dwMemLength dwMemPos
          (trimOrders K orderlen (copyOrders K lp dwMemLength dwMemPos orderlen 0 s0))
    else .next dwMemPos s0

/-- Lines 148-206: the cell loop with `n` iterations left, at cell `i`, reading at
`dwPos`; the second component is the ghost flag. -/
def fillCells (lp : Nat → BYTE) (dwMemLength : Nat) :
    Nat → Nat → Nat → List MODCOMMAND × Bool → List MODCOMMAND × Bool
  | 0, _, _, g => g
  | n + 1, i, dwPos, g =>
    if u32 (dwPos + 4) > dwMemLength then g
    else
      fillCells lp dwMemLength n (i + 1) (u32 (dwPos + 4))
        (g.1.set i (decodeCell (g.1.getD i zeroCell) (ptr lp dwPos)),
         g.2 || decide (dwMemLength < dwPos + 4) || decide (g.1.length ≤ i))

/-- Lines 137-213: the PBOD loop. -/
def pbodLoop (K : Consts) (E : Collab) (lp : Nat → BYTE) (dwMemLength : Nat) :
    Nat → Nat → Nat → St → Flow Nat
  | 0, _, _, _ => .stuck
  | fuel + 1, npat, dwMemPos, s =>
    if dwMemPos < subDW dwMemLength 10 then
      let s0 := s.rd dwMemLength dwMemPos 4
      if readBE32 (ptr lp dwMemPos) = MAGIC (chr 'P') (chr 'B') (chr 'O') (chr 'D') then
        let dwPos := u32 (dwMemPos + 10)
        let rows0 := (lp (u32 (dwMemPos + 9))).val
        let s1 := s0.rd dwMemLength (u32 (dwMemPos + 9)) 1
        let rows := if rows0 = 0 then 64 else rows0
        if npat < K.MAX_PATTERNS then
          match AllocatePattern (E.allocOk npat) rows s1.song.m_nChannels with
          | none =>
            .done { (s1.ix K.MAX_PATTERNS npat) with
                    song := { s1.song with
                              Patterns := Function.update s1.song.Patterns npat none } }
          | some grid =>
            let imax := u32 (s1.song.m_nChannels * rows)
            let g := fillCells lp dwMemLength imax 0 dwPos (grid, (s1.ix K.MAX_PATTERNS npat).oob)
            (skipChunk lp dwMemLength dwMemPos
              { song := { s1.song with
                          Patterns := Function.update s1.song.Patterns npat (some g.1)
                          PatternSize := Function.update s1.song.PatternSize npat rows }
                oob := g.2 }).bind
              fun pos s2 => pbodLoop K E lp dwMemLength fuel (npat + 1) pos s2
        else
          (skipChunk lp dwMemLength dwMemPos s1).bind
            fun pos s2 => pbodLoop K E lp dwMemLength fuel (npat + 1) pos s2
      else .next dwMemPos s0
    else .next dwMemPos s

/-- Lines 216-224: the SBOD loop. -/
def sbodLoop (K : Consts) (E : Collab) (lp : Nat → BYTE) (dwMemLength : Nat) :
    Nat → Nat → Nat → St → Flow Nat
  | 0, _, _, _ => .stuck
  | fuel + 1, nsmp, dwMemPos, s =>
    if dwMemPos < subDW dwMemLength 10 then
      let s0 := s.rd dwMemLength dwMemPos 4
      if readBE32 (ptr lp dwMemPos) = MAGIC (chr 'S') (chr 'B') (chr 'O') (chr 'D') then
        let s1 : St :=
          if nsmp < K.MAX_SAMPLES then
            { (s0.ix K.MAX_SAMPLES nsmp) with
              song := { s0.song with
                        Ins := Function.update s0.song.Ins nsmp
                          (E.ReadSample (s0.song.Ins nsmp) K.RS_PCM8S (ptr lp (dwMemPos + 8))
                            (subDW (subDW dwMemLength dwMemPos) 8)) } }
          else s0
        (skipChunk lp dwMemLength dwMemPos s1).bind
          fun pos s2 => sbodLoop K E lp dwMemLength fuel (nsmp + 1) pos s2
      else .next dwMemPos s0
    else .next dwMemPos s

/-- Lines 70-225: everything after the header assignments. -/
def parseBody (K : Consts) (E : Collab) (lp : Nat → BYTE) (dwMemLength : Nat) (s : St) :
    Flow Nat :=
  (readSamples K lp dwMemLength (bswapBE32 (ptr lp 28) >>> 5) 1 32 s).bind fun pos s =>
  (speeChunk lp dwMemLength pos s).bind fun pos s =>
  (slenChunk lp dwMemLength pos s).bind fun pos s =>
  (plenChunk lp dwMemLength pos s).bind fun pn s =>
  (pattChunk K lp dwMemLength pn.1 pn.2 s).bind fun pos s =>
  (pbodLoop K E lp dwMemLength (dwMemLength + 1) 0 pos s).bind fun pos s =>
  sbodLoop K E lp dwMemLength (dwMemLength + 1) 1 pos s

/-- The function `CSoundFile::ReadOKT(lpStream, dwMemLength)` run on the state `s`.
`none`: a loop ran out of fuel; `some (r, t)`: it returns `r` and leaves `t`. -/
def ReadOKT (K : Consts) (E : Collab) (lpStream : Option (Nat → BYTE)) (dwMemLength : Nat)
    (s : St) : Option (Bool × St) :=
  match lpStream with
  | none => some (false, s)
  | some lp =>
    if dwMemLength < 1024 then some (false, s)
    else if badHeader lp then some (false, s.rd dwMemLength 0 32)
    else
      match parseBody K E lp dwMemLength
          { (s.rd dwMemLength 0 32) with song := initSong K lp s.song } with
      | .done t => some (true, t)
      | .next _ t => some (true, t)
      | .stuck => none

/-! ## Specification vocabulary and test data -/

/-- A section outcome satisfies `D` (early return) or `N` (fall through); in particular
it is not out of fuel. -/
def Flow.Sat {α : Type} (D : St → Prop) (N : α → St → Prop) : Flow α → Prop
  | .done s => D s
  | .next a s => N a s
  | .stuck => False

/-- The fields written from the header are the same in `t` as in `s`. -/
def Frame (s t : St) : Prop :=
  t.song.m_nType = s.song.m_nType ∧ t.song.m_nChannels = s.song.m_nChannels ∧
    t.song.m_nSamples = s.song.m_nSamples

/-- The detection-failure condition of lines 56-63. -/
def Rejected (lpStream : Option (Nat → BYTE)) (dwMemLength : Nat) : Prop :=
  match lpStream with
  | none => True
  | some lp => dwMemLength < 1024 ∨ badHeader lp

instance (lpStream : Option (Nat → BYTE)) (dwMemLength : Nat) :
    Decidable (Rejected lpStream dwMemLength) := by
  unfold Rejected; cases lpStream <;> infer_instance

/-- The state a section ends in, if it is not out of fuel. -/
def Flow.state {α : Type} : Flow α → Option St
  | .done s => some s
  | .next _ s => some s
  | .stuck => none

/-- The cursor a section hands to the next one, if it falls through. -/
def Flow.cursor : Flow Nat → Option Nat
  | .next p _ => some p
  | _ => none

/-- The stream that holds the bytes of `l` and zeros after them. -/
def memOf (l : List BYTE) : Nat → BYTE := fun i => l.getD i 0

/-- An instrument with every field zero. -/
def zeroIns : MODINSTRUMENT := ⟨[], 0, 0, 0, 0, 0, 0, 0⟩

/-- A song with every field zero or `NULL`. -/
def song0 : CSoundFile :=
  ⟨0, 0, 0, 0, fun _ => zeroIns, fun _ _ => 0, fun _ => 0, fun _ => none, fun _ => 0⟩

/-- The zero song with the ghost flag down. -/
def st0 : St := ⟨song0, false⟩

/-- Collaborators: every allocation succeeds, `ReadSample` leaves the instrument as is. -/
def allocAlways : Collab := ⟨fun _ => true, fun ins _ _ _ => ins⟩

/-- Collaborators: every allocation fails. -/
def allocNever : Collab := ⟨fun _ => false, fun ins _ _ _ => ins⟩

/-- A valid 32-byte header: tags, `cmodlen = 8`, channel setup `0,1,0,1,0,1,0,1`,
`samplen = 0`. -/
def okHeader : List BYTE :=
  [79, 75, 84, 65, 83, 79, 78, 71, 67, 77, 79, 68, 0, 0, 0, 8,
   0, 1, 0, 1, 0, 1, 0, 1, 83, 65, 77, 80, 0, 0, 0, 0]

/-- The valid header followed by a `PBOD` chunk of declared length 6 with 1 row. -/
def pbodFile : List BYTE := okHeader ++ [80, 66, 79, 68, 0, 0, 0, 6, 0, 1, 7, 2, 1, 5]

/-- The valid header followed by a `SPEE` chunk whose declared length `0xFFFFFFD7` moves
the cursor to `0xFFFFFFFF`. -/
def wrapFile : List BYTE := okHeader ++ [83, 80, 69, 69, 0xFF, 0xFF, 0xFF, 0xD7, 0, 6]

/-- A `PATT` chunk with the five order bytes `5, 0, 3, 0, 0`. -/
def pattFile : List BYTE := [80, 65, 84, 84, 0, 0, 0, 5, 5, 0, 3, 0, 0]

/-- A `PATT` chunk with the five order bytes `5, 3, 0, 0, 0`. -/
def pattFile2 : List BYTE := [80, 65, 84, 84, 0, 0, 0, 5, 5, 3, 0, 0, 0]

/-- A sample record at offset 32: name `"lead"`, length `0x00001235`, loop start
`0x0010`, loop length `0x0003`, volume `0x40`. -/
def sampleFile : List BYTE :=
  [79, 75, 84, 65, 83, 79, 78, 71, 67, 77, 79, 68, 0, 0, 0, 8,
   0, 1, 0, 1, 0, 1, 0, 1, 83, 65, 77, 80, 0, 0, 0, 32,
   108, 101, 97, 100, 0, 0, 0, 0, 0, 0, 0, 0, 0, 0, 0, 0, 0, 0, 0, 0,
   0, 0, 0x12, 0x35, 0, 0x10, 0, 3, 0, 0x40, 0, 0]

/-- A cell quad: note 0, instrument 0, command 15, parameter `0x37`. -/
def quadFile : List BYTE := [0, 0, 15, 0x37]

/-- A cell quad: note 0, instrument 0, command 31, parameter `0x45`. -/
def volQuad : List BYTE := [0, 0, 31, 0x45]

/-- A cell quad: note 12, instrument 4, command 0, parameter 0. -/
def noteQuad : List BYTE := [12, 4, 0, 0]

/-- A valid header that declares a sample table of `0x3E0 = 992` bytes (31 records). -/
def okHeader31 : List BYTE :=
  [79, 75, 84, 65, 83, 79, 78, 71, 67, 77, 79, 68, 0, 0, 0, 8,
   0, 1, 0, 1, 0, 1, 0, 1, 83, 65, 77, 80, 0, 0, 3, 0xE0]

/-- A stream of 1024 bytes: the header that declares 31 records, 30 zero records, and
record 31 (name `"x"`, volume `0x40`) in the bytes 992 .. 1023, ending exactly at the
last byte. -/
def lastRecordFile : List BYTE :=
  okHeader31 ++ List.replicate 960 0 ++ ([120] ++ List.replicate 28 0 ++ [0x40, 0, 0])

/-- A stream of 1034 bytes: the header that declares 31 records, 31 zero records, and a
`SPEE` chunk with speed 6 in the last 10 bytes (1024 .. 1033). -/
def speeTailFile : List BYTE :=
  okHeader31 ++ List.replicate 992 0 ++ [83, 80, 69, 69, 0, 0, 0, 2, 0, 6]

/-- A stream of 1024 bytes: the valid header, a `SPEE` chunk of declared length
`0x3CE = 974` (so the skip leads to offset 1014), and a `PBOD` chunk with 3 rows in the
last 10 bytes (1014 .. 1023). -/
def pbodTailFile : List BYTE :=
  okHeader ++ [83, 80, 69, 69, 0, 0, 3, 0xCE, 0, 6] ++ List.replicate 972 0
    ++ [80, 66, 79, 68, 0, 0, 0, 2, 0, 3]

/-- The valid header (no sample record declared) followed by an `SBOD` chunk. -/
def sbodFile : List BYTE := okHeader ++ [83, 66, 79, 68, 0, 0, 0, 4, 1, 2, 3, 4]

/-- Collaborators: every allocation succeeds, `ReadSample` adds one to `nLength`. -/
def bumpSample : Collab :=
  ⟨fun _ => true, fun ins _ _ _ => { ins with nLength := ins.nLength + 1 }⟩

/-- The songs `a` and `b` of two runs on one stream, the second run started on the song
`e`: the fields set from the header agree, and every other location of `b` holds what
`a` holds there or still what `e` holds there; an instrument of `b` may also be the
instrument of `a` with the sample data of `e`. -/
structure Replay (e a b : CSoundFile) : Prop where
  hType : b.m_nType = a.m_nType
  hChn : b.m_nChannels = a.m_nChannels
  hSmp : b.m_nSamples = a.m_nSamples
  hSpeed : b.m_nDefaultSpeed = a.m_nDefaultSpeed ∨ b.m_nDefaultSpeed = e.m_nDefaultSpeed
  hIns : ∀ k, b.Ins k = a.Ins k ∨ b.Ins k = e.Ins k ∨
    b.Ins k = { a.Ins k with pSample := (e.Ins k).pSample }
  hNames : ∀ k j, b.m_szNames k j = a.m_szNames k j ∨ b.m_szNames k j = e.m_szNames k j
  hOrder : ∀ i, b.Order i = a.Order i ∨ b.Order i = e.Order i
  hPat : ∀ n, b.Patterns n = a.Patterns n ∨ b.Patterns n = e.Patterns n
  hSize : ∀ n, b.PatternSize n = a.PatternSize n ∨ b.PatternSize n = e.PatternSize n

/-- Two section outcomes of the same kind, with the same cursor, whose states are
related by `R`. -/
def Flow.Sim {α : Type} (R : St → St → Prop) : Flow α → Flow α → Prop
  | .done a, .done b => R a b
  | .next x a, .next y b => x = y ∧ R a b
  | .stuck, .stuck => True
  | _, _ => False

/-- The valid header, an `SLEN` chunk, then a `SPEE` chunk (speed 6) after its turn. -/
def lateSpeeFile : List BYTE :=
  okHeader ++ [83, 76, 69, 78, 0, 0, 0, 2, 0, 1] ++ [83, 80, 69, 69, 0, 0, 0, 2, 0, 6]

/-- The valid header, then a `PATT` chunk of declared length 2 before any other chunk. -/
def earlyPattFile : List BYTE := okHeader ++ [80, 65, 84, 84, 0, 0, 0, 2, 0, 0]

/-- A stream of `0xFFFFFFFF` bytes: the valid header, a `SPEE` chunk whose declared
length `0xFFFFFFCC` moves the cursor to `0xFFFFFFF4`, and there a `PBOD` chunk of
declared length 0 with 1 row; every other byte is 0. -/
def farPbodFile : Nat → BYTE := fun i =>
  if i < 0xFFFFFFF4 then memOf (okHeader ++ [83, 80, 69, 69, 0xFF, 0xFF, 0xFF, 0xCC, 0, 6]) i
  else memOf [80, 66, 79, 68, 0, 0, 0, 0, 0, 1] (i - 0xFFFFFFF4)

/-- The valid header, then a `PBOD` chunk of declared length 2 with 1 row; the bytes
after the declared payload hold a cell quad (note 12, instrument 4). -/
def shortPbodFile : List BYTE :=
  okHeader ++ [80, 66, 79, 68, 0, 0, 0, 2, 0, 1, 12, 4, 0, 0]

/-- The stream `shortPbodFile` with the byte at offset 38 set to 1: the declared length
of the `PBOD` chunk is 258 instead of 2. -/
def longPbodFile : Nat → BYTE := fun i => if i = 38 then 1 else memOf shortPbodFile i

/-- The valid header, then a `PBOD` chunk with 1 row and a cell quad (note 12,
instrument 4) whose declared length 1024 exceeds a stream of 1024 bytes. -/
def overlongPbodFile : List BYTE :=
  okHeader ++ [80, 66, 79, 68, 0, 0, 4, 0, 0, 1, 12, 4, 0, 0]

/-- The valid header, then an `SBOD` chunk whose declared length 1024 exceeds a stream
of 1024 bytes. -/
def overlongSbodFile : List BYTE := okHeader ++ [83, 66, 79, 68, 0, 0, 4, 0, 1, 2, 3, 4]

/-- The valid header, then a `SPEE` chunk (speed 6) whose declared length 1024 exceeds a
stream of 1024 bytes. -/
def overlongSpeeFile : List BYTE := okHeader ++ [83, 80, 69, 69, 0, 0, 4, 0, 0, 6]

/-! ## Arithmetic of the byte decoders -/

/-- The shift-and-or of `MAGIC`/`readBE32` is the big-endian number of four digits. -/
theorem be32_arith (a b c d : Nat) (hb : b < 256) (hc : c < 256) (hd : d < 256) :
    (a <<< 24) ||| (b <<< 16) ||| (c <<< 8) ||| d
      = a * 16777216 + b * 65536 + c * 256 + d := by
  have e1 : (a <<< 24) ||| (b <<< 16) = a * 16777216 + b * 65536 := by
    rw [Nat.shiftLeft_eq, Nat.shiftLeft_eq]
    have := Nat.mul_add_lt_is_or (i := 24) (b := b * 2 ^ 16) (by omega) a
    rw [Nat.mul_comm (2 ^ 24) a] at this
    rw [← this]
    norm_num
  have e2 : (a * 16777216 + b * 65536) ||| (c <<< 8) = a * 16777216 + b * 65536 + c * 256 := by
    rw [Nat.shiftLeft_eq]
    have := Nat.mul_add_lt_is_or (i := 16) (b := c * 2 ^ 8) (by omega) (a * 256 + b)
    have e : 2 ^ 16 * (a * 256 + b) = a * 16777216 + b * 65536 := by ring
    rw [e] at this
    rw [← this]
    norm_num
  have e3 : (a * 16777216 + b * 65536 + c * 256) ||| d
      = a * 16777216 + b * 65536 + c * 256 + d := by
    have := Nat.mul_add_lt_is_or (i := 8) (b := d) (by omega) (a * 65536 + b * 256 + c)
    have e : 2 ^ 8 * (a * 65536 + b * 256 + c) = a * 16777216 + b * 65536 + c * 256 := by ring
    rw [e] at this
    exact this.symm
  rw [e1, e2, e3]

/-- The value of `readBE32` as a big-endian number. -/
theorem readBE32_eq (v : Nat → BYTE) :
    readBE32 v = (v 0).val * 16777216 + (v 1).val * 65536 + (v 2).val * 256 + (v 3).val := by
  unfold readBE32 u32
  rw [be32_arith _ _ _ _ (v 1).isLt (v 2).isLt (v 3).isLt]
  have := (v 0).isLt
  omega

/-- The value of `readBE32` is a `DWORD`. -/
theorem readBE32_lt (v : Nat → BYTE) : readBE32 v < 4294967296 := by
  unfold readBE32 u32
  omega

/-- The value of `bswapBE16` as a big-endian number. -/
theorem bswapBE16_eq (v : Nat → BYTE) : bswapBE16 v = (v 0).val * 256 + (v 1).val := by
  unfold bswapBE16
  rw [Nat.shiftLeft_eq]
  have := Nat.mul_add_lt_is_or (i := 8) (b := (v 1).val) (v 1).isLt (v 0).val
  rw [Nat.mul_comm] at this
  exact this.symm

/-- On a `DWORD`, `& ~1` clears bit 0. -/
theorem clear_bit0 (x : Nat) (hx : x < 4294967296) : x &&& 0xFFFFFFFE = x - x % 2 := by
  have h1 : x = Nat.bit (x % 2 == 1) (x / 2) := by
    rcases Nat.mod_two_eq_zero_or_one x with h | h <;> simp [Nat.bit, h] <;> omega
  have h2 : (0xFFFFFFFE : Nat) = Nat.bit false 2147483647 := by simp [Nat.bit]
  have h3 : (x / 2) &&& 2147483647 = x / 2 := by
    have := Nat.and_pow_two_sub_one_eq_mod (x / 2) 31
    norm_num at this
    rw [this]
    exact Nat.mod_eq_of_lt (by omega)
  conv_lhs => rw [h1, h2, Nat.land_bit]
  rw [h3]
  simp [Nat.bit]
  omega

/-! ## Sections of the parse: totality and the header fields -/

/-- Sequencing two sections that satisfy their conditions. -/
theorem Flow.Sat_bind {α β : Type} {D : St → Prop} {N : α → St → Prop} {N' : β → St → Prop}
    {f : Flow α} {k : α → St → Flow β} (hf : f.Sat D N)
    (hk : ∀ a s, N a s → (k a s).Sat D N') : (f.bind k).Sat D N' := by
  cases f with
  | done s => exact hf
  | next a s => exact hk a s hf
  | stuck => exact hf.elim

/-- Weakening of the conditions of `Flow.Sat`. -/
theorem Flow.Sat_mono {α : Type} {D D' : St → Prop} {N N' : α → St → Prop} {f : Flow α}
    (hf : f.Sat D N) (hD : ∀ s, D s → D' s) (hN : ∀ a s, N a s → N' a s) : f.Sat D' N' := by
  cases f with
  | done s => exact hD s hf
  | next a s => exact hN a s hf
  | stuck => exact hf.elim

/-- The relation `Frame` is reflexive. -/
theorem Frame.refl (s : St) : Frame s s := ⟨rfl, rfl, rfl⟩

/-- The relation `Frame` is transitive. -/
theorem Frame.trans {s t u : St} (h1 : Frame s t) (h2 : Frame t u) : Frame s u :=
  ⟨h2.1.trans h1.1, h2.2.1.trans h1.2.1, h2.2.2.trans h1.2.2⟩

/-- The skip discipline leaves the song alone; when it falls through, the new cursor is
`dwMemPos + dwSize + 8`, computed without wrap-around, and at most `dwMemLength`. -/
theorem skipChunk_sat (lp : Nat → BYTE) (len pos : Nat) (s : St)
    (h12 : 12 ≤ len) (hlen : len < 4294967296) :
    (skipChunk lp len pos s).Sat (fun t => t.song = s.song)
      (fun p t => t.song = s.song ∧ p = pos + readBE32 (ptr lp (pos + 4)) + 8 ∧ p ≤ len) := by
  unfold skipChunk
  simp only
  generalize readBE32 (ptr lp (pos + 4)) = d
  split_ifs with h
  · exact rfl
  · refine ⟨rfl, ?_, ?_⟩ <;> (unfold u32 subDW at *; omega)


/-- A state with the same song is in the same `Frame`. -/
theorem Frame.of_song_eq {s t u : St} (h : Frame s t) (e : u.song = t.song) : Frame s u := by
  unfold Frame at *; rw [e]; exact h

/-- The skip discipline keeps the header fields and moves the cursor forward. -/
theorem skipChunk_frame (lp : Nat → BYTE) (len pos : Nat) (s s0 : St)
    (h12 : 12 ≤ len) (hlen : len < 4294967296) (h0 : Frame s0 s) :
    (skipChunk lp len pos s).Sat (Frame s0) (fun p t => Frame s0 t ∧ pos < p ∧ p ≤ len) :=
  Flow.Sat_mono (skipChunk_sat lp len pos s h12 hlen)
    (fun _ e => h0.of_song_eq e) (fun _ _ e => ⟨h0.of_song_eq e.1, by omega, e.2.2⟩)

/-- The sample loop keeps the header fields. -/
theorem readSamples_frame (K : Consts) (lp : Nat → BYTE) (len : Nat) :
    ∀ (n smp pos : Nat) (s s0 : St), Frame s0 s →
      (readSamples K lp len n smp pos s).Sat (Frame s0) (fun _ t => Frame s0 t) := by
  intro n
  induction n with
  | zero => intro smp pos s s0 h; exact h
  | succ n ih =>
    intro smp pos s s0 h
    rw [readSamples]
    split_ifs with h1 h2
    · exact h
    · exact ih _ _ _ _ h
    · exact ih _ _ _ _ h

/-- The SPEE section keeps the header fields. -/
theorem speeChunk_frame (lp : Nat → BYTE) (len pos : Nat) (s s0 : St)
    (h12 : 12 ≤ len) (hlen : len < 4294967296) (h0 : Frame s0 s) :
    (speeChunk lp len pos s).Sat (Frame s0) (fun _ t => Frame s0 t) := by
  unfold speeChunk
  split_ifs with h1 h2
  · exact h0
  · exact Flow.Sat_mono (skipChunk_frame lp len pos _ s0 h12 hlen h0) (fun _ h => h)
      (fun _ _ h => h.1)
  · exact h0

/-- The SLEN section keeps the header fields. -/
theorem slenChunk_frame (lp : Nat → BYTE) (len pos : Nat) (s s0 : St)
    (h12 : 12 ≤ len) (hlen : len < 4294967296) (h0 : Frame s0 s) :
    (slenChunk lp len pos s).Sat (Frame s0) (fun _ t => Frame s0 t) := by
  unfold slenChunk
  split_ifs with h1 h2
  · exact h0
  · exact Flow.Sat_mono (skipChunk_frame lp len pos _ s0 h12 hlen h0) (fun _ h => h)
      (fun _ _ h => h.1)
  · exact h0

/-- The PLEN section keeps the header fields. -/
theorem plenChunk_frame (lp : Nat → BYTE) (len pos : Nat) (s s0 : St)
    (h12 : 12 ≤ len) (hlen : len < 4294967296) (h0 : Frame s0 s) :
    (plenChunk lp len pos s).Sat (Frame s0) (fun _ t => Frame s0 t) := by
  unfold plenChunk
  split_ifs with h1 h2
  · exact h0
  · exact Flow.Sat_bind (skipChunk_frame lp len pos _ s0 h12 hlen h0) (fun _ _ h => h.1)
  · exact h0

/-- The copy loop keeps the header fields. -/
theorem copyOrders_frame (K : Consts) (lp : Nat → BYTE) (len pos : Nat) :
    ∀ (n i : Nat) (s s0 : St), Frame s0 s → Frame s0 (copyOrders K lp len pos n i s) := by
  intro n
  induction n with
  | zero => intro i s s0 h; exact h
  | succ n ih => intro i s s0 h; rw [copyOrders]; exact ih _ _ _ h

/-- The backward loop keeps the header fields. -/
theorem trimOrders_frame (K : Consts) :
    ∀ (j : Nat) (s s0 : St), Frame s0 s → Frame s0 (trimOrders K j s) := by
  intro j
  induction j with
  | zero => intro s s0 h; exact h
  | succ j ih =>
    intro s s0 h
    rw [trimOrders]
    split_ifs
    · exact h
    · exact ih _ _ h
    · exact h

/-- The PATT section keeps the header fields. -/
theorem pattChunk_frame (K : Consts) (lp : Nat → BYTE) (len pos norders : Nat) (s s0 : St)
    (h12 : 12 ≤ len) (hlen : len < 4294967296) (h0 : Frame s0 s) :
    (pattChunk K lp len pos norders s).Sat (Frame s0) (fun _ t => Frame s0 t) := by
  unfold pattChunk
  simp only
  split_ifs with h1 h2 h3
  · exact h0
  · exact h0
  · refine Flow.Sat_mono (skipChunk_frame lp len pos _ s0 h12 hlen ?_) (fun _ h => h)
      (fun _ _ h => h.1)
    exact trimOrders_frame K _ _ _ (copyOrders_frame K lp len pos _ _ _ _ h0)
  · exact h0
  · refine Flow.Sat_mono (skipChunk_frame lp len pos _ s0 h12 hlen ?_) (fun _ h => h)
      (fun _ _ h => h.1)
    exact trimOrders_frame K _ _ _ (copyOrders_frame K lp len pos _ _ _ _ h0)
  · exact h0

/-- The PBOD loop keeps the header fields and ends within its fuel: every iteration that
goes on moves the cursor forward. -/
theorem pbodLoop_frame (K : Consts) (E : Collab) (lp : Nat → BYTE) (len : Nat)
    (h12 : 12 ≤ len) (hlen : len < 4294967296) :
    ∀ (fuel npat pos : Nat) (s s0 : St), len - pos < fuel → Frame s0 s →
      (pbodLoop K E lp len fuel npat pos s).Sat (Frame s0) (fun _ t => Frame s0 t) := by
  intro fuel
  induction fuel with
  | zero =>
    intro npat pos s s0 hf h0
    omega
  | succ fuel ih =>
    intro npat pos s s0 hf h0
    rw [pbodLoop]
    split_ifs with h1 h2 h3
    · simp only
      split
      · exact h0
      · refine Flow.Sat_bind (skipChunk_frame lp len pos _ s0 h12 hlen h0) ?_
        intro p t ht
        exact ih _ _ _ _ (by omega) ht.1
    · refine Flow.Sat_bind (skipChunk_frame lp len pos _ s0 h12 hlen h0) ?_
      intro p t ht
      exact ih _ _ _ _ (by omega) ht.1
    · exact h0
    · exact h0

/-- The SBOD loop keeps the header fields and ends within its fuel. -/
theorem sbodLoop_frame (K : Consts) (E : Collab) (lp : Nat → BYTE) (len : Nat)
    (h12 : 12 ≤ len) (hlen : len < 4294967296) :
    ∀ (fuel nsmp pos : Nat) (s s0 : St), len - pos < fuel → Frame s0 s →
      (sbodLoop K E lp len fuel nsmp pos s).Sat (Frame s0) (fun _ t => Frame s0 t) := by
  intro fuel
  induction fuel with
  | zero => intro nsmp pos s s0 hf h0; omega
  | succ fuel ih =>
    intro nsmp pos s s0 hf h0
    rw [sbodLoop]
    split_ifs with h1 h2 h3
    · refine Flow.Sat_bind (skipChunk_frame lp len pos _ s0 h12 hlen h0) ?_
      intro p t ht
      exact ih _ _ _ _ (by omega) ht.1
    · refine Flow.Sat_bind (skipChunk_frame lp len pos _ s0 h12 hlen h0) ?_
      intro p t ht
      exact ih _ _ _ _ (by omega) ht.1
    · exact h0
    · exact h0

/-- Everything after the header assignments keeps the header fields and ends within the
fuel `ReadOKT` gives. -/
theorem parseBody_frame (K : Consts) (E : Collab) (lp : Nat → BYTE) (len : Nat) (s : St)
    (h12 : 12 ≤ len) (hlen : len < 4294967296) :
    (parseBody K E lp len s).Sat (Frame s) (fun _ t => Frame s t) := by
  unfold parseBody
  refine Flow.Sat_bind (readSamples_frame K lp len _ _ _ s s (Frame.refl s)) ?_
  intro p1 s1 f1
  refine Flow.Sat_bind (speeChunk_frame lp len p1 s1 s h12 hlen f1) ?_
  intro p2 s2 f2
  refine Flow.Sat_bind (slenChunk_frame lp len p2 s2 s h12 hlen f2) ?_
  intro p3 s3 f3
  refine Flow.Sat_bind (plenChunk_frame lp len p3 s3 s h12 hlen f3) ?_
  intro p4 s4 f4
  refine Flow.Sat_bind (pattChunk_frame K lp len p4.1 p4.2 s4 s h12 hlen f4) ?_
  intro p5 s5 f5
  refine Flow.Sat_bind (pbodLoop_frame K E lp len h12 hlen _ 0 p5 s5 s (by omega) f5) ?_
  intro p6 s6 f6
  exact sbodLoop_frame K E lp len h12 hlen _ 1 p6 s6 s (by omega) f6

/-- An accepted header: `ReadOKT` returns `TRUE`, and the fields assigned from the header
keep their values to the end. -/
theorem ReadOKT_accepts (K : Consts) (E : Collab) (lp : Nat → BYTE) (len : Nat) (s : St)
    (h1024 : 1024 ≤ len) (hlen : len < 4294967296) (hh : ¬ badHeader lp) :
    ∃ t, ReadOKT K E (some lp) len s = some (true, t) ∧
      t.song.m_nType = K.MOD_TYPE_OKT ∧
      t.song.m_nChannels = (initSong K lp s.song).m_nChannels ∧
      t.song.m_nSamples = (initSong K lp s.song).m_nSamples := by
  have hp := parseBody_frame K E lp len
    { (s.rd len 0 32) with song := initSong K lp s.song } (by omega) hlen
  unfold ReadOKT
  simp only [if_neg (Nat.not_lt.mpr h1024), if_neg hh]
  cases hq : parseBody K E lp len { (s.rd len 0 32) with song := initSong K lp s.song } with
  | done t => rw [hq] at hp; exact ⟨t, rfl, hp⟩
  | next a t => rw [hq] at hp; exact ⟨t, rfl, hp⟩
  | stuck => rw [hq] at hp; exact hp.elim

/-- A rejected input: `ReadOKT` returns `FALSE` and the song is as before. -/
theorem ReadOKT_rejects (K : Consts) (E : Collab) (lpStream : Option (Nat → BYTE)) (len : Nat)
    (s : St) (h : Rejected lpStream len) :
    ∃ t, ReadOKT K E lpStream len s = some (false, t) ∧ t.song = s.song := by
  unfold ReadOKT
  cases lpStream with
  | none => exact ⟨s, rfl, rfl⟩
  | some lp =>
    simp only
    split_ifs with h1 h2
    · exact ⟨s, rfl, rfl⟩
    · exact ⟨_, rfl, rfl⟩
    · exact absurd h (by simp [Rejected, h1, h2])

/-- Pointers into streams that agree on a range agree on that range. -/
theorem ptr_congr (lp lp' : Nat → BYTE) (off n : Nat) (h : ∀ i, i < off + n → lp' i = lp i) :
    ∀ k, k < n → ptr lp' off k = ptr lp off k := by
  intro k hk
  exact h _ (by omega)

/-- The value of `readBE32` depends on four bytes only. -/
theorem readBE32_congr (v v' : Nat → BYTE) (h : ∀ k, k < 4 → v' k = v k) :
    readBE32 v' = readBE32 v := by
  unfold readBE32
  rw [h 0 (by omega), h 1 (by omega), h 2 (by omega), h 3 (by omega)]

/-- The header test depends on the first 32 bytes only. -/
theorem badHeader_congr (lp lp' : Nat → BYTE) (h : ∀ i, i < 32 → lp' i = lp i) :
    badHeader lp' ↔ badHeader lp := by
  unfold badHeader bswapBE32
  rw [readBE32_congr _ _ (ptr_congr lp lp' 0 4 (fun i hi => h i (by omega))),
    readBE32_congr _ _ (ptr_congr lp lp' 4 4 (fun i hi => h i (by omega))),
    readBE32_congr _ _ (ptr_congr lp lp' 8 4 (fun i hi => h i (by omega))),
    readBE32_congr _ _ (ptr_congr lp lp' 12 4 (fun i hi => h i (by omega))),
    readBE32_congr _ _ (ptr_congr lp lp' 24 4 (fun i hi => h i (by omega))),
    h 16 (by omega), h 18 (by omega), h 20 (by omega), h 22 (by omega)]


/-- The value of `readBE32` equals a `MAGIC` constant exactly when the four bytes match. -/
theorem readBE32_eq_bytes (v : Nat → BYTE) (a b c d : Nat) (hb : b < 256) (hc : c < 256)
    (hd : d < 256) :
    readBE32 v = MAGIC a b c d ↔
      (v 0).val = a ∧ (v 1).val = b ∧ (v 2).val = c ∧ (v 3).val = d := by
  rw [readBE32_eq]
  unfold MAGIC
  rw [be32_arith a b c d hb hc hd]
  have h0 := (v 0).isLt
  have h1 := (v 1).isLt
  have h2 := (v 2).isLt
  have h3 := (v 3).isLt
  constructor
  · intro h; omega
  · rintro ⟨e0, e1, e2, e3⟩; rw [e0, e1, e2, e3]

/-- The header test byte by byte: the header is accepted exactly when bytes 0..3 are
`OKTA`, 4..7 `SONG`, 8..11 `CMOD`, 12..15 the big-endian number 8, bytes 16, 18, 20, 22
zero and bytes 24..27 `SAMP`. -/
theorem badHeader_iff (lp : Nat → BYTE) :
    badHeader lp ↔
      ¬ ((List.range 16).map (fun i => (lp i).val)
            = [79, 75, 84, 65, 83, 79, 78, 71, 67, 77, 79, 68, 0, 0, 0, 8] ∧
          (lp 16).val = 0 ∧ (lp 18).val = 0 ∧ (lp 20).val = 0 ∧ (lp 22).val = 0 ∧
          (List.range 4).map (fun i => (lp (24 + i)).val) = [83, 65, 77, 80]) := by
  have e8 : readBE32 (ptr lp 12) = 8 ↔ readBE32 (ptr lp 12) = MAGIC 0 0 0 8 := by
    have : MAGIC 0 0 0 8 = 8 := by decide
    rw [this]
  unfold badHeader bswapBE32
  simp only [ne_eq, e8,
    readBE32_eq_bytes _ (chr 'O') (chr 'K') (chr 'T') (chr 'A') (by decide) (by decide)
      (by decide),
    readBE32_eq_bytes _ (chr 'S') (chr 'O') (chr 'N') (chr 'G') (by decide) (by decide)
      (by decide),
    readBE32_eq_bytes _ (chr 'C') (chr 'M') (chr 'O') (chr 'D') (by decide) (by decide)
      (by decide),
    readBE32_eq_bytes _ 0 0 0 8 (by decide) (by decide) (by decide),
    readBE32_eq_bytes _ (chr 'S') (chr 'A') (chr 'M') (chr 'P') (by decide) (by decide)
      (by decide)]
  have c1 : chr 'O' = 79 ∧ chr 'K' = 75 ∧ chr 'T' = 84 ∧ chr 'A' = 65 ∧ chr 'S' = 83 ∧
      chr 'N' = 78 ∧ chr 'G' = 71 ∧ chr 'C' = 67 ∧ chr 'M' = 77 ∧ chr 'D' = 68 ∧
      chr 'P' = 80 := by decide
  obtain ⟨cO, cK, cT, cA, cS, cN, cG, cC, cM, cD, cP⟩ := c1
  simp only [cO, cK, cT, cA, cS, cN, cG, cC, cM, cD, cP, ptr, List.range, List.range.loop,
    List.map, List.cons.injEq, and_true, Nat.add_zero, Nat.zero_add, Nat.reduceAdd]
  rw [← not_iff_not]
  simp only [not_or, not_not, and_assoc]

/-! ## C1: detection failure -/

/-- C1. For every stream pointer and every `DWORD` length, `ReadOKT` returns `FALSE`
exactly when the pointer is null, the length is below 1024 or the header test fails
(`Rejected`), and returns `TRUE` in every other case; this holds whatever the allocator
does.  The answer depends only on the length and the first 32 bytes: a stream with the
same first 32 bytes gets the same answer. -/
theorem ReadOKT_false_iff_rejected (K : Consts) (E : Collab)
    (lpStream : Option (Nat → BYTE)) (dwMemLength : Nat) (s : St)
    (hlen : dwMemLength < 2 ^ 32) :
    ((∃ t, ReadOKT K E lpStream dwMemLength s = some (false, t)) ↔
        Rejected lpStream dwMemLength) ∧
    ((∃ t, ReadOKT K E lpStream dwMemLength s = some (true, t)) ↔
        ¬ Rejected lpStream dwMemLength) ∧
    (Rejected lpStream dwMemLength ↔
      lpStream = none ∨ dwMemLength < 1024 ∨ ∃ lp, lpStream = some lp ∧
        ¬ ((List.range 16).map (fun i => (lp i).val)
              = [79, 75, 84, 65, 83, 79, 78, 71, 67, 77, 79, 68, 0, 0, 0, 8] ∧
            (lp 16).val = 0 ∧ (lp 18).val = 0 ∧ (lp 20).val = 0 ∧ (lp 22).val = 0 ∧
            (List.range 4).map (fun i => (lp (24 + i)).val) = [83, 65, 77, 80])) ∧
    (∀ (lp lp' : Nat → BYTE) (E' : Collab) (s' : St), lpStream = some lp →
        (∀ i, i < 32 → lp' i = lp i) →
        (ReadOKT K E' (some lp') dwMemLength s').map Prod.fst =
          (ReadOKT K E lpStream dwMemLength s).map Prod.fst) := by
  have hlen' : dwMemLength < 4294967296 := by norm_num at hlen; exact hlen
  have acc : ∀ (E : Collab) (lp : Nat → BYTE) (s : St), ¬ Rejected (some lp) dwMemLength →
      ∃ t, ReadOKT K E (some lp) dwMemLength s = some (true, t) := by
    intro E lp s hr
    have h1 : 1024 ≤ dwMemLength := by
      by_contra hc; exact hr (Or.inl (by omega))
    obtain ⟨t, ht, -⟩ := ReadOKT_accepts K E lp dwMemLength s h1 hlen'
      (fun hb => hr (Or.inr hb))
    exact ⟨t, ht⟩
  refine ⟨⟨?_, ?_⟩, ⟨?_, ?_⟩, ?_, ?_⟩
  · rintro ⟨t, ht⟩
    by_contra hr
    cases lpStream with
    | none => exact hr trivial
    | some lp =>
      obtain ⟨u, hu⟩ := acc E lp s hr
      rw [hu] at ht
      cases ht
  · intro hr
    obtain ⟨t, ht, -⟩ := ReadOKT_rejects K E lpStream dwMemLength s hr
    exact ⟨t, ht⟩
  · rintro ⟨t, ht⟩ hr
    obtain ⟨u, hu, -⟩ := ReadOKT_rejects K E lpStream dwMemLength s hr
    rw [hu] at ht
    cases ht
  · intro hr
    cases lpStream with
    | none => exact absurd trivial hr
    | some lp => exact acc E lp s hr
  · cases lpStream with
    | none => simp [Rejected]
    | some lp =>
      simp only [Rejected, badHeader_iff, false_or, Option.some.injEq, exists_eq_left', reduceCtorEq]
  · intro lp lp' E' s' hs hagree
    subst hs
    have hiff : Rejected (some lp') dwMemLength ↔ Rejected (some lp) dwMemLength := by
      simp only [Rejected, badHeader_congr lp lp' hagree]
    by_cases hr : Rejected (some lp) dwMemLength
    · obtain ⟨t, ht, -⟩ := ReadOKT_rejects K E (some lp) dwMemLength s hr
      obtain ⟨t', ht', -⟩ := ReadOKT_rejects K E' (some lp') dwMemLength s' (hiff.mpr hr)
      rw [ht, ht']; rfl
    · obtain ⟨t, ht⟩ := acc E lp s hr
      obtain ⟨t', ht'⟩ := acc E' lp' s' (fun h => hr (hiff.mp h))
      rw [ht, ht']; rfl

/-- Witness of C1 at the valid header with length 1024. -/
theorem ReadOKT_false_iff_rejected_witness :
    (1024 : Nat) < 2 ^ 32 ∧
    (((∃ t, ReadOKT libmodplug allocAlways (some (memOf okHeader)) 1024 st0 = some (false, t)) ↔
        Rejected (some (memOf okHeader)) 1024) ∧
    ((∃ t, ReadOKT libmodplug allocAlways (some (memOf okHeader)) 1024 st0 = some (true, t)) ↔
        ¬ Rejected (some (memOf okHeader)) 1024) ∧
    (Rejected (some (memOf okHeader)) 1024 ↔
      some (memOf okHeader) = none ∨ 1024 < 1024 ∨ ∃ lp, some (memOf okHeader) = some lp ∧
        ¬ ((List.range 16).map (fun i => (lp i).val)
              = [79, 75, 84, 65, 83, 79, 78, 71, 67, 77, 79, 68, 0, 0, 0, 8] ∧
            (lp 16).val = 0 ∧ (lp 18).val = 0 ∧ (lp 20).val = 0 ∧ (lp 22).val = 0 ∧
            (List.range 4).map (fun i => (lp (24 + i)).val) = [83, 65, 77, 80])) ∧
    (∀ (lp lp' : Nat → BYTE) (E' : Collab) (s' : St), some (memOf okHeader) = some lp →
        (∀ i, i < 32 → lp' i = lp i) →
        (ReadOKT libmodplug E' (some lp') 1024 s').map Prod.fst =
          (ReadOKT libmodplug allocAlways (some (memOf okHeader)) 1024 st0).map Prod.fst)) :=
  ⟨by decide, ReadOKT_false_iff_rejected libmodplug allocAlways (some (memOf okHeader)) 1024 st0
    (by decide)⟩

/-! ## C2: truncation -/

/-- C2, counterexample. The valid header in a stream of 1024 bytes is accepted, and
`32 ≤ 32 ≤ 1024`, but `ReadOKT` on its first 32 bytes returns `FALSE`. -/
theorem truncation_below_1024_rejected :
    (ReadOKT libmodplug allocAlways (some (memOf okHeader)) 1024 st0).map Prod.fst = some true ∧
    32 ≤ 32 ∧ 32 ≤ 1024 ∧
    (ReadOKT libmodplug allocAlways (some (memOf okHeader)) 32 st0).map Prod.fst = some false := by
  refine ⟨?_, by decide, by decide, ?_⟩
  · with_unfolding_all decide
  · with_unfolding_all decide

/-- C2, amended. If `ReadOKT` accepts a stream of `dwMemLength` bytes and
`1024 ≤ k ≤ dwMemLength`, then `ReadOKT` on the first `k` bytes (any stream `lp'` that
agrees with `lp` below `k`, with length `k`) returns `TRUE` as well, from any state and
with any allocator. -/
theorem truncation_from_1024_accepted (K : Consts) (E E' : Collab) (lp lp' : Nat → BYTE)
    (dwMemLength k : Nat) (s s' : St) (hlen : dwMemLength < 2 ^ 32)
    (hacc : ∃ t, ReadOKT K E (some lp) dwMemLength s = some (true, t))
    (hk : 1024 ≤ k) (hkl : k ≤ dwMemLength) (hpre : ∀ i, i < k → lp' i = lp i) :
    ∃ t', ReadOKT K E' (some lp') k s' = some (true, t') := by
  have hlen' : dwMemLength < 4294967296 := by norm_num at hlen; exact hlen
  have hnr : ¬ Rejected (some lp) dwMemLength := by
    intro hr
    obtain ⟨u, hu, -⟩ := ReadOKT_rejects K E (some lp) dwMemLength s hr
    obtain ⟨t, ht⟩ := hacc
    rw [hu] at ht
    cases ht
  have hb : ¬ badHeader lp' := by
    rw [badHeader_congr lp lp' (fun i hi => hpre i (by omega))]
    exact fun hb => hnr (Or.inr hb)
  obtain ⟨t, ht, -⟩ := ReadOKT_accepts K E' lp' k s' hk (by omega) hb
  exact ⟨t, ht⟩

/-- Witness of the amended C2: the valid header, 2048 bytes truncated to 1024. -/
theorem truncation_from_1024_accepted_witness :
    (2048 : Nat) < 2 ^ 32 ∧
    (∃ t, ReadOKT libmodplug allocAlways (some (memOf okHeader)) 2048 st0 = some (true, t)) ∧
    1024 ≤ 1024 ∧ 1024 ≤ 2048 ∧ (∀ i, i < 1024 → memOf okHeader i = memOf okHeader i) ∧
    ∃ t', ReadOKT libmodplug allocNever (some (memOf okHeader)) 1024 st0 = some (true, t') :=
  have hacc : ∃ t, ReadOKT libmodplug allocAlways (some (memOf okHeader)) 2048 st0
      = some (true, t) := by
    obtain ⟨t, ht, -⟩ := ReadOKT_accepts libmodplug allocAlways (memOf okHeader) 2048 st0
      (by decide) (by decide) (by with_unfolding_all decide)
    exact ⟨t, ht⟩
  ⟨by decide, hacc, by decide, by decide, fun _ _ => rfl,
    truncation_from_1024_accepted libmodplug allocAlways allocNever (memOf okHeader)
      (memOf okHeader) 2048 1024 st0 st0 (by decide) hacc (by decide) (by decide)
      (fun _ _ => rfl)⟩

/-! ## C3: allocation failure -/

/-- C3, counterexample. In `pbodFile` the header is valid and a `PBOD` chunk is processed
with pattern index `0 < MAX_PATTERNS`; with an allocator that returns `NULL` for it,
`ReadOKT` returns `TRUE` (not `FALSE`), the same value as when the allocation succeeds. -/
theorem pbod_alloc_null_accepted :
    ¬ Rejected (some (memOf pbodFile)) 1024 ∧
    AllocatePattern (allocNever.allocOk 0) 1 8 = none ∧
    0 < libmodplug.MAX_PATTERNS ∧
    (ReadOKT libmodplug allocNever (some (memOf pbodFile)) 1024 st0).map
      (fun r => (r.1, (r.2.song.Patterns 0).isSome)) = some (true, false) ∧
    (ReadOKT libmodplug allocAlways (some (memOf pbodFile)) 1024 st0).map
      (fun r => (r.1, (r.2.song.Patterns 0).isSome)) = some (true, true) := by
  refine ⟨?_, ?_, ?_, ?_, ?_⟩ <;> with_unfolding_all decide

/-- C3, amended. With a valid header, `ReadOKT` returns `TRUE` whatever the allocator
does; and an iteration of the `PBOD` loop whose pattern index is below `MAX_PATTERNS`
and whose `AllocatePattern` call returns `NULL` ends the parse at once (`Flow.done`, the
early `return TRUE`), with `Patterns[npat] = NULL` and nothing else of the song
changed. -/
theorem alloc_failure_returns_true (K : Consts) (E : Collab) (lp : Nat → BYTE)
    (dwMemLength : Nat) (s : St) (hlen : dwMemLength < 2 ^ 32)
    (hh : ¬ Rejected (some lp) dwMemLength) :
    (∃ t, ReadOKT K E (some lp) dwMemLength s = some (true, t)) ∧
    (∀ (fuel npat dwMemPos : Nat) (u : St), dwMemPos < subDW dwMemLength 10 →
      readBE32 (ptr lp dwMemPos) = MAGIC (chr 'P') (chr 'B') (chr 'O') (chr 'D') →
      npat < K.MAX_PATTERNS → E.allocOk npat = false →
      ∃ t, pbodLoop K E lp dwMemLength (fuel + 1) npat dwMemPos u = Flow.done t ∧
        t.song = { u.song with Patterns := Function.update u.song.Patterns npat none }) := by
  have hlen' : dwMemLength < 4294967296 := by norm_num at hlen; exact hlen
  constructor
  · have h1 : 1024 ≤ dwMemLength := by
      by_contra hc; exact hh (Or.inl (by omega))
    obtain ⟨t, ht, -⟩ := ReadOKT_accepts K E lp dwMemLength s h1 hlen'
      (fun hb => hh (Or.inr hb))
    exact ⟨t, ht⟩
  · intro fuel npat pos u h1 h2 h3 h4
    rw [pbodLoop]
    simp only [if_pos h1, if_pos h2, if_pos h3, h4, AllocatePattern]
    exact ⟨_, rfl, rfl⟩

/-- Witness of the amended C3: `pbodFile` with the allocator that always fails. -/
theorem alloc_failure_returns_true_witness :
    (1024 : Nat) < 2 ^ 32 ∧ ¬ Rejected (some (memOf pbodFile)) 1024 ∧
    (∃ t, ReadOKT libmodplug allocNever (some (memOf pbodFile)) 1024 st0 = some (true, t)) ∧
    (∃ t, pbodLoop libmodplug allocNever (memOf pbodFile) 1024 (0 + 1) 0 32 st0 = Flow.done t ∧
      t.song = { st0.song with Patterns := Function.update st0.song.Patterns 0 none }) :=
  have h := alloc_failure_returns_true libmodplug allocNever (memOf pbodFile) 1024 st0
    (by decide) (by with_unfolding_all decide)
  ⟨by decide, by with_unfolding_all decide, h.1,
    h.2 0 0 32 st0 (by with_unfolding_all decide) (by with_unfolding_all decide)
      (by decide) rfl⟩

/-! ## C4: reads past the end of the stream -/

/-- C4, failing input. With `dwMemLength = 0xFFFFFFFF` and a `SPEE` chunk of declared
length `0xFFFFFFD7` at offset 32, the skip moves the cursor to `0xFFFFFFFF`; the `SLEN`
test `dwMemPos + 10 > dwMemLength` wraps to `9 > dwMemLength`, which is false, and
`readBE32(lpStream + dwMemPos)` reads the four bytes at offsets `dwMemLength ..
dwMemLength + 3`: the ghost flag is raised. -/
theorem ReadOKT_reads_past_end :
    st0.oob = false ∧
    (speeChunk (memOf wrapFile) 4294967295 32 st0).cursor = some 4294967295 ∧
    (speeChunk (memOf wrapFile) 4294967295 32 st0).state.map St.oob = some false ∧
    u32 (4294967295 + 10) = 9 ∧
    (slenChunk (memOf wrapFile) 4294967295 4294967295 st0).state.map St.oob = some true ∧
    (ReadOKT libmodplug allocAlways (some (memOf wrapFile)) 4294967295 st0).map
      (fun r => (r.1, r.2.oob)) = some (true, true) := by
  refine ⟨rfl, ?_, ?_, ?_, ?_, ?_⟩ <;> decide!


/-! ## C5, C6: the counts taken from the header -/

/-- C5. For every stream that passes header validation, `ReadOKT` returns `TRUE` and the
resulting `m_nChannels` is `min (4 + b[17] + b[19] + b[21] + b[23]) MAX_CHANNELS`; when
`MAX_CHANNELS ≥ 4` it lies between 4 and `MAX_CHANNELS`. -/
theorem ReadOKT_channel_count (K : Consts) (E : Collab) (lp : Nat → BYTE)
    (dwMemLength : Nat) (s : St) (hlen : dwMemLength < 2 ^ 32)
    (hh : ¬ Rejected (some lp) dwMemLength) :
    ∃ t, ReadOKT K E (some lp) dwMemLength s = some (true, t) ∧
      t.song.m_nChannels =
        min (4 + (lp 17).val + (lp 19).val + (lp 21).val + (lp 23).val) K.MAX_CHANNELS ∧
      (4 ≤ K.MAX_CHANNELS → 4 ≤ t.song.m_nChannels ∧ t.song.m_nChannels ≤ K.MAX_CHANNELS) := by
  have hlen' : dwMemLength < 4294967296 := by norm_num at hlen; exact hlen
  have h1 : 1024 ≤ dwMemLength := by
    by_contra hc; exact hh (Or.inl (by omega))
  obtain ⟨t, ht, -, hc, -⟩ := ReadOKT_accepts K E lp dwMemLength s h1 hlen'
    (fun hb => hh (Or.inr hb))
  have e : t.song.m_nChannels =
      min (4 + (lp 17).val + (lp 19).val + (lp 21).val + (lp 23).val) K.MAX_CHANNELS := by
    rw [hc]
    simp only [initSong]
    have h17 := (lp 17).isLt
    have h19 := (lp 19).isLt
    have h21 := (lp 21).isLt
    have h23 := (lp 23).isLt
    split_ifs with hgt <;> (unfold u32 at *; omega)
  refine ⟨t, ht, e, ?_⟩
  intro h4
  rw [e]
  omega

/-- Witness of C5: the valid header has channel setup `0,1,0,1,0,1,0,1`. -/
theorem ReadOKT_channel_count_witness :
    (1024 : Nat) < 2 ^ 32 ∧ ¬ Rejected (some (memOf okHeader)) 1024 ∧
    ∃ t, ReadOKT libmodplug allocAlways (some (memOf okHeader)) 1024 st0 = some (true, t) ∧
      t.song.m_nChannels =
        min (4 + (memOf okHeader 17).val + (memOf okHeader 19).val + (memOf okHeader 21).val
          + (memOf okHeader 23).val) libmodplug.MAX_CHANNELS ∧
      (4 ≤ libmodplug.MAX_CHANNELS →
        4 ≤ t.song.m_nChannels ∧ t.song.m_nChannels ≤ libmodplug.MAX_CHANNELS) :=
  ⟨by decide, by with_unfolding_all decide,
    ReadOKT_channel_count libmodplug allocAlways (memOf okHeader) 1024 st0 (by decide)
      (by with_unfolding_all decide)⟩

/-- C6. For every stream that passes header validation, `ReadOKT` returns `TRUE` and the
resulting `m_nSamples` is `min (L / 32) (MAX_SAMPLES - 1)`, where `L` is the big-endian
32-bit value of the bytes at offsets 28..31; no other byte and not the length enter. -/
theorem ReadOKT_sample_count (K : Consts) (E : Collab) (lp : Nat → BYTE)
    (dwMemLength : Nat) (s : St) (hlen : dwMemLength < 2 ^ 32)
    (hh : ¬ Rejected (some lp) dwMemLength) (hS : 0 < K.MAX_SAMPLES) :
    ∃ t, ReadOKT K E (some lp) dwMemLength s = some (true, t) ∧
      t.song.m_nSamples =
        min (((lp 28).val * 16777216 + (lp 29).val * 65536 + (lp 30).val * 256 + (lp 31).val) / 32)
          (K.MAX_SAMPLES - 1) := by
  have hlen' : dwMemLength < 4294967296 := by norm_num at hlen; exact hlen
  have h1 : 1024 ≤ dwMemLength := by
    by_contra hc; exact hh (Or.inl (by omega))
  obtain ⟨t, ht, -, -, hc⟩ := ReadOKT_accepts K E lp dwMemLength s h1 hlen'
    (fun hb => hh (Or.inr hb))
  refine ⟨t, ht, ?_⟩
  rw [hc]
  simp only [initSong, bswapBE32, readBE32_eq, ptr, Nat.shiftRight_eq_div_pow]
  norm_num
  split_ifs with hge <;> omega

/-- Witness of C6: `sampleFile` declares a sample table of 32 bytes. -/
theorem ReadOKT_sample_count_witness :
    (1024 : Nat) < 2 ^ 32 ∧ ¬ Rejected (some (memOf sampleFile)) 1024 ∧
    0 < libmodplug.MAX_SAMPLES ∧
    ∃ t, ReadOKT libmodplug allocAlways (some (memOf sampleFile)) 1024 st0 = some (true, t) ∧
      t.song.m_nSamples =
        min (((memOf sampleFile 28).val * 16777216 + (memOf sampleFile 29).val * 65536
          + (memOf sampleFile 30).val * 256 + (memOf sampleFile 31).val) / 32)
          (libmodplug.MAX_SAMPLES - 1) :=
  ⟨by decide, by with_unfolding_all decide, by decide,
    ReadOKT_sample_count libmodplug allocAlways (memOf sampleFile) 1024 st0 (by decide)
      (by with_unfolding_all decide) (by decide)⟩

/-! ## C7, C8: the sample table -/

/-- The sample loop started at record `smp` does not touch a slot `k < smp`. -/
theorem readSamples_keeps (K : Consts) (lp : Nat → BYTE) (len k : Nat) :
    ∀ (n smp pos : Nat) (s s0 : St), k < smp →
      (s.song.Ins k = s0.song.Ins k ∧ s.song.m_szNames k = s0.song.m_szNames k) →
      (readSamples K lp len n smp pos s).Sat
        (fun t => t.song.Ins k = s0.song.Ins k ∧ t.song.m_szNames k = s0.song.m_szNames k)
        (fun _ t => t.song.Ins k = s0.song.Ins k ∧ t.song.m_szNames k = s0.song.m_szNames k) := by
  intro n
  induction n with
  | zero => intro smp pos s s0 _ h; exact h
  | succ n ih =>
    intro smp pos s s0 hk h
    rw [readSamples]
    split_ifs with h1 h2
    · exact h
    · refine ih _ _ _ _ (by omega) ?_
      have hne : k ≠ smp := by omega
      simp only [storeSample, St.rd, St.ix, Function.update_noteq hne]
      exact h
    · exact ih _ _ _ _ (by omega) h

/-- The sample loop started at record `smp ≤ k` (offset `32 smp`) with at least
`k + 1 - smp` iterations ahead stores record `k` from offset `32 k` and leaves it. -/
theorem readSamples_stored (K : Consts) (lp : Nat → BYTE) (len k : Nat)
    (hlen : len < 4294967296) (hk : k < K.MAX_SAMPLES) (hin : 32 * k + 32 < len) :
    ∀ (n smp pos : Nat) (s : St), pos = 32 * smp → smp ≤ k → k < smp + n →
      (readSamples K lp len n smp pos s).Sat
        (fun t => ∃ f, t.song.Ins k = (storeSample K lp (32 * k) k f).Ins k ∧
          t.song.m_szNames k = (storeSample K lp (32 * k) k f).m_szNames k)
        (fun _ t => ∃ f, t.song.Ins k = (storeSample K lp (32 * k) k f).Ins k ∧
          t.song.m_szNames k = (storeSample K lp (32 * k) k f).m_szNames k) := by
  intro n
  induction n with
  | zero => intro smp pos s _ h1 h2; omega
  | succ n ih =>
    intro smp pos s hpos h1 h2
    rw [readSamples]
    have hc : ¬ pos ≥ len - 32 := by omega
    rw [if_neg hc]
    have hu : u32 (pos + 32) = 32 * (smp + 1) := by unfold u32; omega
    by_cases he : smp = k
    · subst he
      simp only [if_pos hk]
      refine Flow.Sat_mono (readSamples_keeps K lp len smp n (smp + 1) _ _ _ (by omega)
        ⟨rfl, rfl⟩) ?_ ?_
      · intro t ht
        exact ⟨s.song, by rw [ht.1, hpos], by rw [ht.2, hpos]⟩
      · intro _ t ht
        exact ⟨s.song, by rw [ht.1, hpos], by rw [ht.2, hpos]⟩
    · exact ih _ _ _ hu (by omega) (by omega)

/-- Pointer arithmetic adds the offsets. -/
theorem ptr_ptr (lp : Nat → BYTE) (a b : Nat) : ptr (ptr lp a) b = ptr lp (a + b) := by
  funext k
  simp only [ptr, Nat.add_assoc]

/-- A section that satisfies `P` on both exits ends in a state with `P`. -/
theorem Flow.Sat_state {α : Type} {P : St → Prop} {f : Flow α}
    (h : f.Sat P (fun _ t => P t)) : ∃ t, f.state = some t ∧ P t := by
  cases f with
  | done s => exact ⟨s, rfl, h⟩
  | next a s => exact ⟨s, rfl, h⟩
  | stuck => exact h.elim

/-- The sample loop as `ReadOKT` starts it stores every decoded record `k` by `storeSample`
at offset `32 k`. -/
theorem readSamples_record (K : Consts) (lp : Nat → BYTE) (dwMemLength : Nat) (s : St)
    (nsamples k : Nat) (hlen : dwMemLength < 2 ^ 32) (h1 : 1 ≤ k) (hn : k ≤ nsamples)
    (hk : k < K.MAX_SAMPLES) (hin : 32 * k + 32 < dwMemLength) :
    ∃ t, (readSamples K lp dwMemLength nsamples 1 32 s).state = some t ∧
      ∃ f, t.song.Ins k = (storeSample K lp (32 * k) k f).Ins k ∧
        t.song.m_szNames k = (storeSample K lp (32 * k) k f).m_szNames k := by
  have hlen' : dwMemLength < 4294967296 := by norm_num at hlen; exact hlen
  exact Flow.Sat_state
    (readSamples_stored K lp dwMemLength k hlen' hk hin nsamples 1 32 s rfl h1 (by omega))

/-- C7. In the sample loop of `ReadOKT` (`nsamples` records declared, starting at
record 1 and offset 32), every record `k` with `1 ≤ k ≤ nsamples`, `k < MAX_SAMPLES`
that the loop decodes (`32 k + 32 < dwMemLength`) is read at offset `32 k`, and in the
state `t` the loop ends in, `Ins[k]` and `m_szNames[k]` hold: the name bytes
`lp[32k .. 32k+19]`, `nLength` = the big-endian 32-bit value at `32k+20` with bit 0
cleared (so it is even), `nLoopStart` = the big-endian 16-bit value at `32k+24`,
`nLoopEnd` = `nLoopStart` + the big-endian 16-bit value at `32k+26`,
`nVolume = 4 * lp[32k+29]`, `nGlobalVol = 64`, `nC4Speed = 8363`. -/
theorem readSamples_decodes_record (K : Consts) (lp : Nat → BYTE) (dwMemLength : Nat) (s : St)
    (nsamples k : Nat) (hlen : dwMemLength < 2 ^ 32) (h1 : 1 ≤ k) (hn : k ≤ nsamples)
    (hk : k < K.MAX_SAMPLES) (hin : 32 * k + 32 < dwMemLength) :
    ∃ t, (readSamples K lp dwMemLength nsamples 1 32 s).state = some t ∧
      (∀ j, j < 20 → t.song.m_szNames k j = lp (32 * k + j)) ∧
      (t.song.Ins k).nLength =
        ((lp (32 * k + 20)).val * 16777216 + (lp (32 * k + 21)).val * 65536
          + (lp (32 * k + 22)).val * 256 + (lp (32 * k + 23)).val)
        - ((lp (32 * k + 20)).val * 16777216 + (lp (32 * k + 21)).val * 65536
          + (lp (32 * k + 22)).val * 256 + (lp (32 * k + 23)).val) % 2 ∧
      (t.song.Ins k).nLength % 2 = 0 ∧
      (t.song.Ins k).nLoopStart = (lp (32 * k + 24)).val * 256 + (lp (32 * k + 25)).val ∧
      (t.song.Ins k).nLoopEnd = (t.song.Ins k).nLoopStart
        + ((lp (32 * k + 26)).val * 256 + (lp (32 * k + 27)).val) ∧
      (t.song.Ins k).nVolume = (lp (32 * k + 29)).val * 4 ∧
      (t.song.Ins k).nGlobalVol = 64 ∧
      (t.song.Ins k).nC4Speed = 8363 := by
  obtain ⟨t, ht, f, hI, hN⟩ := readSamples_record K lp dwMemLength s nsamples k hlen h1 hn hk hin
  refine ⟨t, ht, ?_⟩
  have hL := clear_bit0 _ (readBE32_lt (ptr lp (32 * k + 20)))
  have h26 := (lp (32 * k + 26)).isLt
  have h27 := (lp (32 * k + 27)).isLt
  have h24 := (lp (32 * k + 24)).isLt
  have h25 := (lp (32 * k + 25)).isLt
  rw [hI, hN]
  simp only [storeSample, Function.update_same, ptr_ptr, bswapBE32, bswapBE16_eq]
  rw [hL, readBE32_eq]
  simp only [ptr, Nat.add_zero, Nat.shiftLeft_eq, Nat.add_assoc, Nat.reduceAdd, Nat.reducePow]
  refine ⟨?_, trivial, ?_, trivial, ?_, trivial, trivial, trivial⟩
  · intro j hj
    rw [if_pos hj]
  · omega
  · unfold u32; omega

/-- Witness of C7: record 1 of `sampleFile`. -/
theorem readSamples_decodes_record_witness :
    (1024 : Nat) < 2 ^ 32 ∧ 1 ≤ 1 ∧ 1 ≤ 1 ∧ 1 < libmodplug.MAX_SAMPLES ∧ 32 * 1 + 32 < 1024 ∧
    ∃ t, (readSamples libmodplug (memOf sampleFile) 1024 1 1 32 st0).state = some t ∧
      (∀ j, j < 20 → t.song.m_szNames 1 j = memOf sampleFile (32 * 1 + j)) ∧
      (t.song.Ins 1).nLength =
        ((memOf sampleFile (32 * 1 + 20)).val * 16777216
          + (memOf sampleFile (32 * 1 + 21)).val * 65536
          + (memOf sampleFile (32 * 1 + 22)).val * 256 + (memOf sampleFile (32 * 1 + 23)).val)
        - ((memOf sampleFile (32 * 1 + 20)).val * 16777216
          + (memOf sampleFile (32 * 1 + 21)).val * 65536
          + (memOf sampleFile (32 * 1 + 22)).val * 256
          + (memOf sampleFile (32 * 1 + 23)).val) % 2 ∧
      (t.song.Ins 1).nLength % 2 = 0 ∧
      (t.song.Ins 1).nLoopStart =
        (memOf sampleFile (32 * 1 + 24)).val * 256 + (memOf sampleFile (32 * 1 + 25)).val ∧
      (t.song.Ins 1).nLoopEnd = (t.song.Ins 1).nLoopStart
        + ((memOf sampleFile (32 * 1 + 26)).val * 256 + (memOf sampleFile (32 * 1 + 27)).val) ∧
      (t.song.Ins 1).nVolume = (memOf sampleFile (32 * 1 + 29)).val * 4 ∧
      (t.song.Ins 1).nGlobalVol = 64 ∧
      (t.song.Ins 1).nC4Speed = 8363 :=
  ⟨by decide, by decide, by decide, by decide, by decide,
    readSamples_decodes_record libmodplug (memOf sampleFile) 1024 st0 1 1 (by decide)
      (by decide) (by decide) (by decide) (by decide)⟩

/-- The record of `sampleFile` as `ReadOKT` leaves it: length `0x1235` stored as
`0x1234`, loop `16 .. 19`, volume `0x40 * 4`, loop flag set. -/
theorem sampleFile_decoded :
    (ReadOKT libmodplug allocAlways (some (memOf sampleFile)) 1024 st0).map
      (fun r => (r.1, r.2.song.Ins 1, (List.range 5).map (fun j => (r.2.song.m_szNames 1 j).val)))
      = some (true, ⟨[], 4660, 16, 19, 8363, 256, 64, 2⟩, [108, 101, 97, 100, 0]) := by
  decide!

/-- C8. For every record `k` the sample loop decodes and stores (as in C7), the flags of
`Ins[k]` are exactly `CHN_LOOP` when `nLoopEnd > nLoopStart + 2` and `0` otherwise (no
other bit is set); `nLoopEnd > nLoopStart + 2` holds exactly when the 16-bit loop-length
field at `32k+26` is at least 3; so, `CHN_LOOP` being a nonzero flag, the flags contain
it exactly in that case. -/
theorem readSamples_loop_flag (K : Consts) (lp : Nat → BYTE) (dwMemLength : Nat) (s : St)
    (nsamples k : Nat) (hlen : dwMemLength < 2 ^ 32) (h1 : 1 ≤ k) (hn : k ≤ nsamples)
    (hk : k < K.MAX_SAMPLES) (hin : 32 * k + 32 < dwMemLength) :
    ∃ t, (readSamples K lp dwMemLength nsamples 1 32 s).state = some t ∧
      (t.song.Ins k).uFlags =
        (if (t.song.Ins k).nLoopEnd > (t.song.Ins k).nLoopStart + 2 then K.CHN_LOOP else 0) ∧
      ((t.song.Ins k).nLoopEnd > (t.song.Ins k).nLoopStart + 2 ↔
        3 ≤ (lp (32 * k + 26)).val * 256 + (lp (32 * k + 27)).val) ∧
      (K.CHN_LOOP ≠ 0 →
        ((t.song.Ins k).uFlags &&& K.CHN_LOOP ≠ 0 ↔
          (t.song.Ins k).nLoopEnd > (t.song.Ins k).nLoopStart + 2)) := by
  obtain ⟨t, ht, f, hI, -⟩ := readSamples_record K lp dwMemLength s nsamples k hlen h1 hn hk hin
  refine ⟨t, ht, ?_⟩
  have h26 := (lp (32 * k + 26)).isLt
  have h27 := (lp (32 * k + 27)).isLt
  have h24 := (lp (32 * k + 24)).isLt
  have h25 := (lp (32 * k + 25)).isLt
  rw [hI]
  simp only [storeSample, Function.update_same, ptr_ptr, bswapBE16_eq]
  simp only [ptr, Nat.add_zero, Nat.add_assoc, Nat.reduceAdd, Nat.zero_or]
  have e1 : u32 ((lp (32 * k + 24)).val * 256 + ((lp (32 * k + 25)).val + 2))
      = (lp (32 * k + 24)).val * 256 + ((lp (32 * k + 25)).val + 2) := by unfold u32; omega
  have e2 : u32 ((lp (32 * k + 24)).val * 256 + ((lp (32 * k + 25)).val
      + ((lp (32 * k + 26)).val * 256 + (lp (32 * k + 27)).val)))
      = (lp (32 * k + 24)).val * 256 + ((lp (32 * k + 25)).val
      + ((lp (32 * k + 26)).val * 256 + (lp (32 * k + 27)).val)) := by unfold u32; omega
  rw [e1, e2]
  refine ⟨?_, ?_, ?_⟩
  · split_ifs <;> rfl
  · omega
  · intro hc
    split_ifs with hif
    · simp only [Nat.and_self]
      exact ⟨fun _ => by omega, fun _ => hc⟩
    · simp only [Nat.zero_and]
      exact ⟨fun h => absurd rfl h, fun h => by omega⟩

/-- Witness of C8: record 1 of `sampleFile` (loop length 3, `CHN_LOOP = 2`). -/
theorem readSamples_loop_flag_witness :
    (1024 : Nat) < 2 ^ 32 ∧ 1 ≤ 1 ∧ 1 ≤ 1 ∧ 1 < libmodplug.MAX_SAMPLES ∧ 32 * 1 + 32 < 1024 ∧
    ∃ t, (readSamples libmodplug (memOf sampleFile) 1024 1 1 32 st0).state = some t ∧
      (t.song.Ins 1).uFlags =
        (if (t.song.Ins 1).nLoopEnd > (t.song.Ins 1).nLoopStart + 2
          then libmodplug.CHN_LOOP else 0) ∧
      ((t.song.Ins 1).nLoopEnd > (t.song.Ins 1).nLoopStart + 2 ↔
        3 ≤ (memOf sampleFile (32 * 1 + 26)).val * 256
          + (memOf sampleFile (32 * 1 + 27)).val) ∧
      (libmodplug.CHN_LOOP ≠ 0 →
        ((t.song.Ins 1).uFlags &&& libmodplug.CHN_LOOP ≠ 0 ↔
          (t.song.Ins 1).nLoopEnd > (t.song.Ins 1).nLoopStart + 2)) :=
  ⟨by decide, by decide, by decide, by decide, by decide,
    readSamples_loop_flag libmodplug (memOf sampleFile) 1024 st0 1 1 (by decide)
      (by decide) (by decide) (by decide) (by decide)⟩

/-! ## C9: the order list -/

/-- The skip discipline ends in a state with the same song. -/
theorem skipChunk_song (lp : Nat → BYTE) (len pos : Nat) (s : St) :
    ∃ t, (skipChunk lp len pos s).state = some t ∧ t.song = s.song := by
  unfold skipChunk
  simp only
  split_ifs <;> exact ⟨_, rfl, rfl⟩

/-- The order list after the copy loop. -/
theorem copyOrders_order (K : Consts) (lp : Nat → BYTE) (len pos : Nat) :
    ∀ (n i : Nat) (s : St) (j : Nat), (copyOrders K lp len pos n i s).song.Order j =
      if i ≤ j ∧ j < i + n then (lp (u32 (u32 (pos + 8) + j))).val else s.song.Order j := by
  intro n
  induction n with
  | zero =>
    intro i s j
    rw [copyOrders, if_neg (by omega)]
  | succ n ih =>
    intro i s j
    rw [copyOrders, ih]
    by_cases hj : j = i
    · subst hj
      rw [if_neg (by omega), if_pos (by omega)]
      simp only [Function.update_same]
    · simp only [Function.update_noteq hj]
      by_cases h : i + 1 ≤ j ∧ j < i + 1 + n
      · rw [if_pos h, if_pos (by omega)]
      · rw [if_neg h, if_neg (by omega)]

/-- The order list after the backward loop: `k` is the last nonzero index in `[1, j-1]`,
or 0. -/
theorem trimOrders_order (K : Consts) :
    ∀ (j : Nat) (s : St) (k : Nat), (k = 0 ∨ (k < j ∧ s.song.Order k ≠ 0)) →
      (∀ i, k < i → i < j → s.song.Order i = 0) →
      ∀ i, (trimOrders K j s).song.Order i = if k < i ∧ i < j then 0xFF else s.song.Order i := by
  intro j
  induction j with
  | zero =>
    intro s k _ _ i
    rw [trimOrders, if_neg (by omega)]
  | succ j ih =>
    intro s k hk hz i
    rw [trimOrders]
    by_cases hj : j + 1 > 1
    · rw [if_pos hj]
      by_cases hnz : s.song.Order j ≠ 0
      · rw [if_pos hnz]
        have hkj : ¬ k < j := fun h => hnz (hz j h (by omega))
        simp only [St.ix]
        rw [if_neg (by omega)]
      · rw [if_neg hnz]
        have hkj : k < j := by
          rcases hk with h0 | ⟨h1, h2⟩
          · omega
          · by_contra hc
            have : k = j := by omega
            subst this
            exact hnz h2
        have hne : k ≠ j := by omega
        rw [ih _ k ?_ ?_ i]
        · by_cases hi : i = j
          · subst hi
            rw [if_neg (by omega), if_pos (by omega)]
            simp only [Function.update_same]
          · simp only [Function.update_noteq hi]
            by_cases h : k < i ∧ i < j
            · rw [if_pos h, if_pos (by omega)]
            · rw [if_neg h, if_neg (by omega)]
        · rcases hk with h0 | ⟨h1, h2⟩
          · exact Or.inl h0
          · exact Or.inr ⟨hkj, by simp only [Function.update_noteq hne]; exact h2⟩
        · intro i' h1 h2
          have : i' ≠ j := by omega
          simp only [Function.update_noteq this]
          exact hz i' h1 (by omega)
    · rw [if_neg hj, if_neg (by omega)]


/-- C9. When the `PATT` chunk is processed at cursor `dwMemPos` (tag present) with
`n = min norders (MAX_ORDERS - 1) ≥ 1` raw order bytes `r[i] = lp[dwMemPos + 8 + i]`
lying inside the stream, and `k` is the largest index in `[1, n-1]` with `r[k] ≠ 0`, or
`0` if there is none, then in the state `t` the section ends in: `Order[i] = r[i]` for
every `i ≤ k`, `Order[i] = 0xFF` for `k < i < n`, `Order[0] = r[0]` (also when it is
zero), and `Order[i]` is unchanged for `i ≥ n`. -/
theorem pattChunk_order_list (K : Consts) (lp : Nat → BYTE) (dwMemLength dwMemPos norders : Nat)
    (s : St) (n k : Nat) (hlen : dwMemLength < 2 ^ 32) (hO : 0 < K.MAX_ORDERS)
    (htag : readBE32 (ptr lp dwMemPos) = MAGIC (chr 'P') (chr 'A') (chr 'T') (chr 'T'))
    (hn : n = min norders (K.MAX_ORDERS - 1)) (h1 : 1 ≤ n)
    (hin : dwMemPos + 8 + n ≤ dwMemLength)
    (hk : k = 0 ∨ (1 ≤ k ∧ k < n ∧ (lp (dwMemPos + 8 + k)).val ≠ 0))
    (hmax : ∀ i, k < i → i < n → (lp (dwMemPos + 8 + i)).val = 0) :
    ∃ t, (pattChunk K lp dwMemLength dwMemPos norders s).state = some t ∧
      (∀ i, i ≤ k → t.song.Order i = (lp (dwMemPos + 8 + i)).val) ∧
      (∀ i, k < i → i < n → t.song.Order i = 0xFF) ∧
      t.song.Order 0 = (lp (dwMemPos + 8)).val ∧
      (∀ i, n ≤ i → t.song.Order i = s.song.Order i) := by
  have hlen' : dwMemLength < 4294967296 := by norm_num at hlen; exact hlen
  have hlen_n : (if norders ≥ K.MAX_ORDERS then K.MAX_ORDERS - 1 else norders) = n := by
    rw [hn]; split_ifs <;> omega
  have hidx : ∀ j, j < n → u32 (u32 (dwMemPos + 8) + j) = dwMemPos + 8 + j := by
    intro j hj; unfold u32; omega
  have c1 : ¬ u32 (dwMemPos + 8) > dwMemLength := by unfold u32; omega
  have c2 : ¬ u32 (u32 (dwMemPos + 8) + n) > dwMemLength := by unfold u32; omega
  unfold pattChunk
  simp only [if_neg c1, if_pos htag, hlen_n, if_neg c2]
  obtain ⟨t, ht, hs⟩ := skipChunk_song lp dwMemLength dwMemPos
    (trimOrders K n (copyOrders K lp dwMemLength dwMemPos n 0 (s.rd dwMemLength dwMemPos 4)))
  have hcopy := copyOrders_order K lp dwMemLength dwMemPos n 0 (s.rd dwMemLength dwMemPos 4)
  have hkn : k < n := by
    rcases hk with h | h <;> omega
  have htrim := trimOrders_order K n
    (copyOrders K lp dwMemLength dwMemPos n 0 (s.rd dwMemLength dwMemPos 4)) k
    (by
      rcases hk with h | ⟨h, h', h''⟩
      · exact Or.inl h
      · refine Or.inr ⟨h', ?_⟩
        rw [hcopy, if_pos (by omega), hidx k h']
        exact h'')
    (by
      intro i hi hi'
      rw [hcopy, if_pos (by omega), hidx i hi']
      exact hmax i hi hi')
  have hle : ∀ i, i ≤ k → t.song.Order i = (lp (dwMemPos + 8 + i)).val := by
    intro i hi
    rw [hs, htrim, if_neg (by omega), hcopy, if_pos (by omega), hidx i (by omega)]
  refine ⟨t, ht, hle, ?_, ?_, ?_⟩
  · intro i hi hi'
    rw [hs, htrim, if_pos ⟨hi, hi'⟩]
  · exact hle 0 (by omega)
  · intro i hi
    rw [hs, htrim, if_neg (by omega), hcopy, if_neg (by omega)]
    rfl

/-- Witness of C9: the order bytes `5, 0, 3, 0, 0` (`k = 2`, `norders = 5`). -/
theorem pattChunk_order_list_witness :
    (1024 : Nat) < 2 ^ 32 ∧ 0 < libmodplug.MAX_ORDERS ∧
    readBE32 (ptr (memOf pattFile) 0) = MAGIC (chr 'P') (chr 'A') (chr 'T') (chr 'T') ∧
    5 = min 5 (libmodplug.MAX_ORDERS - 1) ∧ 1 ≤ 5 ∧ 0 + 8 + 5 ≤ 1024 ∧
    (2 = 0 ∨ (1 ≤ 2 ∧ 2 < 5 ∧ (memOf pattFile (0 + 8 + 2)).val ≠ 0)) ∧
    (∀ i, 2 < i → i < 5 → (memOf pattFile (0 + 8 + i)).val = 0) ∧
    ∃ t, (pattChunk libmodplug (memOf pattFile) 1024 0 5 st0).state = some t ∧
      (∀ i, i ≤ 2 → t.song.Order i = (memOf pattFile (0 + 8 + i)).val) ∧
      (∀ i, 2 < i → i < 5 → t.song.Order i = 0xFF) ∧
      t.song.Order 0 = (memOf pattFile (0 + 8)).val ∧
      (∀ i, 5 ≤ i → t.song.Order i = st0.song.Order i) :=
  have hz : ∀ i, 2 < i → i < 5 → (memOf pattFile (0 + 8 + i)).val = 0 := by
    intro i h1 h2
    interval_cases i <;> rfl
  ⟨by decide, by decide, by decide!, by decide, by decide, by decide,
    Or.inr ⟨by decide, by decide, by decide⟩, hz,
    pattChunk_order_list libmodplug (memOf pattFile) 1024 0 5 st0 5 2 (by decide) (by decide)
      (by decide!) (by decide) (by decide) (by decide)
      (Or.inr ⟨by decide, by decide, by decide⟩) hz⟩

/-- The two order lists of the claim: `[5,3,0,0,0]` becomes `[5,3,0xFF,0xFF,0xFF]` and
`[5,0,3,0,0]` becomes `[5,0,3,0xFF,0xFF]`; a single zero entry `[0]` stays `[0]`. -/
theorem pattChunk_examples :
    ((pattChunk libmodplug (memOf pattFile2) 1024 0 5 st0).state.map
      (fun t => (List.range 5).map t.song.Order)) = some [5, 3, 0xFF, 0xFF, 0xFF] ∧
    ((pattChunk libmodplug (memOf pattFile) 1024 0 5 st0).state.map
      (fun t => (List.range 5).map t.song.Order)) = some [5, 0, 3, 0xFF, 0xFF] ∧
    ((pattChunk libmodplug (memOf [80, 65, 84, 84, 0, 0, 0, 1, 0]) 1024 0 1 st0).state.map
      (fun t => (List.range 2).map t.song.Order)) = some [0, 0] := by
  refine ⟨?_, ?_, ?_⟩ <;> decide!

/-- Masking with `0x0F` is the remainder modulo 16. -/
theorem and_15 (q : Nat) : q &&& 0x0F = q % 16 := Nat.and_pow_two_sub_one_eq_mod q 4

/-! ## C10: the command table -/

/-- C10. For a cell whose command field is still zero-initialised (`CMD_NONE`, as in the
freshly allocated grid) and a quad with raw command `c = p[2] ≠ 31` and raw parameter
`q = p[3]`, the decoded cell has: `c ∈ {1,17,30}`: Portamento Up if `q ≠ 0`, else no
command; `c ∈ {2,13,21}`: Portamento Down if `q ≠ 0`, else no command;
`c ∈ {10,11,12}`: Arpeggio; `c = 15`: `CMD_MODCMDEX` with parameter `q mod 16`
(`q & 0x0F`); `c = 25`: Position Jump; `c = 28`: Set Speed; every other `c` (0 included):
no command; and whenever `c ≠ 15` the stored parameter is `q`. -/
theorem decodeCell_command_table (m : MODCOMMAND) (p : Nat → BYTE)
    (hm : m.command = Command.CMD_NONE) (hc : (p 2).val ≠ 31) :
    (((p 2).val = 1 ∨ (p 2).val = 17 ∨ (p 2).val = 30) →
      ((p 3).val ≠ 0 → (decodeCell m p).command = Command.CMD_PORTAMENTOUP) ∧
      ((p 3).val = 0 → (decodeCell m p).command = Command.CMD_NONE)) ∧
    (((p 2).val = 2 ∨ (p 2).val = 13 ∨ (p 2).val = 21) →
      ((p 3).val ≠ 0 → (decodeCell m p).command = Command.CMD_PORTAMENTODOWN) ∧
      ((p 3).val = 0 → (decodeCell m p).command = Command.CMD_NONE)) ∧
    (((p 2).val = 10 ∨ (p 2).val = 11 ∨ (p 2).val = 12) →
      (decodeCell m p).command = Command.CMD_ARPEGGIO) ∧
    ((p 2).val = 15 →
      (decodeCell m p).command = Command.CMD_MODCMDEX ∧ (decodeCell m p).param = (p 3).val % 16) ∧
    ((p 2).val = 25 → (decodeCell m p).command = Command.CMD_POSITIONJUMP) ∧
    ((p 2).val = 28 → (decodeCell m p).command = Command.CMD_SPEED) ∧
    ((p 2).val ∉ [1, 17, 30, 2, 13, 21, 10, 11, 12, 15, 25, 28] →
      (decodeCell m p).command = Command.CMD_NONE) ∧
    ((p 2).val ≠ 15 → (decodeCell m p).param = (p 3).val) := by
  have h15 := and_15 (p 3).val
  refine ⟨?_, ?_, ?_, ?_, ?_, ?_, ?_, ?_⟩
  · intro h
    rcases h with h | h | h <;> constructor <;> intro hq <;> simp [decodeCell, h, hq] <;>
      split_ifs <;> simp [hm]
  · intro h
    rcases h with h | h | h <;> constructor <;> intro hq <;> simp [decodeCell, h, hq] <;>
      split_ifs <;> simp [hm]
  · intro h
    rcases h with h | h | h <;> simp [decodeCell, h]
  · intro h
    simp [decodeCell, h, h15]
  · intro h
    simp [decodeCell, h]
  · intro h
    simp [decodeCell, h]
  · intro h
    simp only [List.mem_cons, List.mem_singleton, not_or, List.not_mem_nil, or_false] at h
    obtain ⟨h1, h2, h3, h4, h5, h6, h7, h8, h9, h10, h11, h12⟩ := h
    simp only [decodeCell, h1, h2, h3, h4, h5, h6, h7, h8, h9, h10, h11, h12, hc, or_self,
      if_false]
    split_ifs <;> simp [hm]
  · intro h
    simp only [decodeCell, if_neg h, if_neg hc]
    repeat' split
    all_goals rfl

/-- Witness of C10: the quad `0, 0, 15, 0x37` decoded into a zero cell. -/
theorem decodeCell_command_table_witness :
    zeroCell.command = Command.CMD_NONE ∧ (memOf quadFile 2).val ≠ 31 ∧
    ((((memOf quadFile 2).val = 1 ∨ (memOf quadFile 2).val = 17 ∨ (memOf quadFile 2).val = 30) →
      ((memOf quadFile 3).val ≠ 0 →
        (decodeCell zeroCell (memOf quadFile)).command = Command.CMD_PORTAMENTOUP) ∧
      ((memOf quadFile 3).val = 0 →
        (decodeCell zeroCell (memOf quadFile)).command = Command.CMD_NONE)) ∧
    (((memOf quadFile 2).val = 2 ∨ (memOf quadFile 2).val = 13 ∨ (memOf quadFile 2).val = 21) →
      ((memOf quadFile 3).val ≠ 0 →
        (decodeCell zeroCell (memOf quadFile)).command = Command.CMD_PORTAMENTODOWN) ∧
      ((memOf quadFile 3).val = 0 →
        (decodeCell zeroCell (memOf quadFile)).command = Command.CMD_NONE)) ∧
    (((memOf quadFile 2).val = 10 ∨ (memOf quadFile 2).val = 11 ∨ (memOf quadFile 2).val = 12) →
      (decodeCell zeroCell (memOf quadFile)).command = Command.CMD_ARPEGGIO) ∧
    ((memOf quadFile 2).val = 15 →
      (decodeCell zeroCell (memOf quadFile)).command = Command.CMD_MODCMDEX ∧
      (decodeCell zeroCell (memOf quadFile)).param = (memOf quadFile 3).val % 16) ∧
    ((memOf quadFile 2).val = 25 →
      (decodeCell zeroCell (memOf quadFile)).command = Command.CMD_POSITIONJUMP) ∧
    ((memOf quadFile 2).val = 28 →
      (decodeCell zeroCell (memOf quadFile)).command = Command.CMD_SPEED) ∧
    ((memOf quadFile 2).val ∉ [1, 17, 30, 2, 13, 21, 10, 11, 12, 15, 25, 28] →
      (decodeCell zeroCell (memOf quadFile)).command = Command.CMD_NONE) ∧
    ((memOf quadFile 2).val ≠ 15 →
      (decodeCell zeroCell (memOf quadFile)).param = (memOf quadFile 3).val)) :=
  ⟨rfl, by decide, decodeCell_command_table zeroCell (memOf quadFile) rfl (by decide)⟩

/-- The table on sample quads, decoded into a zero cell: command 1 with parameter 5 and
with parameter 0, command 13, command 11, command 15 with `0x37`, command 25, command
28, command 0 and the unlisted command 7. -/
theorem decodeCell_examples :
    [decodeCell zeroCell (memOf [0, 0, 1, 5]), decodeCell zeroCell (memOf [0, 0, 1, 0]),
     decodeCell zeroCell (memOf [0, 0, 13, 9]), decodeCell zeroCell (memOf [0, 0, 11, 0]),
     decodeCell zeroCell (memOf [0, 0, 15, 0x37]), decodeCell zeroCell (memOf [0, 0, 25, 4]),
     decodeCell zeroCell (memOf [0, 0, 28, 6]), decodeCell zeroCell (memOf [0, 0, 0, 3]),
     decodeCell zeroCell (memOf [0, 0, 7, 3])]
    = [⟨0, 0, Command.CMD_PORTAMENTOUP, 5⟩, ⟨0, 0, Command.CMD_NONE, 0⟩,
       ⟨0, 0, Command.CMD_PORTAMENTODOWN, 9⟩, ⟨0, 0, Command.CMD_ARPEGGIO, 0⟩,
       ⟨0, 0, Command.CMD_MODCMDEX, 7⟩, ⟨0, 0, Command.CMD_POSITIONJUMP, 4⟩,
       ⟨0, 0, Command.CMD_SPEED, 6⟩, ⟨0, 0, Command.CMD_NONE, 3⟩,
       ⟨0, 0, Command.CMD_NONE, 3⟩] := by
  decide

/-! ## Memory safety below the wrap-around range -/

/-- A read inside the stream leaves the ghost flag down. -/
theorem rd_safe (s : St) (len off n : Nat) (hs : s.oob = false) (h : off + n ≤ len) :
    (s.rd len off n).oob = false := by
  simp only [St.rd, hs, Bool.false_or, decide_eq_false_iff_not]
  omega

/-- An access inside the array leaves the ghost flag down. -/
theorem ix_safe (s : St) (bound i : Nat) (hs : s.oob = false) (h : i < bound) :
    (s.ix bound i).oob = false := by
  simp only [St.ix, hs, Bool.false_or, decide_eq_false_iff_not]
  omega

/-- The skip discipline at a cursor with 8 bytes ahead reads inside the stream. -/
theorem skipChunk_safe (lp : Nat → BYTE) (len pos : Nat) (s : St)
    (h12 : 12 ≤ len) (hlen : len < 4294967296) (hp : pos + 8 ≤ len) (hs : s.oob = false) :
    (skipChunk lp len pos s).Sat (fun t => t.oob = false)
      (fun p t => t.oob = false ∧ pos < p ∧ p ≤ len) := by
  have hr := rd_safe s len (pos + 4) 4 hs (by omega)
  unfold skipChunk
  simp only
  generalize readBE32 (ptr lp (pos + 4)) = d
  split_ifs with h
  · exact hr
  · refine ⟨hr, ?_, ?_⟩ <;> (unfold u32 subDW at *; omega)

/-- The sample loop reads inside the stream and writes inside `Ins`. -/
theorem readSamples_safe (K : Consts) (lp : Nat → BYTE) (len : Nat)
    (h12 : 32 ≤ len) (hlen : len < 4294967296) :
    ∀ (n smp pos : Nat) (s : St), pos ≤ len → s.oob = false →
      (readSamples K lp len n smp pos s).Sat (fun t => t.oob = false)
        (fun p t => t.oob = false ∧ p ≤ len) := by
  intro n
  induction n with
  | zero => intro smp pos s hp hs; exact ⟨hs, hp⟩
  | succ n ih =>
    intro smp pos s hp hs
    rw [readSamples]
    have hu : ∀ h : ¬ pos ≥ len - 32, u32 (pos + 32) ≤ len := by
      intro h; unfold u32; omega
    split_ifs with h1 h2
    · exact hs
    · refine ih _ _ _ (hu h1) ?_
      exact ix_safe _ _ _ (rd_safe _ _ _ _ (rd_safe _ _ _ _ hs (by omega)) (by omega)) h2
    · exact ih _ _ _ (hu h1) hs

/-- The SPEE section reads inside the stream. -/
theorem speeChunk_safe (lp : Nat → BYTE) (len pos : Nat) (s : St)
    (h12 : 12 ≤ len) (hlen : len < 4294967296) (hp : pos ≤ len) (hs : s.oob = false) :
    (speeChunk lp len pos s).Sat (fun t => t.oob = false)
      (fun p t => t.oob = false ∧ p ≤ len) := by
  unfold speeChunk
  split_ifs with h1 h2
  · exact hs
  · have hb : pos + 12 < len := by unfold subDW at h1; omega
    have h9 : u32 (pos + 9) = pos + 9 := by unfold u32; omega
    refine Flow.Sat_mono (skipChunk_safe lp len pos _ h12 hlen (by omega) ?_) (fun _ h => h)
      (fun _ _ h => ⟨h.1, h.2.2⟩)
    exact rd_safe _ _ _ _ (rd_safe _ _ _ _ hs (by omega)) (by rw [h9]; omega)
  · have hb : pos + 12 < len := by unfold subDW at h1; omega
    exact ⟨rd_safe _ _ _ _ hs (by omega), hp⟩

/-- The SLEN section reads inside the stream when `dwMemPos + 10` cannot wrap. -/
theorem slenChunk_safe (lp : Nat → BYTE) (len pos : Nat) (s : St)
    (h12 : 12 ≤ len) (hlen : len + 256 ≤ 4294967296) (hp : pos ≤ len) (hs : s.oob = false) :
    (slenChunk lp len pos s).Sat (fun t => t.oob = false)
      (fun p t => t.oob = false ∧ p ≤ len) := by
  unfold slenChunk
  split_ifs with h1 h2
  · exact hs
  · have hb : pos + 10 ≤ len := by unfold u32 at h1; omega
    exact Flow.Sat_mono (skipChunk_safe lp len pos _ h12 (by omega) (by omega)
      (rd_safe _ _ _ _ hs (by omega))) (fun _ h => h) (fun _ _ h => ⟨h.1, h.2.2⟩)
  · have hb : pos + 10 ≤ len := by unfold u32 at h1; omega
    exact ⟨rd_safe _ _ _ _ hs (by omega), hp⟩

/-- The PLEN section reads inside the stream when `dwMemPos + 10` cannot wrap; `norders`
is a byte. -/
theorem plenChunk_safe (lp : Nat → BYTE) (len pos : Nat) (s : St)
    (h12 : 12 ≤ len) (hlen : len + 256 ≤ 4294967296) (hp : pos ≤ len) (hs : s.oob = false) :
    (plenChunk lp len pos s).Sat (fun t => t.oob = false)
      (fun pn t => t.oob = false ∧ pn.1 ≤ len ∧ pn.2 ≤ 255) := by
  unfold plenChunk
  split_ifs with h1 h2
  · exact hs
  · have hb : pos + 10 ≤ len := by unfold u32 at h1; omega
    have h9 : u32 (pos + 9) = pos + 9 := by unfold u32; omega
    refine Flow.Sat_bind (skipChunk_safe lp len pos _ h12 (by omega) (by omega)
      (rd_safe _ _ _ _ (rd_safe _ _ _ _ hs (by omega)) (by rw [h9]; omega))) ?_
    intro p t ht
    have := (lp (u32 (pos + 9))).isLt
    exact ⟨ht.1, ht.2.2, by omega⟩
  · have hb : pos + 10 ≤ len := by unfold u32 at h1; omega
    exact ⟨rd_safe _ _ _ _ hs (by omega), hp, by omega⟩

/-- The copy loop reads inside the stream and writes inside `Order`. -/
theorem copyOrders_safe (K : Consts) (lp : Nat → BYTE) (len pos m : Nat)
    (hlen : len < 4294967296) (hin : pos + 8 + m ≤ len) (hm : m ≤ K.MAX_ORDERS) :
    ∀ (n i : Nat) (s : St), i + n ≤ m → s.oob = false →
      (copyOrders K lp len pos n i s).oob = false := by
  intro n
  induction n with
  | zero => intro i s _ hs; exact hs
  | succ n ih =>
    intro i s hi hs
    rw [copyOrders]
    refine ih _ _ (by omega) ?_
    have hk : u32 (u32 (pos + 8) + i) = pos + 8 + i := by unfold u32; omega
    exact ix_safe _ _ _ (rd_safe _ _ _ _ hs (by rw [hk]; omega)) (by omega)

/-- The backward loop stays inside `Order`. -/
theorem trimOrders_safe (K : Consts) :
    ∀ (j : Nat) (s : St), j ≤ K.MAX_ORDERS → s.oob = false →
      (trimOrders K j s).oob = false := by
  intro j
  induction j with
  | zero => intro s _ hs; exact hs
  | succ j ih =>
    intro s hj hs
    rw [trimOrders]
    split_ifs
    · exact ix_safe _ _ _ hs (by omega)
    · exact ih _ (by omega) (ix_safe _ _ _ hs (by omega))
    · exact hs

/-- The PATT section reads inside the stream and writes inside `Order` when
`dwMemPos + 8 + orderlen` cannot wrap. -/
theorem pattChunk_safe (K : Consts) (lp : Nat → BYTE) (len pos norders : Nat) (s : St)
    (h12 : 12 ≤ len) (hlen : len + 256 ≤ 4294967296) (hO : 0 < K.MAX_ORDERS)
    (hp : pos ≤ len) (hno : norders ≤ 255) (hs : s.oob = false) :
    (pattChunk K lp len pos norders s).Sat (fun t => t.oob = false)
      (fun p t => t.oob = false ∧ p ≤ len) := by
  unfold pattChunk
  have key : ∀ m : Nat, m ≤ 255 → m < K.MAX_ORDERS → ¬ u32 (pos + 8) > len →
      (if u32 (u32 (pos + 8) + m) > len then Flow.done (s.rd len pos 4)
        else skipChunk lp len pos
          (trimOrders K m (copyOrders K lp len pos m 0 (s.rd len pos 4)))).Sat
        (fun t => t.oob = false) (fun p t => t.oob = false ∧ p ≤ len) := by
    intro m hm hmO h1
    have hb : pos + 8 ≤ len := by unfold u32 at h1; omega
    split_ifs with h3
    · exact rd_safe _ _ _ _ hs (by omega)
    · have hb2 : pos + 8 + m ≤ len := by unfold u32 at h3; omega
      refine Flow.Sat_mono (skipChunk_safe lp len pos _ h12 (by omega) hb ?_) (fun _ h => h)
        (fun _ _ h => ⟨h.1, h.2.2⟩)
      exact trimOrders_safe K m _ (by omega)
        (copyOrders_safe K lp len pos m (by omega) hb2 (by omega) m 0 _ (by omega)
          (rd_safe _ _ _ _ hs (by omega)))
  by_cases h1 : u32 (pos + 8) > len
  · rw [if_pos h1]; exact hs
  · rw [if_neg h1]
    by_cases h2 : readBE32 (ptr lp pos) = MAGIC (chr 'P') (chr 'A') (chr 'T') (chr 'T')
    · simp only [if_pos h2]
      by_cases h3 : norders ≥ K.MAX_ORDERS
      · simp only [if_pos h3]
        exact key (K.MAX_ORDERS - 1) (by omega) (by omega) h1
      · simp only [if_neg h3]
        exact key norders hno (by omega) h1
    · simp only [if_neg h2]
      have hb : pos + 8 ≤ len := by unfold u32 at h1; omega
      exact ⟨rd_safe _ _ _ _ hs (by omega), hp⟩


/-- The cell loop reads inside the stream and writes inside the grid when `dwPos + 4`
cannot wrap. -/
theorem fillCells_safe (lp : Nat → BYTE) (len : Nat) (hlen : len + 256 ≤ 4294967296) :
    ∀ (n i dwPos : Nat) (g : List MODCOMMAND × Bool), dwPos ≤ len → i + n ≤ g.1.length →
      g.2 = false → (fillCells lp len n i dwPos g).2 = false := by
  intro n
  induction n with
  | zero => intro i dwPos g _ _ hg; exact hg
  | succ n ih =>
    intro i dwPos g hp hi hg
    rw [fillCells]
    split_ifs with h1
    · exact hg
    · have hb : dwPos + 4 ≤ len := by unfold u32 at h1; omega
      refine ih _ _ _ (by unfold u32; omega) (by simp only [List.length_set]; omega) ?_
      simp only [hg, Bool.false_or, Bool.or_eq_false_iff, decide_eq_false_iff_not]
      omega

/-- The PBOD loop reads inside the stream and writes inside `Patterns`, `PatternSize` and
the grid. -/
theorem pbodLoop_safe (K : Consts) (E : Collab) (lp : Nat → BYTE) (len : Nat)
    (h12 : 12 ≤ len) (hlen : len + 256 ≤ 4294967296) :
    ∀ (fuel npat pos : Nat) (s : St), len - pos < fuel → pos ≤ len → s.oob = false →
      (pbodLoop K E lp len fuel npat pos s).Sat (fun t => t.oob = false)
        (fun p t => t.oob = false ∧ p ≤ len) := by
  intro fuel
  induction fuel with
  | zero => intro npat pos s hf _ _; omega
  | succ fuel ih =>
    intro npat pos s hf hp hs
    rw [pbodLoop]
    by_cases h1 : pos < subDW len 10
    · have hb : pos + 10 < len := by unfold subDW at h1; omega
      have h9 : u32 (pos + 9) = pos + 9 := by unfold u32; omega
      have h10 : u32 (pos + 10) = pos + 10 := by unfold u32; omega
      have hs0 : (s.rd len pos 4).oob = false := rd_safe _ _ _ _ hs (by omega)
      have hs1 : ((s.rd len pos 4).rd len (u32 (pos + 9)) 1).oob = false :=
        rd_safe _ _ _ _ hs0 (by rw [h9]; omega)
      rw [if_pos h1]
      by_cases h2 : readBE32 (ptr lp pos) = MAGIC (chr 'P') (chr 'B') (chr 'O') (chr 'D')
      · simp only [if_pos h2]
        by_cases h3 : npat < K.MAX_PATTERNS
        · simp only [if_pos h3]
          unfold AllocatePattern
          by_cases h4 : E.allocOk npat = true
          · simp only [h4, if_true]
            refine Flow.Sat_bind (skipChunk_safe lp len pos _ h12 (by omega) (by omega) ?_) ?_
            · refine fillCells_safe lp len hlen _ _ _ _ (by rw [h10]; omega) ?_ ?_
              · simp only [List.length_replicate, Nat.zero_add]
                rw [Nat.mul_comm]
                unfold u32
                exact Nat.mod_le _ _
              · exact ix_safe _ _ _ hs1 h3
            · intro p t ht
              exact ih _ _ _ (by omega) ht.2.2 ht.1
          · simp only [h4]
            exact ix_safe _ _ _ hs1 h3
        · simp only [if_neg h3]
          refine Flow.Sat_bind (skipChunk_safe lp len pos _ h12 (by omega) (by omega) hs1) ?_
          intro p t ht
          exact ih _ _ _ (by omega) ht.2.2 ht.1
      · simp only [if_neg h2]
        exact ⟨hs0, hp⟩
    · rw [if_neg h1]
      exact ⟨hs, hp⟩

/-- The SBOD loop reads inside the stream and writes inside `Ins`. -/
theorem sbodLoop_safe (K : Consts) (E : Collab) (lp : Nat → BYTE) (len : Nat)
    (h12 : 12 ≤ len) (hlen : len + 256 ≤ 4294967296) :
    ∀ (fuel nsmp pos : Nat) (s : St), len - pos < fuel → pos ≤ len → s.oob = false →
      (sbodLoop K E lp len fuel nsmp pos s).Sat (fun t => t.oob = false)
        (fun p t => t.oob = false ∧ p ≤ len) := by
  intro fuel
  induction fuel with
  | zero => intro nsmp pos s hf _ _; omega
  | succ fuel ih =>
    intro nsmp pos s hf hp hs
    rw [sbodLoop]
    by_cases h1 : pos < subDW len 10
    · have hb : pos + 10 < len := by unfold subDW at h1; omega
      have hs0 : (s.rd len pos 4).oob = false := rd_safe _ _ _ _ hs (by omega)
      rw [if_pos h1]
      by_cases h2 : readBE32 (ptr lp pos) = MAGIC (chr 'S') (chr 'B') (chr 'O') (chr 'D')
      · simp only [if_pos h2]
        refine Flow.Sat_bind (skipChunk_safe lp len pos _ h12 (by omega) (by omega) ?_) ?_
        · split_ifs with h3
          · exact ix_safe _ _ _ hs0 h3
          · exact hs0
        · intro p t ht
          exact ih _ _ _ (by omega) ht.2.2 ht.1
      · simp only [if_neg h2]
        exact ⟨hs0, hp⟩
    · rw [if_neg h1]
      exact ⟨hs, hp⟩

/-- Everything after the header assignments stays inside the stream and the arrays. -/
theorem parseBody_safe (K : Consts) (E : Collab) (lp : Nat → BYTE) (len : Nat) (s : St)
    (h1024 : 1024 ≤ len) (hlen : len + 256 ≤ 4294967296) (hO : 0 < K.MAX_ORDERS)
    (hs : s.oob = false) :
    (parseBody K E lp len s).Sat (fun t => t.oob = false) (fun _ t => t.oob = false) := by
  unfold parseBody
  refine Flow.Sat_bind (readSamples_safe K lp len (by omega) (by omega) _ 1 32 s (by omega) hs) ?_
  intro p1 s1 f1
  refine Flow.Sat_bind (speeChunk_safe lp len p1 s1 (by omega) (by omega) f1.2 f1.1) ?_
  intro p2 s2 f2
  refine Flow.Sat_bind (slenChunk_safe lp len p2 s2 (by omega) hlen f2.2 f2.1) ?_
  intro p3 s3 f3
  refine Flow.Sat_bind (plenChunk_safe lp len p3 s3 (by omega) hlen f3.2 f3.1) ?_
  intro p4 s4 f4
  refine Flow.Sat_bind
    (pattChunk_safe K lp len p4.1 p4.2 s4 (by omega) hlen hO f4.2.1 f4.2.2 f4.1) ?_
  intro p5 s5 f5
  refine Flow.Sat_bind
    (pbodLoop_safe K E lp len (by omega) hlen _ 0 p5 s5 (by omega) f5.2 f5.1) ?_
  intro p6 s6 f6
  exact Flow.Sat_mono
    (sbodLoop_safe K E lp len (by omega) hlen _ 1 p6 s6 (by omega) f6.2 f6.1)
    (fun _ h => h) (fun _ _ h => h.1)

/-- Memory safety away from the top of the `DWORD` range: for `dwMemLength ≤ 2^32 - 256`
(and `MAX_ORDERS ≥ 1`), `ReadOKT` returns and never raises the ghost flag: every stream
offset it reads is below `dwMemLength` and every array index it writes is inside its
array. -/
theorem ReadOKT_safe (K : Consts) (E : Collab) (lpStream : Option (Nat → BYTE))
    (dwMemLength : Nat) (s : St) (hlen : dwMemLength + 256 ≤ 2 ^ 32) (hO : 0 < K.MAX_ORDERS)
    (hs : s.oob = false) :
    ∃ r t, ReadOKT K E lpStream dwMemLength s = some (r, t) ∧ t.oob = false := by
  have hlen' : dwMemLength + 256 ≤ 4294967296 := by norm_num at hlen; exact hlen
  unfold ReadOKT
  cases lpStream with
  | none => exact ⟨false, s, rfl, hs⟩
  | some lp =>
    simp only
    split_ifs with h1 h2
    · exact ⟨false, s, rfl, hs⟩
    · exact ⟨false, _, rfl, rd_safe _ _ _ _ hs (by omega)⟩
    · have hp := parseBody_safe K E lp dwMemLength
        { (s.rd dwMemLength 0 32) with song := initSong K lp s.song } (by omega) hlen' hO
        (rd_safe _ _ _ _ hs (by omega))
      cases hq : parseBody K E lp dwMemLength
          { (s.rd dwMemLength 0 32) with song := initSong K lp s.song } with
      | done t => rw [hq] at hp; exact ⟨true, t, rfl, hp⟩
      | next a t => rw [hq] at hp; exact ⟨true, t, rfl, hp⟩
      | stuck => rw [hq] at hp; exact hp.elim

/-! ## C11: the volume commands -/

/-- For a nibble `q`, or-ing with `0xB0` or `0xA0` adds it, and shifting it by 4 is
multiplying by 16. -/
theorem nibble_or (q : Nat) (hq : q < 16) :
    0xB0 ||| q = 0xB0 + q ∧ 0xA0 ||| q = 0xA0 + q ∧ q <<< 4 = q * 16 := by
  refine ⟨?_, ?_, ?_⟩
  · exact (Nat.mul_add_lt_is_or (i := 4) (b := q) hq 11).symm
  · exact (Nat.mul_add_lt_is_or (i := 4) (b := q) hq 10).symm
  · rw [Nat.shiftLeft_eq]

/-- C11. For a cell whose command field is still zero-initialised and a quad with raw
command `p[2] = 31` and raw parameter `q = p[3]`: `q ≤ 0x40`: Set Volume with `q`;
`0x40 < q ≤ 0x50`: Volume Slide with `q mod 16`, 0 replaced by `0x0F`;
`0x50 < q ≤ 0x60`: Volume Slide with `(q mod 16) * 16`, 0 replaced by `0xF0`;
`0x60 < q ≤ 0x70`: `CMD_MODCMDEX` with `0xB0 + q mod 16`, and `0xBF` when `q mod 16 = 0`;
`0x70 < q ≤ 0x80`: `CMD_MODCMDEX` with `0xA0 + q mod 16`, and `0xAF` when `q mod 16 = 0`;
`q > 0x80`: no command, parameter `q`. -/
theorem decodeCell_volume_table (m : MODCOMMAND) (p : Nat → BYTE)
    (hm : m.command = Command.CMD_NONE) (hc : (p 2).val = 31) :
    ((p 3).val ≤ 0x40 →
      (decodeCell m p).command = Command.CMD_VOLUME ∧ (decodeCell m p).param = (p 3).val) ∧
    (0x40 < (p 3).val → (p 3).val ≤ 0x50 →
      (decodeCell m p).command = Command.CMD_VOLUMESLIDE ∧
      (decodeCell m p).param = if (p 3).val % 16 = 0 then 0x0F else (p 3).val % 16) ∧
    (0x50 < (p 3).val → (p 3).val ≤ 0x60 →
      (decodeCell m p).command = Command.CMD_VOLUMESLIDE ∧
      (decodeCell m p).param = if (p 3).val % 16 = 0 then 0xF0 else ((p 3).val % 16) * 16) ∧
    (0x60 < (p 3).val → (p 3).val ≤ 0x70 →
      (decodeCell m p).command = Command.CMD_MODCMDEX ∧
      (decodeCell m p).param = if (p 3).val % 16 = 0 then 0xBF else 0xB0 + (p 3).val % 16) ∧
    (0x70 < (p 3).val → (p 3).val ≤ 0x80 →
      (decodeCell m p).command = Command.CMD_MODCMDEX ∧
      (decodeCell m p).param = if (p 3).val % 16 = 0 then 0xAF else 0xA0 + (p 3).val % 16) ∧
    (0x80 < (p 3).val →
      (decodeCell m p).command = Command.CMD_NONE ∧ (decodeCell m p).param = (p 3).val) := by
  have h15 := and_15 (p 3).val
  have hq : (p 3).val % 16 < 16 := Nat.mod_lt _ (by decide)
  obtain ⟨hB, hA, hS⟩ := nibble_or ((p 3).val % 16) hq
  have hcs : ¬ ((p 2).val = 0) ∧ ¬ ((p 2).val = 1 ∨ (p 2).val = 17 ∨ (p 2).val = 30) ∧
      ¬ ((p 2).val = 2 ∨ (p 2).val = 13 ∨ (p 2).val = 21) ∧
      ¬ ((p 2).val = 10 ∨ (p 2).val = 11 ∨ (p 2).val = 12) ∧ ¬ ((p 2).val = 15) ∧
      ¬ ((p 2).val = 25) ∧ ¬ ((p 2).val = 28) := by
    refine ⟨?_, ?_, ?_, ?_, ?_, ?_, ?_⟩ <;> omega
  obtain ⟨c0, c1, c2, c3, c4, c5, c6⟩ := hcs
  have hz : (p 3).val % 16 * 16 = 0 ↔ (p 3).val % 16 = 0 := by omega
  refine ⟨?_, ?_, ?_, ?_, ?_, ?_⟩
  · intro h1
    simp only [decodeCell, if_neg c0, if_neg c1, if_neg c2, if_neg c3, if_neg c4, if_neg c5,
      if_neg c6, if_pos hc, if_pos h1]
    exact ⟨trivial, trivial⟩
  · intro h1 h2
    have n1 : ¬ (p 3).val ≤ 0x40 := by omega
    simp only [decodeCell, if_neg c0, if_neg c1, if_neg c2, if_neg c3, if_neg c4, if_neg c5,
      if_neg c6, if_pos hc, if_neg n1, if_pos h2, h15]
    exact ⟨trivial, trivial⟩
  · intro h1 h2
    have n1 : ¬ (p 3).val ≤ 0x40 := by omega
    have n2 : ¬ (p 3).val ≤ 0x50 := by omega
    simp only [decodeCell, if_neg c0, if_neg c1, if_neg c2, if_neg c3, if_neg c4, if_neg c5,
      if_neg c6, if_pos hc, if_neg n1, if_neg n2, if_pos h2, h15, hS, hz]
    exact ⟨trivial, trivial⟩
  · intro h1 h2
    have n1 : ¬ (p 3).val ≤ 0x40 := by omega
    have n2 : ¬ (p 3).val ≤ 0x50 := by omega
    have n3 : ¬ (p 3).val ≤ 0x60 := by omega
    simp only [decodeCell, if_neg c0, if_neg c1, if_neg c2, if_neg c3, if_neg c4, if_neg c5,
      if_neg c6, if_pos hc, if_neg n1, if_neg n2, if_neg n3, if_pos h2, h15, hB]
    exact ⟨trivial, trivial⟩
  · intro h1 h2
    have n1 : ¬ (p 3).val ≤ 0x40 := by omega
    have n2 : ¬ (p 3).val ≤ 0x50 := by omega
    have n3 : ¬ (p 3).val ≤ 0x60 := by omega
    have n4 : ¬ (p 3).val ≤ 0x70 := by omega
    simp only [decodeCell, if_neg c0, if_neg c1, if_neg c2, if_neg c3, if_neg c4, if_neg c5,
      if_neg c6, if_pos hc, if_neg n1, if_neg n2, if_neg n3, if_neg n4, if_pos h2, h15, hA]
    exact ⟨trivial, trivial⟩
  · intro h1
    have n1 : ¬ (p 3).val ≤ 0x40 := by omega
    have n2 : ¬ (p 3).val ≤ 0x50 := by omega
    have n3 : ¬ (p 3).val ≤ 0x60 := by omega
    have n4 : ¬ (p 3).val ≤ 0x70 := by omega
    have n5 : ¬ (p 3).val ≤ 0x80 := by omega
    simp only [decodeCell, if_neg c0, if_neg c1, if_neg c2, if_neg c3, if_neg c4, if_neg c5,
      if_neg c6, if_pos hc, if_neg n1, if_neg n2, if_neg n3, if_neg n4, if_neg n5]
    refine ⟨?_, trivial⟩
    split <;> exact hm

/-- Witness of C11: the quad `0, 0, 31, 0x45` decoded into a zero cell. -/
theorem decodeCell_volume_table_witness :
    zeroCell.command = Command.CMD_NONE ∧ (memOf volQuad 2).val = 31 ∧
    0x40 < (memOf volQuad 3).val ∧ (memOf volQuad 3).val ≤ 0x50 ∧
    (decodeCell zeroCell (memOf volQuad)).command = Command.CMD_VOLUMESLIDE ∧
    (decodeCell zeroCell (memOf volQuad)).param
      = if (memOf volQuad 3).val % 16 = 0 then 0x0F else (memOf volQuad 3).val % 16 :=
  ⟨rfl, by decide, by decide, by decide,
    (decodeCell_volume_table zeroCell (memOf volQuad) rfl (by decide)).2.1
      (by decide) (by decide)⟩

/-- The volume commands of the claim, decoded into a zero cell: parameter `0x00` gives
Set Volume 0, `0x45` Volume Slide `0x05`, `0x50` Volume Slide `0x0F`, `0x65` Extended
`0xB5`; and further `0x40`, `0x60`, `0x70`, `0x75`, `0x80`, `0x81`. -/
theorem decodeCell_volume_examples :
    [decodeCell zeroCell (memOf [0, 0, 31, 0x00]), decodeCell zeroCell (memOf [0, 0, 31, 0x45]),
     decodeCell zeroCell (memOf [0, 0, 31, 0x50]), decodeCell zeroCell (memOf [0, 0, 31, 0x65]),
     decodeCell zeroCell (memOf [0, 0, 31, 0x40]), decodeCell zeroCell (memOf [0, 0, 31, 0x60]),
     decodeCell zeroCell (memOf [0, 0, 31, 0x70]), decodeCell zeroCell (memOf [0, 0, 31, 0x75]),
     decodeCell zeroCell (memOf [0, 0, 31, 0x80]), decodeCell zeroCell (memOf [0, 0, 31, 0x81])]
    = [⟨0, 0, Command.CMD_VOLUME, 0⟩, ⟨0, 0, Command.CMD_VOLUMESLIDE, 0x05⟩,
       ⟨0, 0, Command.CMD_VOLUMESLIDE, 0x0F⟩, ⟨0, 0, Command.CMD_MODCMDEX, 0xB5⟩,
       ⟨0, 0, Command.CMD_VOLUME, 0x40⟩, ⟨0, 0, Command.CMD_VOLUMESLIDE, 0xF0⟩,
       ⟨0, 0, Command.CMD_MODCMDEX, 0xBF⟩, ⟨0, 0, Command.CMD_MODCMDEX, 0xA5⟩,
       ⟨0, 0, Command.CMD_MODCMDEX, 0xAF⟩, ⟨0, 0, Command.CMD_NONE, 0x81⟩] := by
  decide

/-! ## C12: note and instrument -/

/-- The note and instrument fields after decoding a quad. -/
theorem decodeCell_note_instr (m : MODCOMMAND) (p : Nat → BYTE) :
    (decodeCell m p).note = (if (p 0).val ≠ 0 then ((p 0).val + 48) % 256 else m.note) ∧
    (decodeCell m p).instr = (if (p 0).val ≠ 0 then ((p 1).val + 1) % 256 else m.instr) := by
  constructor
  · simp only [decodeCell, apply_ite MODCOMMAND.note, ite_self]
  · simp only [decodeCell, apply_ite MODCOMMAND.instr, ite_self]

/-- The command and parameter fields after decoding depend on the command field of the
cell and on the bytes 2 and 3 of the quad only. -/
theorem decodeCell_command_param_congr (m m' : MODCOMMAND) (p p' : Nat → BYTE)
    (hm : m'.command = m.command) (h2 : p' 2 = p 2) (h3 : p' 3 = p 3) :
    (decodeCell m' p').command = (decodeCell m p).command ∧
    (decodeCell m' p').param = (decodeCell m p).param := by
  constructor
  · simp only [decodeCell, apply_ite MODCOMMAND.command, ite_self, h2, h3, hm]
  · simp only [decodeCell, apply_ite MODCOMMAND.param, ite_self, h2, h3]

/-- C12, counterexample. The quad with note byte 255 and instrument byte 255 decoded into
a zero cell stores note 47 and instrument 0, not `255 + 48` and `255 + 1`: the fields of
`MODCOMMAND` are bytes. -/
theorem decodeCell_note_wraps :
    (memOf [255, 255, 0, 0] 0).val ≠ 0 ∧
    (decodeCell zeroCell (memOf [255, 255, 0, 0])).note = 47 ∧
    (decodeCell zeroCell (memOf [255, 255, 0, 0])).note ≠ (memOf [255, 255, 0, 0] 0).val + 48 ∧
    (decodeCell zeroCell (memOf [255, 255, 0, 0])).instr = 0 ∧
    (decodeCell zeroCell (memOf [255, 255, 0, 0])).instr ≠ (memOf [255, 255, 0, 0] 1).val + 1 := by
  decide

/-- C12, amended. For every decoded cell with raw bytes `n = p[0]`, `i = p[1]`: if
`n ≠ 0` the stored note is `(n + 48) mod 256` and the stored instrument is
`(i + 1) mod 256`, that is `n + 48` when `n ≤ 207` and `i + 1` when `i ≤ 254`; if
`n = 0` note and instrument stay as they were in the cell (zero in a zero-initialised
cell) and the byte `i` is ignored; the command and the parameter are decoded from the
bytes 2 and 3 alone, whatever `n` and `i` are. -/
theorem decodeCell_note_instr_mod (m : MODCOMMAND) (p : Nat → BYTE) :
    ((p 0).val ≠ 0 →
      (decodeCell m p).note = ((p 0).val + 48) % 256 ∧
      (decodeCell m p).instr = ((p 1).val + 1) % 256 ∧
      ((p 0).val ≤ 207 → (decodeCell m p).note = (p 0).val + 48) ∧
      ((p 1).val ≤ 254 → (decodeCell m p).instr = (p 1).val + 1)) ∧
    ((p 0).val = 0 →
      (decodeCell m p).note = m.note ∧ (decodeCell m p).instr = m.instr ∧
      (m = zeroCell → (decodeCell m p).note = 0 ∧ (decodeCell m p).instr = 0)) ∧
    (∀ (m' : MODCOMMAND) (p' : Nat → BYTE), m'.command = m.command → p' 2 = p 2 →
      p' 3 = p 3 →
      (decodeCell m' p').command = (decodeCell m p).command ∧
      (decodeCell m' p').param = (decodeCell m p).param) := by
  obtain ⟨hn, hi⟩ := decodeCell_note_instr m p
  refine ⟨?_, ?_, ?_⟩
  · intro h0
    rw [hn, hi, if_pos h0, if_pos h0]
    exact ⟨rfl, rfl, fun h => by omega, fun h => by omega⟩
  · intro h0
    rw [hn, hi, if_neg (by omega), if_neg (by omega)]
    refine ⟨rfl, rfl, ?_⟩
    intro hm
    rw [hm]
    exact ⟨rfl, rfl⟩
  · intro m' p' hm h2 h3
    exact decodeCell_command_param_congr m m' p p' hm h2 h3

/-- Witness of the amended C12: the quad `12, 4, 0, 0` decoded into a zero cell. -/
theorem decodeCell_note_instr_mod_witness :
    (memOf noteQuad 0).val ≠ 0 ∧ (memOf noteQuad 0).val ≤ 207 ∧ (memOf noteQuad 1).val ≤ 254 ∧
    (decodeCell zeroCell (memOf noteQuad)).note = (memOf noteQuad 0).val + 48 ∧
    (decodeCell zeroCell (memOf noteQuad)).instr = (memOf noteQuad 1).val + 1 :=
  have h := (decodeCell_note_instr_mod zeroCell (memOf noteQuad)).1 (by decide)
  ⟨by decide, by decide, by decide, h.2.2.1 (by decide), h.2.2.2 (by decide)⟩

/-! ## C13: the skip discipline -/

/-- The skip discipline, exactly: the two-part test fails exactly when
`dwMemPos + dwSize + 8 ≤ dwMemLength`; then the cursor becomes that sum, otherwise the
section returns; the song is the same in both cases. -/
theorem skipChunk_exact (lp : Nat → BYTE) (len c : Nat) (s : St) (h8 : 8 ≤ len)
    (hlen : len < 4294967296) :
    ((readBE32 (ptr lp (c + 4)) > subDW len 8 ∨
        c > subDW (subDW len (readBE32 (ptr lp (c + 4)))) 8) ↔
      ¬ (c + readBE32 (ptr lp (c + 4)) + 8 ≤ len)) ∧
    skipChunk lp len c s =
      (if c + readBE32 (ptr lp (c + 4)) + 8 ≤ len
        then Flow.next (c + readBE32 (ptr lp (c + 4)) + 8) (s.rd len (c + 4) 4)
        else Flow.done (s.rd len (c + 4) 4)) := by
  have hd := readBE32_lt (ptr lp (c + 4))
  unfold skipChunk
  simp only
  generalize readBE32 (ptr lp (c + 4)) = d at *
  have hiff : (d > subDW len 8 ∨ c > subDW (subDW len d) 8) ↔ ¬ (c + d + 8 ≤ len) := by
    unfold subDW; omega
  refine ⟨hiff, ?_⟩
  by_cases h : c + d + 8 ≤ len
  · rw [if_neg (fun hh => (hiff.mp hh) h), if_pos h]
    have : u32 (c + u32 (d + 8)) = c + d + 8 := by unfold u32; omega
    rw [this]
  · rw [if_pos (hiff.mpr h), if_neg h]

/-- The cells written by the cell loop do not depend on the ghost flag. -/
theorem fillCells_fst (lp : Nat → BYTE) (len : Nat) :
    ∀ (n i pos : Nat) (g : List MODCOMMAND) (o o' : Bool),
      (fillCells lp len n i pos (g, o)).1 = (fillCells lp len n i pos (g, o')).1 := by
  intro n
  induction n with
  | zero =>
    intro i pos g o o'
    rw [fillCells, fillCells]
  | succ n ih =>
    intro i pos g o o'
    rw [fillCells, fillCells]
    by_cases h : u32 (pos + 4) > len
    · simp only [if_pos h]
    · simp only [if_neg h]
      exact ih _ _ _ _ _

/-- C13. For a stream of length `1024 ≤ dwMemLength < 2^32` and a chunk at cursor `c`
with declared big-endian length `d` (bytes `c+4 .. c+7`): the two-part 32-bit test
`d > dwMemLength - 8 || c > dwMemLength - d - 8` fails exactly when
`c + d + 8 ≤ dwMemLength` in unbounded arithmetic.  For each recognised chunk (`SPEE`,
`SLEN`, `PLEN`, `PATT`, and an iteration of the `PBOD` and `SBOD` loops) the section
then goes on with the cursor exactly `c + d + 8`, and otherwise returns at once
(`Flow.done`, which `ReadOKT` turns into `TRUE`) with the very state `t` it would have
gone on with.  The song of `t` is given for every chunk kind: the song the section was
entered with, changed only by what the chunk decoded (the speed; the order list; the
pattern and row count of slot `npat`, if `npat < MAX_PATTERNS`; the sample `ReadSample`
returns for slot `nsmp`, if `nsmp < MAX_SAMPLES`); the skip itself changes no field. -/
theorem chunk_skip_discipline (K : Consts) (E : Collab) (lp : Nat → BYTE)
    (dwMemLength c : Nat) (h1024 : 1024 ≤ dwMemLength) (hlen : dwMemLength < 2 ^ 32) :
    ((readBE32 (ptr lp (c + 4)) > subDW dwMemLength 8 ∨
        c > subDW (subDW dwMemLength (readBE32 (ptr lp (c + 4)))) 8) ↔
      ¬ (c + readBE32 (ptr lp (c + 4)) + 8 ≤ dwMemLength)) ∧
    (∀ s : St, ∃ t, t.song = s.song ∧
      skipChunk lp dwMemLength c s =
        (if c + readBE32 (ptr lp (c + 4)) + 8 ≤ dwMemLength
          then Flow.next (c + readBE32 (ptr lp (c + 4)) + 8) t else Flow.done t)) ∧
    (∀ s : St, ¬ c ≥ subDW dwMemLength 12 →
      readBE32 (ptr lp c) = MAGIC (chr 'S') (chr 'P') (chr 'E') (chr 'E') →
      ∃ t, t.song = { s.song with m_nDefaultSpeed := (lp (u32 (c + 9))).val } ∧
        speeChunk lp dwMemLength c s =
          (if c + readBE32 (ptr lp (c + 4)) + 8 ≤ dwMemLength
            then Flow.next (c + readBE32 (ptr lp (c + 4)) + 8) t else Flow.done t)) ∧
    (∀ s : St, ¬ u32 (c + 10) > dwMemLength →
      readBE32 (ptr lp c) = MAGIC (chr 'S') (chr 'L') (chr 'E') (chr 'N') →
      ∃ t, t.song = s.song ∧
        slenChunk lp dwMemLength c s =
          (if c + readBE32 (ptr lp (c + 4)) + 8 ≤ dwMemLength
            then Flow.next (c + readBE32 (ptr lp (c + 4)) + 8) t else Flow.done t)) ∧
    (∀ s : St, ¬ u32 (c + 10) > dwMemLength →
      readBE32 (ptr lp c) = MAGIC (chr 'P') (chr 'L') (chr 'E') (chr 'N') →
      ∃ t, t.song = s.song ∧
        plenChunk lp dwMemLength c s =
          (if c + readBE32 (ptr lp (c + 4)) + 8 ≤ dwMemLength
            then Flow.next (c + readBE32 (ptr lp (c + 4)) + 8, (lp (u32 (c + 9))).val) t
            else Flow.done t)) ∧
    (∀ (s : St) (norders n : Nat), ¬ u32 (c + 8) > dwMemLength →
      readBE32 (ptr lp c) = MAGIC (chr 'P') (chr 'A') (chr 'T') (chr 'T') →
      n = (if norders ≥ K.MAX_ORDERS then K.MAX_ORDERS - 1 else norders) →
      ¬ u32 (u32 (c + 8) + n) > dwMemLength →
      ∃ t, t.song = (trimOrders K n (copyOrders K lp dwMemLength c n 0 s)).song ∧
        pattChunk K lp dwMemLength c norders s =
          (if c + readBE32 (ptr lp (c + 4)) + 8 ≤ dwMemLength
            then Flow.next (c + readBE32 (ptr lp (c + 4)) + 8) t else Flow.done t)) ∧
    (∀ (s : St) (fuel npat : Nat), c + 10 < dwMemLength →
      readBE32 (ptr lp c) = MAGIC (chr 'P') (chr 'B') (chr 'O') (chr 'D') →
      npat < K.MAX_PATTERNS → E.allocOk npat = true →
      ∃ t, t.song = { s.song with
          Patterns := Function.update s.song.Patterns npat
            (some (fillCells lp dwMemLength
              (u32 (s.song.m_nChannels
                * (if (lp (c + 9)).val = 0 then 64 else (lp (c + 9)).val))) 0 (c + 10)
              (List.replicate ((if (lp (c + 9)).val = 0 then 64 else (lp (c + 9)).val)
                * s.song.m_nChannels) zeroCell, false)).1)
          PatternSize := Function.update s.song.PatternSize npat
            (if (lp (c + 9)).val = 0 then 64 else (lp (c + 9)).val) } ∧
        pbodLoop K E lp dwMemLength (fuel + 1) npat c s =
          (if c + readBE32 (ptr lp (c + 4)) + 8 ≤ dwMemLength
            then pbodLoop K E lp dwMemLength fuel (npat + 1)
              (c + readBE32 (ptr lp (c + 4)) + 8) t
            else Flow.done t)) ∧
    (∀ (s : St) (fuel npat : Nat), c + 10 < dwMemLength →
      readBE32 (ptr lp c) = MAGIC (chr 'P') (chr 'B') (chr 'O') (chr 'D') →
      K.MAX_PATTERNS ≤ npat →
      ∃ t, t.song = s.song ∧
        pbodLoop K E lp dwMemLength (fuel + 1) npat c s =
          (if c + readBE32 (ptr lp (c + 4)) + 8 ≤ dwMemLength
            then pbodLoop K E lp dwMemLength fuel (npat + 1)
              (c + readBE32 (ptr lp (c + 4)) + 8) t
            else Flow.done t)) ∧
    (∀ (s : St) (fuel nsmp : Nat), c + 10 < dwMemLength →
      readBE32 (ptr lp c) = MAGIC (chr 'S') (chr 'B') (chr 'O') (chr 'D') →
      ∃ t, t.song = (if nsmp < K.MAX_SAMPLES then { s.song with
            Ins := Function.update s.song.Ins nsmp
              (E.ReadSample (s.song.Ins nsmp) K.RS_PCM8S (ptr lp (c + 8))
                (dwMemLength - c - 8)) }
          else s.song) ∧
        sbodLoop K E lp dwMemLength (fuel + 1) nsmp c s =
          (if c + readBE32 (ptr lp (c + 4)) + 8 ≤ dwMemLength
            then sbodLoop K E lp dwMemLength fuel (nsmp + 1)
              (c + readBE32 (ptr lp (c + 4)) + 8) t
            else Flow.done t)) ∧
    (∀ (s t : St), ¬ badHeader lp →
      parseBody K E lp dwMemLength
          { (s.rd dwMemLength 0 32) with song := initSong K lp s.song } = Flow.done t →
      ReadOKT K E (some lp) dwMemLength s = some (true, t)) := by
  have hlen' : dwMemLength < 4294967296 := by norm_num at hlen; exact hlen
  have hsk := fun s => (skipChunk_exact lp dwMemLength c s (by omega) hlen').2
  have bind_ite : ∀ {α β : Type} (P : Prop) [Decidable P] (a : α) (t : St)
      (k : α → St → Flow β),
      (if P then Flow.next a t else Flow.done t).bind k = if P then k a t else Flow.done t := by
    intro α β P _ a t k
    split_ifs <;> rfl
  refine ⟨(skipChunk_exact lp dwMemLength c st0 (by omega) hlen').1, ?_, ?_, ?_, ?_, ?_, ?_,
    ?_, ?_, ?_⟩
  · intro s
    exact ⟨s.rd dwMemLength (c + 4) 4, rfl, hsk s⟩
  · intro s h1 h2
    unfold speeChunk
    rw [if_neg h1]
    simp only [if_pos h2]
    refine ⟨_, ?_, hsk _⟩
    rfl
  · intro s h1 h2
    unfold slenChunk
    rw [if_neg h1]
    simp only [if_pos h2]
    refine ⟨_, ?_, hsk _⟩
    rfl
  · intro s h1 h2
    unfold plenChunk
    rw [if_neg h1]
    simp only [if_pos h2]
    rw [hsk, bind_ite]
    refine ⟨((s.rd dwMemLength c 4).rd dwMemLength (u32 (c + 9)) 1).rd dwMemLength (c + 4) 4,
      rfl, rfl⟩
  · intro s norders n h1 h2 hn h3
    have hc : ∀ (m i : Nat) (a b : St), a.song = b.song →
        (copyOrders K lp dwMemLength c m i a).song
          = (copyOrders K lp dwMemLength c m i b).song := by
      intro m
      induction m with
      | zero => intro i a b h; simpa [copyOrders] using h
      | succ m ih =>
        intro i a b h
        rw [copyOrders, copyOrders]
        apply ih
        simp only [St.rd, St.ix, h]
    have ht : ∀ (j : Nat) (a b : St), a.song = b.song →
        (trimOrders K j a).song = (trimOrders K j b).song := by
      intro j
      induction j with
      | zero => intro a b h; simpa [trimOrders] using h
      | succ j ih =>
        intro a b h
        rw [trimOrders, trimOrders]
        split_ifs with c1 c2 c3 c3
        · simpa [St.ix] using h
        · exact absurd (h ▸ c2) c3
        · exact absurd (h ▸ c3) c2
        · apply ih
          simp only [St.ix, h]
        · exact h
    unfold pattChunk
    rw [if_neg h1]
    simp only [if_pos h2, ← hn, if_neg h3]
    refine ⟨_, ?_, hsk _⟩
    exact ht _ _ _ (hc _ _ _ _ rfl)
  · intro s fuel npat hc h2 h3 h4
    have h1 : c < subDW dwMemLength 10 := by unfold subDW; omega
    have h9 : u32 (c + 9) = c + 9 := by unfold u32; omega
    have h10 : u32 (c + 10) = c + 10 := by unfold u32; omega
    rw [pbodLoop, if_pos h1]
    simp only [if_pos h2, if_pos h3, AllocatePattern, h4, if_true, h9, h10]
    rw [hsk, bind_ite]
    refine ⟨_, ?_, rfl⟩
    simp only [St.rd, St.ix]
    rw [fillCells_fst lp dwMemLength _ _ _ _ _ false]
  · intro s fuel npat hc h2 h3
    have h1 : c < subDW dwMemLength 10 := by unfold subDW; omega
    rw [pbodLoop, if_pos h1]
    simp only [if_pos h2, if_neg (Nat.not_lt.mpr h3)]
    rw [hsk, bind_ite]
    refine ⟨_, ?_, rfl⟩
    rfl
  · intro s fuel nsmp hc h2
    have h1 : c < subDW dwMemLength 10 := by unfold subDW; omega
    have h8 : subDW (subDW dwMemLength c) 8 = dwMemLength - c - 8 := by unfold subDW; omega
    rw [sbodLoop, if_pos h1]
    simp only [if_pos h2, h8]
    rw [hsk, bind_ite]
    refine ⟨_, ?_, rfl⟩
    by_cases h3 : nsmp < K.MAX_SAMPLES
    · simp only [if_pos h3]
      rfl
    · simp only [if_neg h3]
      rfl
  · intro s t hb hp
    unfold ReadOKT
    simp only [if_neg (Nat.not_lt.mpr h1024), if_neg hb, hp]

/-- Witness of C13: skips that fail.  In `overlongPbodFile` and `overlongSbodFile`
(1024 bytes) the chunk at cursor 32 declares 1024 bytes, so the test fires.  The `PBOD`
iteration, entered on the song the header sets up (8 channels), returns with row count 1
and the decoded cell (note `12 + 48`, instrument `4 + 1`) in slot 0 and the channel
count still 8; the `SBOD` iteration returns with the sample `ReadSample` produced in
slot 1. -/
theorem chunk_skip_discipline_witness :
    1024 ≤ 1024 ∧ (1024 : Nat) < 2 ^ 32 ∧
    ((readBE32 (ptr (memOf overlongPbodFile) (32 + 4)) > subDW 1024 8 ∨
        32 > subDW (subDW 1024 (readBE32 (ptr (memOf overlongPbodFile) (32 + 4)))) 8) ↔
      ¬ (32 + readBE32 (ptr (memOf overlongPbodFile) (32 + 4)) + 8 ≤ 1024)) ∧
    (∀ s : St, ∃ t, t.song = s.song ∧
      skipChunk (memOf overlongPbodFile) 1024 32 s =
        (if 32 + readBE32 (ptr (memOf overlongPbodFile) (32 + 4)) + 8 ≤ 1024
          then Flow.next (32 + readBE32 (ptr (memOf overlongPbodFile) (32 + 4)) + 8) t
          else Flow.done t)) ∧
    (∃ t, pbodLoop libmodplug allocAlways (memOf overlongPbodFile) 1024 1 0 32
          ⟨initSong libmodplug (memOf overlongPbodFile) song0, false⟩ = Flow.done t ∧
        t.song.m_nChannels = 8 ∧ t.song.PatternSize 0 = 1 ∧
        t.song.Patterns 0 = some (⟨60, 5, Command.CMD_NONE, 0⟩ :: List.replicate 7 zeroCell) ∧
        t.song.Patterns 1 = none) ∧
    (∃ t, sbodLoop libmodplug bumpSample (memOf overlongSbodFile) 1024 1 1 32
          ⟨initSong libmodplug (memOf overlongSbodFile) song0, false⟩ = Flow.done t ∧
        t.song.m_nChannels = 8 ∧ (t.song.Ins 1).nLength = 1 ∧ t.song.Ins 2 = zeroIns) := by
  have h := chunk_skip_discipline libmodplug allocAlways (memOf overlongPbodFile) 1024 32
    (by decide) (by decide)
  have h' := chunk_skip_discipline libmodplug bumpSample (memOf overlongSbodFile) 1024 32
    (by decide) (by decide)
  refine ⟨by decide, by decide, h.1, h.2.1, ?_, ?_⟩
  · obtain ⟨t, ht, hl⟩ := h.2.2.2.2.2.2.1
      ⟨initSong libmodplug (memOf overlongPbodFile) song0, false⟩ 0 0 (by decide)
      (by decide!) (by decide) rfl
    rw [if_neg (by decide!)] at hl
    refine ⟨t, hl, ?_, ?_, ?_, ?_⟩
    · rw [ht]
      decide!
    · rw [ht]
      decide!
    · rw [ht]
      decide!
    · rw [ht]
      decide!
  · obtain ⟨t, ht, hl⟩ := h'.2.2.2.2.2.2.2.2.1
      ⟨initSong libmodplug (memOf overlongSbodFile) song0, false⟩ 0 1 (by decide)
      (by decide!)
    rw [if_neg (by decide!)] at hl
    refine ⟨t, hl, ?_, ?_, ?_⟩
    · rw [ht]
      decide!
    · rw [ht]
      decide!
    · rw [ht]
      decide!

/-- The skip discipline on `pbodFile`: from cursor 32 with declared length 6 the cursor
becomes 46 in a stream of 1024 bytes, and the section returns in a stream of 45 bytes. -/
theorem skipChunk_examples :
    (skipChunk (memOf pbodFile) 1024 32 st0).cursor = some 46 ∧
    (skipChunk (memOf pbodFile) 46 32 st0).cursor = some 46 ∧
    (skipChunk (memOf pbodFile) 45 32 st0).cursor = none := by
  refine ⟨?_, ?_, ?_⟩ <;> decide!

/-- A failed skip keeps what the chunk decoded, through `ReadOKT`: the chunk at cursor 32
declares 1024 bytes in a stream of 1024 bytes, and `ReadOKT` returns `TRUE` with the
speed (`overlongSpeeFile`), with row count 1 and the cell of note 60, instrument 5
(`overlongPbodFile`), with the sample of slot 1 (`overlongSbodFile`), and in each case
with the 8 channels of the header. -/
theorem failed_skip_examples :
    (skipChunk (memOf overlongPbodFile) 1024 32 st0).cursor = none ∧
    (ReadOKT libmodplug allocAlways (some (memOf overlongSpeeFile)) 1024 st0).map
      (fun r => (r.1, r.2.song.m_nChannels, r.2.song.m_nDefaultSpeed)) = some (true, 8, 6) ∧
    (ReadOKT libmodplug allocAlways (some (memOf overlongPbodFile)) 1024 st0).map
      (fun r => (r.1, r.2.song.m_nChannels, r.2.song.PatternSize 0,
        (r.2.song.Patterns 0).map (fun g => (g.length, g.getD 0 zeroCell))))
      = some (true, 8, 1, some (8, ⟨60, 5, Command.CMD_NONE, 0⟩)) ∧
    (ReadOKT libmodplug bumpSample (some (memOf overlongSbodFile)) 1024 st0).map
      (fun r => (r.1, r.2.song.m_nChannels, (r.2.song.Ins 1).nLength))
      = some (true, 8, 1) := by
  refine ⟨?_, ?_, ?_, ?_⟩ <;> decide!

/-! ## C14: termination, and C16: a rejected input leaves the song alone -/

/-- A section that satisfies some conditions is not out of fuel. -/
theorem Flow.Sat_ne_stuck {α : Type} {D : St → Prop} {N : α → St → Prop} {f : Flow α}
    (h : f.Sat D N) : f ≠ Flow.stuck := by
  intro e
  rw [e] at h
  exact h

/-- Any two amounts of fuel above `dwMemLength - dwMemPos` give the PBOD loop the same
result. -/
theorem pbodLoop_fuel (K : Consts) (E : Collab) (lp : Nat → BYTE) (len : Nat)
    (h12 : 12 ≤ len) (hlen : len < 4294967296) :
    ∀ (fuel fuel' npat pos : Nat) (s : St), len - pos < fuel → len - pos < fuel' →
      pbodLoop K E lp len fuel npat pos s = pbodLoop K E lp len fuel' npat pos s := by
  intro fuel
  induction fuel with
  | zero => intro fuel' npat pos s hf _; omega
  | succ fuel ih =>
    intro fuel' npat pos s hf hf'
    cases fuel' with
    | zero => omega
    | succ fuel' =>
      have hrec : ∀ (u : St),
          (skipChunk lp len pos u).bind (fun p s2 => pbodLoop K E lp len fuel (npat + 1) p s2)
          = (skipChunk lp len pos u).bind
              (fun p s2 => pbodLoop K E lp len fuel' (npat + 1) p s2) := by
        intro u
        have hs := skipChunk_sat lp len pos u h12 hlen
        cases hq : skipChunk lp len pos u with
        | done t => rfl
        | next p t =>
          rw [hq] at hs
          simp only [Flow.bind]
          exact ih _ _ _ _ (by have := hs.2.1; have := hs.2.2; omega)
            (by have := hs.2.1; have := hs.2.2; omega)
        | stuck => rfl
      rw [pbodLoop, pbodLoop]
      simp only [hrec]

/-- Any two amounts of fuel above `dwMemLength - dwMemPos` give the SBOD loop the same
result. -/
theorem sbodLoop_fuel (K : Consts) (E : Collab) (lp : Nat → BYTE) (len : Nat)
    (h12 : 12 ≤ len) (hlen : len < 4294967296) :
    ∀ (fuel fuel' nsmp pos : Nat) (s : St), len - pos < fuel → len - pos < fuel' →
      sbodLoop K E lp len fuel nsmp pos s = sbodLoop K E lp len fuel' nsmp pos s := by
  intro fuel
  induction fuel with
  | zero => intro fuel' nsmp pos s hf _; omega
  | succ fuel ih =>
    intro fuel' nsmp pos s hf hf'
    cases fuel' with
    | zero => omega
    | succ fuel' =>
      have hrec : ∀ (u : St),
          (skipChunk lp len pos u).bind (fun p s2 => sbodLoop K E lp len fuel (nsmp + 1) p s2)
          = (skipChunk lp len pos u).bind
              (fun p s2 => sbodLoop K E lp len fuel' (nsmp + 1) p s2) := by
        intro u
        have hs := skipChunk_sat lp len pos u h12 hlen
        cases hq : skipChunk lp len pos u with
        | done t => rfl
        | next p t =>
          rw [hq] at hs
          simp only [Flow.bind]
          exact ih _ _ _ _ (by have := hs.2.1; have := hs.2.2; omega)
            (by have := hs.2.1; have := hs.2.2; omega)
        | stuck => rfl
      rw [sbodLoop, sbodLoop]
      simp only [hrec]

/-- The sample loop, when it falls through after `n` iterations, has moved the cursor by
`32 n`. -/
theorem readSamples_cursor (K : Consts) (lp : Nat → BYTE) (len : Nat) (h32 : 32 ≤ len)
    (hlen : len < 4294967296) :
    ∀ (n smp pos : Nat) (s : St) (p : Nat) (t : St),
      readSamples K lp len n smp pos s = Flow.next p t → p = pos + 32 * n := by
  intro n
  induction n with
  | zero =>
    intro smp pos s p t h
    rw [readSamples] at h
    cases h
    rfl
  | succ n ih =>
    intro smp pos s p t h
    rw [readSamples] at h
    by_cases h1 : pos ≥ len - 32
    · rw [if_pos h1] at h; cases h
    · rw [if_neg h1] at h
      have hu : u32 (pos + 32) = pos + 32 := by unfold u32; omega
      rw [hu] at h
      have := ih _ _ _ _ _ h
      omega

/-- The cell loop with `n` iterations left at cell `i` touches the cells `i .. i+n-1`
only and keeps the size of the grid. -/
theorem fillCells_range (lp : Nat → BYTE) (len : Nat) :
    ∀ (n i dwPos : Nat) (g : List MODCOMMAND × Bool),
      (fillCells lp len n i dwPos g).1.length = g.1.length ∧
      ∀ j, (j < i ∨ i + n ≤ j) →
        (fillCells lp len n i dwPos g).1.getD j zeroCell = g.1.getD j zeroCell := by
  intro n
  induction n with
  | zero => intro i dwPos g; rw [fillCells]; exact ⟨rfl, fun _ _ => rfl⟩
  | succ n ih =>
    intro i dwPos g
    rw [fillCells]
    split_ifs with h
    · exact ⟨rfl, fun _ _ => rfl⟩
    · obtain ⟨h1, h2⟩ := ih (i + 1) (u32 (dwPos + 4))
        (g.1.set i (decodeCell (g.1.getD i zeroCell) (ptr lp dwPos)),
         g.2 || decide (len < dwPos + 4) || decide (g.1.length ≤ i))
      refine ⟨by rw [h1]; simp only [List.length_set], ?_⟩
      intro j hj
      rw [h2 j (by omega)]
      simp only [List.getD_eq_getElem?_getD]
      rw [List.getElem?_set_ne (by omega)]


/-- C14. `ReadOKT` terminates on every stream and every `DWORD` length: it returns a
result (the fuel is never used up).  The sample loop does at most the declared number
`n` of iterations and moves the cursor by 32 in each (by `32 n` when it falls through);
every iteration of the `PBOD` and `SBOD` loops that goes on moves the cursor forward by
at least 8 and keeps it at most `dwMemLength`, so any fuel above
`dwMemLength - dwMemPos` is enough and the result does not depend on it; the cell loop
with `n` iterations left touches at most the `n` cells from its index on. -/
theorem ReadOKT_terminates (K : Consts) (E : Collab) (lpStream : Option (Nat → BYTE))
    (dwMemLength : Nat) (s : St) (hlen : dwMemLength < 2 ^ 32) :
    (∃ r t, ReadOKT K E lpStream dwMemLength s = some (r, t)) ∧
    (∀ (lp : Nat → BYTE) (n smp pos : Nat) (u : St) (p : Nat) (t : St),
      1024 ≤ dwMemLength → readSamples K lp dwMemLength n smp pos u = Flow.next p t →
      p = pos + 32 * n) ∧
    (∀ (lp : Nat → BYTE) (pos : Nat) (u : St) (p : Nat) (t : St),
      1024 ≤ dwMemLength → skipChunk lp dwMemLength pos u = Flow.next p t →
      pos + 8 ≤ p ∧ p ≤ dwMemLength) ∧
    (∀ (lp : Nat → BYTE) (fuel fuel' npat pos : Nat) (u : St),
      1024 ≤ dwMemLength → dwMemLength - pos < fuel → dwMemLength - pos < fuel' →
      pbodLoop K E lp dwMemLength fuel npat pos u ≠ Flow.stuck ∧
      pbodLoop K E lp dwMemLength fuel npat pos u
        = pbodLoop K E lp dwMemLength fuel' npat pos u) ∧
    (∀ (lp : Nat → BYTE) (fuel fuel' nsmp pos : Nat) (u : St),
      1024 ≤ dwMemLength → dwMemLength - pos < fuel → dwMemLength - pos < fuel' →
      sbodLoop K E lp dwMemLength fuel nsmp pos u ≠ Flow.stuck ∧
      sbodLoop K E lp dwMemLength fuel nsmp pos u
        = sbodLoop K E lp dwMemLength fuel' nsmp pos u) ∧
    (∀ (lp : Nat → BYTE) (n i dwPos : Nat) (g : List MODCOMMAND × Bool),
      (fillCells lp dwMemLength n i dwPos g).1.length = g.1.length ∧
      ∀ j, (j < i ∨ i + n ≤ j) →
        (fillCells lp dwMemLength n i dwPos g).1.getD j zeroCell = g.1.getD j zeroCell) := by
  have hlen' : dwMemLength < 4294967296 := by norm_num at hlen; exact hlen
  refine ⟨?_, ?_, ?_, ?_, ?_, ?_⟩
  · by_cases hr : Rejected lpStream dwMemLength
    · obtain ⟨t, ht, -⟩ := ReadOKT_rejects K E lpStream dwMemLength s hr
      exact ⟨false, t, ht⟩
    · cases lpStream with
      | none => exact absurd trivial hr
      | some lp =>
        have h1 : 1024 ≤ dwMemLength := by
          by_contra hc; exact hr (Or.inl (by omega))
        obtain ⟨t, ht, -⟩ := ReadOKT_accepts K E lp dwMemLength s h1 hlen'
          (fun hb => hr (Or.inr hb))
        exact ⟨true, t, ht⟩
  · intro lp n smp pos u p t h1 h
    exact readSamples_cursor K lp dwMemLength (by omega) hlen' n smp pos u p t h
  · intro lp pos u p t h1 h
    have hs := skipChunk_sat lp dwMemLength pos u (by omega) hlen'
    rw [h] at hs
    have := hs.2.1
    have := hs.2.2
    omega
  · intro lp fuel fuel' npat pos u h1 hf hf'
    exact ⟨Flow.Sat_ne_stuck
        (pbodLoop_frame K E lp dwMemLength (by omega) hlen' fuel npat pos u u hf (Frame.refl u)),
      pbodLoop_fuel K E lp dwMemLength (by omega) hlen' fuel fuel' npat pos u hf hf'⟩
  · intro lp fuel fuel' nsmp pos u h1 hf hf'
    exact ⟨Flow.Sat_ne_stuck
        (sbodLoop_frame K E lp dwMemLength (by omega) hlen' fuel nsmp pos u u hf (Frame.refl u)),
      sbodLoop_fuel K E lp dwMemLength (by omega) hlen' fuel fuel' nsmp pos u hf hf'⟩
  · intro lp n i dwPos g
    exact fillCells_range lp dwMemLength n i dwPos g

/-- Witness of C14: the file with a `PBOD` chunk, 1024 bytes. -/
theorem ReadOKT_terminates_witness :
    (1024 : Nat) < 2 ^ 32 ∧
    ∃ r t, ReadOKT libmodplug allocAlways (some (memOf pbodFile)) 1024 st0 = some (r, t) :=
  ⟨by decide,
    (ReadOKT_terminates libmodplug allocAlways (some (memOf pbodFile)) 1024 st0 (by decide)).1⟩

/-- C16. Whenever `ReadOKT` returns `FALSE`, the state it leaves is the state it was
called with: no field of the song has been modified (and nothing was read outside the
stream). -/
theorem ReadOKT_false_keeps_song (K : Consts) (E : Collab) (lpStream : Option (Nat → BYTE))
    (dwMemLength : Nat) (s t : St)
    (h : ReadOKT K E lpStream dwMemLength s = some (false, t)) :
    t.song = s.song ∧ t.oob = s.oob := by
  unfold ReadOKT at h
  cases lpStream with
  | none =>
    simp only [Option.some.injEq, Prod.mk.injEq, true_and] at h
    rw [← h]
    exact ⟨rfl, rfl⟩
  | some lp =>
    simp only at h
    split_ifs at h with h1 h2
    · simp only [Option.some.injEq, Prod.mk.injEq, true_and] at h
      rw [← h]
      exact ⟨rfl, rfl⟩
    · simp only [Option.some.injEq, Prod.mk.injEq, true_and] at h
      rw [← h]
      refine ⟨rfl, ?_⟩
      have hd : decide (dwMemLength < 0 + 32) = false := by
        simp only [decide_eq_false_iff_not]; omega
      simp only [St.rd, hd, Bool.or_false]
    · split at h <;> simp at h

/-- Witness of C16: a stream of 2048 zero bytes, rejected by the header test. -/
theorem ReadOKT_false_keeps_song_witness :
    ReadOKT libmodplug allocAlways (some (memOf [])) 2048 st0
      = some (false, st0.rd 2048 0 32) ∧
    (st0.rd 2048 0 32).song = st0.song ∧ (st0.rd 2048 0 32).oob = st0.oob :=
  have h : ReadOKT libmodplug allocAlways (some (memOf [])) 2048 st0
      = some (false, st0.rd 2048 0 32) := by with_unfolding_all rfl
  ⟨h, ReadOKT_false_keeps_song libmodplug allocAlways (some (memOf [])) 2048 st0
    (st0.rd 2048 0 32) h⟩

/-! ## C18: which sample records are consumed -/

/-- C18, counterexample. In `lastRecordFile` (1024 bytes, 31 records declared) record 31
lies at `992 .. 1023`, so `c + 32 ≤ dwMemLength` holds at `c = 992`; yet the sample loop
at that cursor returns at once without consuming it, and `ReadOKT` leaves `Ins[31]`
untouched (while record 30 is decoded).  With one more byte the record is decoded. -/
theorem sample_record_at_end_not_decoded :
    992 + 32 ≤ 1024 ∧ 31 < libmodplug.MAX_SAMPLES ∧
    bswapBE32 (ptr (memOf lastRecordFile) 28) >>> 5 = 31 ∧
    (readSamples libmodplug (memOf lastRecordFile) 1024 1 31 992 st0).cursor = none ∧
    (readSamples libmodplug (memOf lastRecordFile) 1024 1 31 992 st0).state.map
      (fun t => t.song.Ins 31) = some zeroIns ∧
    (ReadOKT libmodplug allocAlways (some (memOf lastRecordFile)) 1024 st0).map
      (fun r => (r.1, r.2.song.Ins 30, r.2.song.Ins 31))
      = some (true, ⟨[], 0, 0, 0, 8363, 0, 64, 0⟩, zeroIns) ∧
    (ReadOKT libmodplug allocAlways (some (memOf lastRecordFile)) 1025 st0).map
      (fun r => (r.1, r.2.song.Ins 31)) = some (true, ⟨[], 0, 0, 0, 8363, 256, 64, 0⟩) := by
  refine ⟨by decide, by decide, ?_, ?_, ?_, ?_, ?_⟩ <;> decide!

/-- C18, amended. In the sample loop with the cursor at `c` before a record that is
still due (`n + 1` iterations left): the record is consumed, and stored by `storeSample`
if `smp < MAX_SAMPLES`, exactly when `c + 32 < dwMemLength`, and then the loop goes on
with the cursor `c + 32`; when `c + 32 ≥ dwMemLength` (also when the record ends exactly
at the last byte) the loop returns at once (`TRUE`) with the state unchanged. -/
theorem readSamples_consumes_iff (K : Consts) (lp : Nat → BYTE) (dwMemLength n smp c : Nat)
    (s : St) (h1024 : 1024 ≤ dwMemLength) (hlen : dwMemLength < 2 ^ 32) :
    (c + 32 < dwMemLength →
      ∃ s1, s1.song = (if smp < K.MAX_SAMPLES then storeSample K lp c smp s.song else s.song) ∧
        readSamples K lp dwMemLength (n + 1) smp c s
          = readSamples K lp dwMemLength n (smp + 1) (c + 32) s1) ∧
    (¬ c + 32 < dwMemLength →
      readSamples K lp dwMemLength (n + 1) smp c s = Flow.done s) := by
  have hlen' : dwMemLength < 4294967296 := by norm_num at hlen; exact hlen
  constructor
  · intro h
    have hc : ¬ c ≥ dwMemLength - 32 := by omega
    have hu : u32 (c + 32) = c + 32 := by unfold u32; omega
    rw [readSamples, if_neg hc, hu]
    refine ⟨_, ?_, rfl⟩
    split_ifs <;> rfl
  · intro h
    have hc : c ≥ dwMemLength - 32 := by omega
    rw [readSamples, if_pos hc]

/-- Witness of the amended C18: `lastRecordFile` at record 30 (consumed) and
record 31 (not consumed). -/
theorem readSamples_consumes_iff_witness :
    1024 ≤ 1024 ∧ (1024 : Nat) < 2 ^ 32 ∧
    (960 + 32 < 1024 →
      ∃ s1, s1.song = (if 30 < libmodplug.MAX_SAMPLES
          then storeSample libmodplug (memOf lastRecordFile) 960 30 st0.song else st0.song) ∧
        readSamples libmodplug (memOf lastRecordFile) 1024 (1 + 1) 30 960 st0
          = readSamples libmodplug (memOf lastRecordFile) 1024 1 (30 + 1) (960 + 32) s1) ∧
    (¬ 992 + 32 < 1024 →
      readSamples libmodplug (memOf lastRecordFile) 1024 (0 + 1) 31 992 st0 = Flow.done st0) :=
  ⟨by decide, by decide,
    (readSamples_consumes_iff libmodplug (memOf lastRecordFile) 1024 1 30 960 st0
      (by decide) (by decide)).1,
    (readSamples_consumes_iff libmodplug (memOf lastRecordFile) 1024 0 31 992 st0
      (by decide) (by decide)).2⟩

/-! ## C19: the SPEE chunk -/

/-- C19, counterexample. In `speeTailFile` (1034 bytes) the sample table ends at cursor
1024, the tag there is `SPEE`, `1024 + 10 ≤ 1034` and the byte at `1024 + 9` is 6; yet
the SPEE section returns at once and `ReadOKT` leaves the default speed at its old
value 0.  The speed is set only from 1037 bytes on. -/
theorem spee_with_ten_bytes_not_read :
    (readSamples libmodplug (memOf speeTailFile) 1034 31 1 32 st0).cursor = some 1024 ∧
    readBE32 (ptr (memOf speeTailFile) 1024) = MAGIC (chr 'S') (chr 'P') (chr 'E') (chr 'E') ∧
    1024 + 10 ≤ 1034 ∧ (memOf speeTailFile (1024 + 9)).val = 6 ∧
    (speeChunk (memOf speeTailFile) 1034 1024 st0).cursor = none ∧
    (speeChunk (memOf speeTailFile) 1034 1024 st0).state.map
      (fun t => t.song.m_nDefaultSpeed) = some 0 ∧
    (ReadOKT libmodplug allocAlways (some (memOf speeTailFile)) 1034 st0).map
      (fun r => (r.1, r.2.song.m_nDefaultSpeed)) = some (true, 0) ∧
    (ReadOKT libmodplug allocAlways (some (memOf speeTailFile)) 1036 st0).map
      (fun r => (r.1, r.2.song.m_nDefaultSpeed)) = some (true, 0) ∧
    (ReadOKT libmodplug allocAlways (some (memOf speeTailFile)) 1037 st0).map
      (fun r => (r.1, r.2.song.m_nDefaultSpeed)) = some (true, 6) := by
  refine ⟨?_, ?_, by decide, ?_, ?_, ?_, ?_, ?_, ?_⟩ <;> decide!

/-- C19, amended. In the SPEE section at cursor `c`: if the tag `SPEE` is at `c` and at
least 13 bytes are available (`c + 12 < dwMemLength`), the default speed is set to the
byte at `c + 9`, whether or not the skip of the chunk succeeds; if the tag at `c` is not
`SPEE`, or fewer than 13 bytes are available, the song (so the default speed) is left
unchanged. -/
theorem speeChunk_default_speed (lp : Nat → BYTE) (dwMemLength c : Nat) (s : St)
    (h1024 : 1024 ≤ dwMemLength) (hlen : dwMemLength < 2 ^ 32) :
    (c + 12 < dwMemLength →
      readBE32 (ptr lp c) = MAGIC (chr 'S') (chr 'P') (chr 'E') (chr 'E') →
      ∃ t, (speeChunk lp dwMemLength c s).state = some t ∧
        t.song = { s.song with m_nDefaultSpeed := (lp (c + 9)).val }) ∧
    ((¬ c + 12 < dwMemLength ∨
        readBE32 (ptr lp c) ≠ MAGIC (chr 'S') (chr 'P') (chr 'E') (chr 'E')) →
      ∃ t, (speeChunk lp dwMemLength c s).state = some t ∧ t.song = s.song) ∧
    (¬ c + 12 < dwMemLength → speeChunk lp dwMemLength c s = Flow.done s) := by
  have hlen' : dwMemLength < 4294967296 := by norm_num at hlen; exact hlen
  have hiff : c ≥ subDW dwMemLength 12 ↔ ¬ c + 12 < dwMemLength := by
    unfold subDW; omega
  refine ⟨?_, ?_, ?_⟩
  · intro h1 h2
    have h9 : u32 (c + 9) = c + 9 := by unfold u32; omega
    unfold speeChunk
    rw [if_neg (fun h => (hiff.mp h) h1)]
    simp only [if_pos h2, h9]
    obtain ⟨t, ht, hs⟩ := skipChunk_song lp dwMemLength c
      { ((s.rd dwMemLength c 4).rd dwMemLength (c + 9) 1) with
        song := { ((s.rd dwMemLength c 4).rd dwMemLength (c + 9) 1).song with
                  m_nDefaultSpeed := (lp (c + 9)).val } }
    exact ⟨t, ht, hs⟩
  · intro h
    unfold speeChunk
    by_cases h1 : c ≥ subDW dwMemLength 12
    · rw [if_pos h1]; exact ⟨s, rfl, rfl⟩
    · rw [if_neg h1]
      have h2 : readBE32 (ptr lp c) ≠ MAGIC (chr 'S') (chr 'P') (chr 'E') (chr 'E') := by
        rcases h with h | h
        · exact absurd (hiff.mpr h) h1
        · exact h
      simp only [if_neg h2]
      exact ⟨_, rfl, rfl⟩
  · intro h
    unfold speeChunk
    rw [if_pos (hiff.mpr h)]

/-- Witness of the amended C19: `speeTailFile` with 1037 bytes. -/
theorem speeChunk_default_speed_witness :
    1024 ≤ 1037 ∧ (1037 : Nat) < 2 ^ 32 ∧ 1024 + 12 < 1037 ∧
    readBE32 (ptr (memOf speeTailFile) 1024) = MAGIC (chr 'S') (chr 'P') (chr 'E') (chr 'E') ∧
    ∃ t, (speeChunk (memOf speeTailFile) 1037 1024 st0).state = some t ∧
      t.song = { st0.song with m_nDefaultSpeed := (memOf speeTailFile (1024 + 9)).val } :=
  ⟨by decide, by decide, by decide, by decide!,
    (speeChunk_default_speed (memOf speeTailFile) 1037 1024 st0 (by decide) (by decide)).1
      (by decide) (by decide!)⟩

/-! ## C20: which pattern chunks are processed -/

/-- The PBOD loop started at pattern index `npat` does not touch a slot `k < npat`. -/
theorem pbodLoop_keeps (K : Consts) (E : Collab) (lp : Nat → BYTE) (len k : Nat)
    (h12 : 12 ≤ len) (hlen : len < 4294967296) :
    ∀ (fuel npat pos : Nat) (s s0 : St), k < npat → len - pos < fuel →
      (s.song.Patterns k = s0.song.Patterns k ∧ s.song.PatternSize k = s0.song.PatternSize k) →
      (pbodLoop K E lp len fuel npat pos s).Sat
        (fun t => t.song.Patterns k = s0.song.Patterns k ∧
          t.song.PatternSize k = s0.song.PatternSize k)
        (fun _ t => t.song.Patterns k = s0.song.Patterns k ∧
          t.song.PatternSize k = s0.song.PatternSize k) := by
  intro fuel
  induction fuel with
  | zero => intro npat pos s s0 _ hf _; omega
  | succ fuel ih =>
    intro npat pos s s0 hk hf h
    have hne : k ≠ npat := by omega
    have step : ∀ u : St,
        (u.song.Patterns k = s0.song.Patterns k ∧
          u.song.PatternSize k = s0.song.PatternSize k) →
        ((skipChunk lp len pos u).bind
          (fun p s2 => pbodLoop K E lp len fuel (npat + 1) p s2)).Sat
          (fun t => t.song.Patterns k = s0.song.Patterns k ∧
            t.song.PatternSize k = s0.song.PatternSize k)
          (fun _ t => t.song.Patterns k = s0.song.Patterns k ∧
            t.song.PatternSize k = s0.song.PatternSize k) := by
      intro u hu
      refine Flow.Sat_bind (N := fun p t => (t.song.Patterns k = s0.song.Patterns k ∧
          t.song.PatternSize k = s0.song.PatternSize k) ∧ pos < p ∧ p ≤ len) ?_ ?_
      · exact Flow.Sat_mono (skipChunk_sat lp len pos u h12 hlen)
          (fun t e => by rw [e]; exact hu)
          (fun p t e => ⟨by rw [e.1]; exact hu, by omega, e.2.2⟩)
      · intro p t ht
        exact ih _ _ _ _ (by omega) (by omega) ht.1
    rw [pbodLoop]
    by_cases h1 : pos < subDW len 10
    · rw [if_pos h1]
      by_cases h2 : readBE32 (ptr lp pos) = MAGIC (chr 'P') (chr 'B') (chr 'O') (chr 'D')
      · simp only [if_pos h2]
        by_cases h3 : npat < K.MAX_PATTERNS
        · simp only [if_pos h3]
          unfold AllocatePattern
          by_cases h4 : E.allocOk npat = true
          · simp only [h4, if_true]
            apply step
            simp only [St.rd, Function.update_noteq hne]
            exact h
          · have h4' : E.allocOk npat = false := by simpa using h4
            simp only [h4', Bool.false_eq_true, if_false]
            simp only [Flow.Sat, St.rd, St.ix, Function.update_noteq hne]
            exact h
        · simp only [if_neg h3]
          exact step _ h
      · simp only [if_neg h2]
        exact h
    · rw [if_neg h1]
      exact h

/-- C20, counterexample. In `pbodTailFile` (1024 bytes) the pattern loop is reached with
the cursor at 1014, the tag there is `PBOD` and `1014 + 10 ≤ 1024`; yet the loop does
not process the chunk: it exits at once and `ReadOKT` stores no pattern.  With one more
byte the chunk is processed and its 3 rows are recorded. -/
theorem pbod_with_ten_bytes_not_processed :
    (speeChunk (memOf pbodTailFile) 1024 32 st0).cursor = some 1014 ∧
    readBE32 (ptr (memOf pbodTailFile) 1014) = MAGIC (chr 'P') (chr 'B') (chr 'O') (chr 'D') ∧
    1014 + 10 ≤ 1024 ∧ (memOf pbodTailFile (1014 + 9)).val = 3 ∧
    (pbodLoop libmodplug allocAlways (memOf pbodTailFile) 1024 (1024 + 1) 0 1014 st0).cursor
      = some 1014 ∧
    (ReadOKT libmodplug allocAlways (some (memOf pbodTailFile)) 1024 st0).map
      (fun r => (r.1, r.2.song.PatternSize 0, (r.2.song.Patterns 0).isSome))
      = some (true, 0, false) ∧
    (ReadOKT libmodplug allocAlways (some (memOf pbodTailFile)) 1025 st0).map
      (fun r => (r.1, r.2.song.PatternSize 0, (r.2.song.Patterns 0).isSome))
      = some (true, 3, true) := by
  refine ⟨?_, ?_, by decide, ?_, ?_, ?_, ?_⟩ <;> decide!

/-- C20, amended. The pattern loop processes a chunk at cursor `c` exactly when at least
11 bytes remain at the cursor (`c + 10 < dwMemLength`) and the 4 bytes at `c` are
`PBOD`; otherwise it exits with the cursor and the song unchanged.  For a processed
chunk whose pattern is stored (`npat < MAX_PATTERNS`, allocation succeeds) the row count
is the byte at `c + 9`, with 0 read as 64; when the loop ends, `PatternSize[npat]` is
that row count and `Patterns[npat]` is a grid of `rows * m_nChannels` cells. -/
theorem pbodLoop_processes_iff (K : Consts) (E : Collab) (lp : Nat → BYTE)
    (dwMemLength fuel npat c : Nat) (s : St) (h1024 : 1024 ≤ dwMemLength)
    (hlen : dwMemLength < 2 ^ 32) :
    (¬ (c + 10 < dwMemLength ∧
        readBE32 (ptr lp c) = MAGIC (chr 'P') (chr 'B') (chr 'O') (chr 'D')) →
      ∃ t, t.song = s.song ∧
        pbodLoop K E lp dwMemLength (fuel + 1) npat c s = Flow.next c t) ∧
    (c + 10 < dwMemLength →
      readBE32 (ptr lp c) = MAGIC (chr 'P') (chr 'B') (chr 'O') (chr 'D') →
      npat < K.MAX_PATTERNS → E.allocOk npat = true → dwMemLength - c < fuel + 1 →
      ∃ t, (pbodLoop K E lp dwMemLength (fuel + 1) npat c s).state = some t ∧
        t.song.PatternSize npat = (if (lp (c + 9)).val = 0 then 64 else (lp (c + 9)).val) ∧
        ∃ g, t.song.Patterns npat = some g ∧
          g.length = (if (lp (c + 9)).val = 0 then 64 else (lp (c + 9)).val)
            * s.song.m_nChannels) := by
  have hlen' : dwMemLength < 4294967296 := by norm_num at hlen; exact hlen
  have hiff : c < subDW dwMemLength 10 ↔ c + 10 < dwMemLength := by
    unfold subDW; omega
  constructor
  · intro h
    rw [pbodLoop]
    by_cases h1 : c < subDW dwMemLength 10
    · rw [if_pos h1]
      have h2 : ¬ readBE32 (ptr lp c) = MAGIC (chr 'P') (chr 'B') (chr 'O') (chr 'D') :=
        fun h2 => h ⟨hiff.mp h1, h2⟩
      simp only [if_neg h2]
      exact ⟨s.rd dwMemLength c 4, rfl, rfl⟩
    · rw [if_neg h1]
      exact ⟨s, rfl, rfl⟩
  · intro h1 h2 h3 h4 hf
    have h9 : u32 (c + 9) = c + 9 := by unfold u32; omega
    rw [pbodLoop, if_pos (hiff.mpr h1)]
    simp only [if_pos h2, if_pos h3, AllocatePattern, h4, if_true, h9]
    generalize hg : fillCells lp dwMemLength _ 0 _ _ = g
    have hgl : g.1.length = (if (lp (c + 9)).val = 0 then 64 else (lp (c + 9)).val)
        * s.song.m_nChannels := by
      rw [← hg, (fillCells_range lp dwMemLength _ _ _ _).1]
      simp only [List.length_replicate, St.rd]
    refine Flow.Sat_state (P := fun t =>
      t.song.PatternSize npat = (if (lp (c + 9)).val = 0 then 64 else (lp (c + 9)).val) ∧
      ∃ g', t.song.Patterns npat = some g' ∧ g'.length =
        (if (lp (c + 9)).val = 0 then 64 else (lp (c + 9)).val) * s.song.m_nChannels) ?_
    refine Flow.Sat_bind (N := fun p t => (t.song.PatternSize npat =
        (if (lp (c + 9)).val = 0 then 64 else (lp (c + 9)).val) ∧
        t.song.Patterns npat = some g.1) ∧ c < p ∧ p ≤ dwMemLength) ?_ ?_
    · refine Flow.Sat_mono (skipChunk_sat lp dwMemLength c _ (by omega) hlen') ?_ ?_
      · intro t e
        rw [e]
        simp only [Function.update_same]
        exact ⟨trivial, g.1, rfl, hgl⟩
      · intro p t e
        rw [e.1]
        simp only [Function.update_same]
        exact ⟨⟨trivial, trivial⟩, by omega, e.2.2⟩
    · intro p t ht
      refine Flow.Sat_mono (pbodLoop_keeps K E lp dwMemLength npat (by omega) hlen' fuel
        (npat + 1) p t t (by omega) (by omega) ⟨rfl, rfl⟩) ?_ ?_
      · intro u hu
        exact ⟨by rw [hu.2, ht.1.1], g.1, by rw [hu.1, ht.1.2], hgl⟩
      · intro _ u hu
        exact ⟨by rw [hu.2, ht.1.1], g.1, by rw [hu.1, ht.1.2], hgl⟩


/-- Witness of the amended C20: `pbodTailFile` with 1025 bytes, the chunk at 1014. -/
theorem pbodLoop_processes_iff_witness :
    1024 ≤ 1025 ∧ (1025 : Nat) < 2 ^ 32 ∧ 1014 + 10 < 1025 ∧
    readBE32 (ptr (memOf pbodTailFile) 1014) = MAGIC (chr 'P') (chr 'B') (chr 'O') (chr 'D') ∧
    0 < libmodplug.MAX_PATTERNS ∧ allocAlways.allocOk 0 = true ∧ 1025 - 1014 < 1025 + 1 ∧
    ∃ t, (pbodLoop libmodplug allocAlways (memOf pbodTailFile) 1025 (1025 + 1) 0 1014
        st0).state = some t ∧
      t.song.PatternSize 0 = (if (memOf pbodTailFile (1014 + 9)).val = 0 then 64
        else (memOf pbodTailFile (1014 + 9)).val) ∧
      ∃ g, t.song.Patterns 0 = some g ∧
        g.length = (if (memOf pbodTailFile (1014 + 9)).val = 0 then 64
          else (memOf pbodTailFile (1014 + 9)).val) * st0.song.m_nChannels :=
  ⟨by decide, by decide, by decide, by decide!, by decide, rfl, by decide,
    (pbodLoop_processes_iff libmodplug allocAlways (memOf pbodTailFile) 1025 1025 0 1014 st0
      (by decide) (by decide)).2 (by decide) (by decide!) (by decide) rfl (by decide)⟩

/-! ## C15: parsing twice -/

/-- At the end of the first run the second song is the first one. -/
theorem Replay.final {e b : CSoundFile} (h : Replay e e b) : b = e := by
  obtain ⟨h1, h2, h3, h4, h5, h6, h7, h8, h9⟩ := h
  cases b
  cases e
  simp only at h1 h2 h3 h4 h5 h6 h7 h8 h9
  simp only [CSoundFile.mk.injEq]
  refine ⟨h1, h2, h3, ?_, ?_, ?_, ?_, ?_, ?_⟩
  · rcases h4 with h | h <;> exact h
  · funext k
    rcases h5 k with h | h | h <;> exact h
  · funext k j
    rcases h6 k j with h | h <;> exact h
  · funext k
    rcases h7 k with h | h <;> exact h
  · funext k
    rcases h8 k with h | h <;> exact h
  · funext k
    rcases h9 k with h | h <;> exact h

/-- The header assignments start the two runs in related songs. -/
theorem Replay.init (K : Consts) (lp : Nat → BYTE) (s e : CSoundFile) :
    Replay e (initSong K lp s) (initSong K lp e) :=
  ⟨rfl, rfl, rfl, Or.inr rfl, fun _ => Or.inr (Or.inl rfl), fun _ _ => Or.inr rfl,
    fun _ => Or.inr rfl, fun _ => Or.inr rfl, fun _ => Or.inr rfl⟩

/-- Decoding the same sample record in both runs. -/
theorem Replay.store (K : Consts) (lp : Nat → BYTE) (pos smp : Nat) {e a b : CSoundFile}
    (h : Replay e a b) : Replay e (storeSample K lp pos smp a) (storeSample K lp pos smp b) := by
  refine ⟨h.hType, h.hChn, h.hSmp, h.hSpeed, ?_, ?_, h.hOrder, h.hPat, h.hSize⟩
  · intro k
    by_cases hk : k = smp
    · subst hk
      simp only [storeSample, Function.update_same]
      rcases h.hIns k with h1 | h1 | h1
      · left; rw [h1]
      · right; right; rw [h1]
      · right; right; rw [h1]
    · simp only [storeSample, Function.update_noteq hk]
      exact h.hIns k
  · intro k j
    by_cases hk : k = smp
    · subst hk
      simp only [storeSample, Function.update_same]
      by_cases hj : j < 20
      · simp only [if_pos hj]
        left; trivial
      · simp only [if_neg hj]
        exact h.hNames k j
    · simp only [storeSample, Function.update_noteq hk]
      exact h.hNames k j

/-- Storing the same default speed in both runs. -/
theorem Replay.speed {e a b : CSoundFile} (v : Nat) (h : Replay e a b) :
    Replay e { a with m_nDefaultSpeed := v } { b with m_nDefaultSpeed := v } :=
  ⟨h.hType, h.hChn, h.hSmp, Or.inl rfl, h.hIns, h.hNames, h.hOrder, h.hPat, h.hSize⟩

/-- Storing the same order in both runs. -/
theorem Replay.order {e a b : CSoundFile} (i v : Nat) (h : Replay e a b) :
    Replay e { a with Order := Function.update a.Order i v }
      { b with Order := Function.update b.Order i v } := by
  refine ⟨h.hType, h.hChn, h.hSmp, h.hSpeed, h.hIns, h.hNames, ?_, h.hPat, h.hSize⟩
  intro k
  by_cases hk : k = i
  · subst hk
    simp only [Function.update_same]
    left; trivial
  · simp only [Function.update_noteq hk]
    exact h.hOrder k

/-- Storing the same pattern in both runs. -/
theorem Replay.pattern {e a b : CSoundFile} (n : Nat) (g : Option (List MODCOMMAND))
    (h : Replay e a b) :
    Replay e { a with Patterns := Function.update a.Patterns n g }
      { b with Patterns := Function.update b.Patterns n g } := by
  refine ⟨h.hType, h.hChn, h.hSmp, h.hSpeed, h.hIns, h.hNames, h.hOrder, ?_, h.hSize⟩
  intro k
  by_cases hk : k = n
  · subst hk
    simp only [Function.update_same]
    left; trivial
  · simp only [Function.update_noteq hk]
    exact h.hPat k

/-- Storing the same pattern and row count in both runs. -/
theorem Replay.grid {e a b : CSoundFile} (n : Nat) (g g' : Option (List MODCOMMAND))
    (v : Nat) (hg : g' = g) (h : Replay e a b) :
    Replay e
      { a with Patterns := Function.update a.Patterns n g
               PatternSize := Function.update a.PatternSize n v }
      { b with Patterns := Function.update b.Patterns n g'
               PatternSize := Function.update b.PatternSize n v } := by
  subst hg
  refine ⟨h.hType, h.hChn, h.hSmp, h.hSpeed, h.hIns, h.hNames, h.hOrder, ?_, ?_⟩
  · intro k
    by_cases hk : k = n
    · subst hk
      simp only [Function.update_same]
      left; trivial
    · simp only [Function.update_noteq hk]
      exact h.hPat k
  · intro k
    by_cases hk : k = n
    · subst hk
      simp only [Function.update_same]
      left; trivial
    · simp only [Function.update_noteq hk]
      exact h.hSize k

/-- Loading a sample into the same slot in both runs, when the first run keeps what it
loads there. -/
theorem Replay.sample {e a b : CSoundFile} (R : MODINSTRUMENT → MODINSTRUMENT) (k : Nat)
    (h1 : ∀ ins, R (R ins) = R ins)
    (h2 : ∀ ins, R { ins with pSample := (R ins).pSample } = R ins)
    (he : e.Ins k = R (a.Ins k)) (h : Replay e a b) :
    Replay e { a with Ins := Function.update a.Ins k (R (a.Ins k)) }
      { b with Ins := Function.update b.Ins k (R (b.Ins k)) } := by
  refine ⟨h.hType, h.hChn, h.hSmp, h.hSpeed, ?_, h.hNames, h.hOrder, h.hPat, h.hSize⟩
  intro j
  by_cases hj : j = k
  · subst hj
    simp only [Function.update_same]
    left
    rcases h.hIns j with h3 | h3 | h3
    · rw [h3]
    · rw [h3, he, h1]
    · rw [h3, he, h2]
  · simp only [Function.update_noteq hj]
    exact h.hIns j

/-- Sequencing of related outcomes. -/
theorem Flow.Sim_bind {α β : Type} {R : St → St → Prop} {f g : Flow α}
    {k l : α → St → Flow β} (h : Flow.Sim R f g)
    (hk : ∀ x a b, R a b → Flow.Sim R (k x a) (l x b)) :
    Flow.Sim R (f.bind k) (g.bind l) := by
  cases f <;> cases g <;> simp only [Flow.Sim, Flow.bind] at h ⊢
  · exact h
  · obtain ⟨rfl, h⟩ := h
    exact hk _ _ _ h

/-- The skip discipline takes the same way in both runs. -/
theorem skipChunk_sim (e : CSoundFile) (lp : Nat → BYTE) (len pos : Nat) (a b : St)
    (h : Replay e a.song b.song) :
    Flow.Sim (fun a b => Replay e a.song b.song) (skipChunk lp len pos a)
      (skipChunk lp len pos b) := by
  unfold skipChunk
  simp only []
  split_ifs
  · exact h
  · exact ⟨rfl, h⟩

/-- The sample loop takes the same way in both runs. -/
theorem readSamples_sim (e : CSoundFile) (K : Consts) (lp : Nat → BYTE) (len : Nat) :
    ∀ (n smp pos : Nat) (a b : St), Replay e a.song b.song →
      Flow.Sim (fun a b => Replay e a.song b.song) (readSamples K lp len n smp pos a)
        (readSamples K lp len n smp pos b) := by
  intro n
  induction n with
  | zero =>
    intro smp pos a b h
    rw [readSamples, readSamples]
    exact ⟨rfl, h⟩
  | succ n ih =>
    intro smp pos a b h
    rw [readSamples, readSamples]
    by_cases h1 : pos ≥ len - 32
    · simp only [if_pos h1]
      exact h
    · simp only [if_neg h1]
      apply ih
      by_cases h2 : smp < K.MAX_SAMPLES
      · simp only [if_pos h2]
        exact Replay.store K lp pos smp h
      · simp only [if_neg h2]
        exact h

/-- The SPEE chunk takes the same way in both runs. -/
theorem speeChunk_sim (e : CSoundFile) (lp : Nat → BYTE) (len pos : Nat) (a b : St)
    (h : Replay e a.song b.song) :
    Flow.Sim (fun a b => Replay e a.song b.song) (speeChunk lp len pos a)
      (speeChunk lp len pos b) := by
  unfold speeChunk
  simp only []
  split_ifs
  · exact h
  · exact skipChunk_sim e lp len pos _ _ (Replay.speed _ h)
  · exact ⟨rfl, h⟩

/-- The SLEN chunk takes the same way in both runs. -/
theorem slenChunk_sim (e : CSoundFile) (lp : Nat → BYTE) (len pos : Nat) (a b : St)
    (h : Replay e a.song b.song) :
    Flow.Sim (fun a b => Replay e a.song b.song) (slenChunk lp len pos a)
      (slenChunk lp len pos b) := by
  unfold slenChunk
  simp only []
  split_ifs
  · exact h
  · exact skipChunk_sim e lp len pos _ _ h
  · exact ⟨rfl, h⟩

/-- The PLEN chunk takes the same way in both runs. -/
theorem plenChunk_sim (e : CSoundFile) (lp : Nat → BYTE) (len pos : Nat) (a b : St)
    (h : Replay e a.song b.song) :
    Flow.Sim (fun a b => Replay e a.song b.song) (plenChunk lp len pos a)
      (plenChunk lp len pos b) := by
  unfold plenChunk
  simp only []
  split_ifs
  · exact h
  · exact Flow.Sim_bind (skipChunk_sim e lp len pos _ _ h) (fun x a b hab => ⟨rfl, hab⟩)
  · exact ⟨rfl, h⟩

/-- The copy loop keeps the two songs related and leaves the same orders in the range
it has written. -/
theorem copyOrders_sim (e : CSoundFile) (K : Consts) (lp : Nat → BYTE) (len pos : Nat) :
    ∀ (n i : Nat) (a b : St), Replay e a.song b.song →
      (∀ j, j < i → b.song.Order j = a.song.Order j) →
      Replay e (copyOrders K lp len pos n i a).song (copyOrders K lp len pos n i b).song ∧
      ∀ j, j < i + n → (copyOrders K lp len pos n i b).song.Order j
        = (copyOrders K lp len pos n i a).song.Order j := by
  intro n
  induction n with
  | zero =>
    intro i a b h hj
    rw [copyOrders, copyOrders]
    exact ⟨h, hj⟩
  | succ n ih =>
    intro i a b h hj
    rw [copyOrders, copyOrders]
    have := ih (i + 1)
      { ((a.rd len (u32 (u32 (pos + 8) + i)) 1).ix K.MAX_ORDERS i) with
        song := { a.song with
                  Order := Function.update a.song.Order i (lp (u32 (u32 (pos + 8) + i))).val } }
      { ((b.rd len (u32 (u32 (pos + 8) + i)) 1).ix K.MAX_ORDERS i) with
        song := { b.song with
                  Order := Function.update b.song.Order i (lp (u32 (u32 (pos + 8) + i))).val } }
      (Replay.order _ _ h)
      (by
        intro j hji
        by_cases hi : j = i
        · subst hi
          simp only [Function.update_same]
        · simp only [Function.update_noteq hi]
          exact hj j (by omega))
    refine ⟨this.1, fun j hjn => this.2 j (by omega)⟩

/-- The backward loop takes the same way in both runs when the orders it reads agree. -/
theorem trimOrders_sim (e : CSoundFile) (K : Consts) :
    ∀ (n : Nat) (a b : St), Replay e a.song b.song →
      (∀ j, j < n → b.song.Order j = a.song.Order j) →
      Replay e (trimOrders K n a).song (trimOrders K n b).song := by
  intro n
  induction n with
  | zero =>
    intro a b h _
    rw [trimOrders, trimOrders]
    exact h
  | succ n ih =>
    intro a b h hj
    rw [trimOrders, trimOrders]
    by_cases h1 : n + 1 > 1
    · simp only [if_pos h1]
      rw [hj n (by omega)]
      by_cases h2 : a.song.Order n ≠ 0
      · simp only [if_pos h2]
        exact h
      · simp only [if_neg h2]
        apply ih
        · exact Replay.order _ _ h
        · intro j hjn
          have hne : j ≠ n := by omega
          simp only [St.ix, Function.update_noteq hne]
          exact hj j (by omega)
    · simp only [if_neg h1]
      exact h

/-- The PATT chunk takes the same way in both runs. -/
theorem pattChunk_sim (e : CSoundFile) (K : Consts) (lp : Nat → BYTE)
    (len pos norders : Nat) (a b : St) (h : Replay e a.song b.song) :
    Flow.Sim (fun a b => Replay e a.song b.song) (pattChunk K lp len pos norders a)
      (pattChunk K lp len pos norders b) := by
  have key : ∀ n, Flow.Sim (fun a b => Replay e a.song b.song)
      (skipChunk lp len pos (trimOrders K n (copyOrders K lp len pos n 0 (a.rd len pos 4))))
      (skipChunk lp len pos
        (trimOrders K n (copyOrders K lp len pos n 0 (b.rd len pos 4)))) := by
    intro n
    have hc := copyOrders_sim e K lp len pos n 0 (a.rd len pos 4) (b.rd len pos 4) h
      (fun j hj => absurd hj (Nat.not_lt_zero j))
    exact skipChunk_sim e lp len pos _ _
      (trimOrders_sim e K _ _ _ hc.1 (fun j hj => hc.2 j (by omega)))
  unfold pattChunk
  simp only []
  by_cases h1 : u32 (pos + 8) > len
  · simp only [if_pos h1]
    exact h
  · simp only [if_neg h1]
    by_cases h2 : readBE32 (ptr lp pos) = MAGIC (chr 'P') (chr 'A') (chr 'T') (chr 'T')
    · simp only [if_pos h2]
      by_cases h3 : u32 (u32 (pos + 8)
          + (if norders ≥ K.MAX_ORDERS then K.MAX_ORDERS - 1 else norders)) > len
      · simp only [if_pos h3]
        exact h
      · simp only [if_neg h3]
        exact key _
    · simp only [if_neg h2]
      exact ⟨rfl, h⟩

/-- The PBOD loop takes the same way in both runs. -/
theorem pbodLoop_sim (e : CSoundFile) (K : Consts) (E : Collab) (lp : Nat → BYTE)
    (len : Nat) :
    ∀ (fuel npat pos : Nat) (a b : St), Replay e a.song b.song →
      Flow.Sim (fun a b => Replay e a.song b.song) (pbodLoop K E lp len fuel npat pos a)
        (pbodLoop K E lp len fuel npat pos b) := by
  intro fuel
  induction fuel with
  | zero =>
    intro npat pos a b _
    rw [pbodLoop, pbodLoop]
    trivial
  | succ fuel ih =>
    intro npat pos a b h
    have step : ∀ u v : St, Replay e u.song v.song →
        Flow.Sim (fun a b => Replay e a.song b.song)
          ((skipChunk lp len pos u).bind
            (fun p s2 => pbodLoop K E lp len fuel (npat + 1) p s2))
          ((skipChunk lp len pos v).bind
            (fun p s2 => pbodLoop K E lp len fuel (npat + 1) p s2)) :=
      fun u v huv => Flow.Sim_bind (skipChunk_sim e lp len pos u v huv)
        (fun x a b hab => ih _ _ _ _ hab)
    rw [pbodLoop, pbodLoop]
    by_cases h1 : pos < subDW len 10
    · simp only [if_pos h1]
      by_cases h2 : readBE32 (ptr lp pos) = MAGIC (chr 'P') (chr 'B') (chr 'O') (chr 'D')
      · simp only [if_pos h2]
        by_cases h3 : npat < K.MAX_PATTERNS
        · simp only [if_pos h3]
          have hch : b.song.m_nChannels = a.song.m_nChannels := h.hChn
          unfold AllocatePattern
          by_cases h4 : E.allocOk npat = true
          · simp only [h4, if_true]
            apply step
            refine Replay.grid npat _ _ _ ?_ h
            simp only [St.rd, St.ix, hch]
            exact congrArg some (fillCells_fst lp len _ _ _ _ _ _)
          · have h4' : E.allocOk npat = false := by simpa using h4
            simp only [h4', Bool.false_eq_true, if_false]
            exact Replay.pattern npat none h
        · simp only [if_neg h3]
          exact step _ _ h
      · simp only [if_neg h2]
        exact ⟨rfl, h⟩
    · simp only [if_neg h1]
      exact ⟨rfl, h⟩

/-- The SBOD loop started at sample index `nsmp` does not touch a slot `k < nsmp`. -/
theorem sbodLoop_keeps (K : Consts) (E : Collab) (lp : Nat → BYTE) (len k : Nat) :
    ∀ (fuel nsmp pos : Nat) (s t : St), k < nsmp →
      (sbodLoop K E lp len fuel nsmp pos s).state = some t →
      t.song.Ins k = s.song.Ins k := by
  intro fuel
  induction fuel with
  | zero =>
    intro nsmp pos s t _ h
    rw [sbodLoop] at h
    exact absurd h (by simp only [Flow.state]; exact fun h => nomatch h)
  | succ fuel ih =>
    intro nsmp pos s t hk h
    have hne : k ≠ nsmp := by omega
    have tail : ∀ u : St,
        ((skipChunk lp len pos u).bind
          (fun p s2 => sbodLoop K E lp len fuel (nsmp + 1) p s2)).state = some t →
        t.song.Ins k = u.song.Ins k := by
      intro u hu
      unfold skipChunk at hu
      simp only [] at hu
      split_ifs at hu
      · simp only [Flow.bind, Flow.state, Option.some.injEq] at hu
        rw [← hu]
        rfl
      · simp only [Flow.bind] at hu
        have hi := ih (nsmp + 1) _ _ _ (by omega) hu
        exact hi
    rw [sbodLoop] at h
    by_cases h1 : pos < subDW len 10
    · simp only [if_pos h1] at h
      by_cases h2 : readBE32 (ptr lp pos) = MAGIC (chr 'S') (chr 'B') (chr 'O') (chr 'D')
      · simp only [if_pos h2] at h
        by_cases h3 : nsmp < K.MAX_SAMPLES
        · simp only [if_pos h3] at h
          rw [tail _ h]
          simp only [Function.update_noteq hne]
          rfl
        · simp only [if_neg h3] at h
          rw [tail _ h]
          rfl
      · simp only [if_neg h2, Flow.state, Option.some.injEq] at h
        rw [← h]
        rfl
    · rw [if_neg h1] at h
      simp only [Flow.state, Option.some.injEq] at h
      subst h
      rfl

/-- The SBOD loop of a second run on the song `e` the first run ends with ends with the
same song. -/
theorem sbodLoop_ends (K : Consts) (E : Collab) (lp : Nat → BYTE) (len : Nat)
    (H1 : ∀ ins f d n, E.ReadSample (E.ReadSample ins f d n) f d n = E.ReadSample ins f d n)
    (H2 : ∀ ins f d n,
      E.ReadSample { ins with pSample := (E.ReadSample ins f d n).pSample } f d n
        = E.ReadSample ins f d n) :
    ∀ (fuel nsmp pos : Nat) (a b e : St), Replay e.song a.song b.song →
      (sbodLoop K E lp len fuel nsmp pos a).state = some e →
      ∃ u, (sbodLoop K E lp len fuel nsmp pos b).state = some u ∧ u.song = e.song := by
  intro fuel
  induction fuel with
  | zero =>
    intro nsmp pos a b e _ h
    rw [sbodLoop] at h
    exact absurd h (by simp only [Flow.state]; exact fun h => nomatch h)
  | succ fuel ih =>
    intro nsmp pos a b e h hA
    have tail : ∀ u v : St,
        ((skipChunk lp len pos u).bind
          (fun p s2 => sbodLoop K E lp len fuel (nsmp + 1) p s2)).state = some e →
        (e.song.Ins nsmp = u.song.Ins nsmp → Replay e.song u.song v.song) →
        ∃ w, ((skipChunk lp len pos v).bind
          (fun p s2 => sbodLoop K E lp len fuel (nsmp + 1) p s2)).state = some w ∧
          w.song = e.song := by
      intro u v hu hR
      unfold skipChunk at hu ⊢
      simp only [] at hu ⊢
      split_ifs at hu ⊢
      · simp only [Flow.bind, Flow.state, Option.some.injEq] at hu
        refine ⟨_, rfl, ?_⟩
        have hR' := hR (by rw [← hu]; rfl)
        have hue : e.song = u.song := by rw [← hu]; rfl
        rw [← hue] at hR'
        exact Replay.final hR'
      · simp only [Flow.bind] at hu ⊢
        have hk := sbodLoop_keeps K E lp len nsmp fuel (nsmp + 1) _ _ e (by omega) hu
        exact ih (nsmp + 1) _ (u.rd len (pos + 4) 4) (v.rd len (pos + 4) 4) e (hR hk) hu
    rw [sbodLoop] at hA ⊢
    by_cases h1 : pos < subDW len 10
    · simp only [if_pos h1] at hA ⊢
      by_cases h2 : readBE32 (ptr lp pos) = MAGIC (chr 'S') (chr 'B') (chr 'O') (chr 'D')
      · simp only [if_pos h2] at hA ⊢
        by_cases h3 : nsmp < K.MAX_SAMPLES
        · simp only [if_pos h3] at hA ⊢
          refine tail _ _ hA (fun hk => ?_)
          simp only [Function.update_same] at hk
          exact Replay.sample
            (fun ins => E.ReadSample ins K.RS_PCM8S (ptr lp (pos + 8))
              (subDW (subDW len pos) 8)) nsmp (fun ins => H1 ins _ _ _)
            (fun ins => H2 ins _ _ _) hk h
        · simp only [if_neg h3] at hA ⊢
          exact tail _ _ hA (fun _ => h)
      · simp only [if_neg h2, Flow.state, Option.some.injEq] at hA ⊢
        refine ⟨_, rfl, ?_⟩
        have hae : e.song = a.song := by rw [← hA]; rfl
        rw [← hae] at h
        exact Replay.final h
    · rw [if_neg h1] at hA ⊢
      simp only [Flow.state, Option.some.injEq] at hA ⊢
      refine ⟨_, rfl, ?_⟩
      rw [hA] at h
      exact Replay.final h

/-- Sequencing a section that takes the same way in both runs with a rest that ends the
second run in the song of the first. -/
theorem Flow.Sim_ends {α β : Type} (e : St) {f g : Flow α} {k l : α → St → Flow β}
    (h : Flow.Sim (fun a b => Replay e.song a.song b.song) f g)
    (hk : ∀ x a b, Replay e.song a.song b.song → (k x a).state = some e →
      ∃ u, (l x b).state = some u ∧ u.song = e.song)
    (hA : (f.bind k).state = some e) :
    ∃ u, (g.bind l).state = some u ∧ u.song = e.song := by
  cases f <;> cases g <;> simp only [Flow.Sim, Flow.bind] at h hA ⊢
  · simp only [Flow.state, Option.some.injEq] at hA ⊢
    refine ⟨_, rfl, ?_⟩
    rw [hA] at h
    exact Replay.final h
  · obtain ⟨rfl, h⟩ := h
    exact hk _ _ _ h hA
  · exact absurd hA (by simp only [Flow.state]; exact fun h => nomatch h)

/-- The body of a second run on the song `e` the first run ends with ends with the same
song. -/
theorem parseBody_ends (K : Consts) (E : Collab) (lp : Nat → BYTE) (len : Nat)
    (H1 : ∀ ins f d n, E.ReadSample (E.ReadSample ins f d n) f d n = E.ReadSample ins f d n)
    (H2 : ∀ ins f d n,
      E.ReadSample { ins with pSample := (E.ReadSample ins f d n).pSample } f d n
        = E.ReadSample ins f d n)
    (a b e : St) (h : Replay e.song a.song b.song)
    (hA : (parseBody K E lp len a).state = some e) :
    ∃ u, (parseBody K E lp len b).state = some u ∧ u.song = e.song := by
  unfold parseBody at hA ⊢
  refine Flow.Sim_ends e (readSamples_sim e.song K lp len _ _ _ a b h) ?_ hA
  intro pos a b h hA
  refine Flow.Sim_ends e (speeChunk_sim e.song lp len pos a b h) ?_ hA
  intro pos a b h hA
  refine Flow.Sim_ends e (slenChunk_sim e.song lp len pos a b h) ?_ hA
  intro pos a b h hA
  refine Flow.Sim_ends e (plenChunk_sim e.song lp len pos a b h) ?_ hA
  intro pn a b h hA
  refine Flow.Sim_ends e (pattChunk_sim e.song K lp len pn.1 pn.2 a b h) ?_ hA
  intro pos a b h hA
  refine Flow.Sim_ends e (pbodLoop_sim e.song K E lp len _ _ pos a b h) ?_ hA
  intro pos a b h hA
  exact sbodLoop_ends K E lp len H1 H2 _ _ pos a b e h hA

/-- C15, counterexample. `bumpSample` is a deterministic `ReadSample` (a function of the
instrument it is given).  On `sbodFile`, whose header declares no sample and whose one
`SBOD` chunk loads slot 1, the first run leaves `Ins[1].nLength = 1` and the run on the
state it produced leaves `Ins[1].nLength = 2`: the stored sample metadata differ. -/
theorem ReadOKT_second_run_differs :
    (ReadOKT libmodplug bumpSample (some (memOf sbodFile)) 1024 st0).map
      (fun r => (r.1, r.2.song.m_nSamples, (r.2.song.Ins 1).nLength)) = some (true, 0, 1) ∧
    ((ReadOKT libmodplug bumpSample (some (memOf sbodFile)) 1024 st0).bind
      (fun r => ReadOKT libmodplug bumpSample (some (memOf sbodFile)) 1024 r.2)).map
      (fun r => (r.1, r.2.song.m_nSamples, (r.2.song.Ins 1).nLength)) = some (true, 0, 2) := by
  refine ⟨?_, ?_⟩ <;> decide!

/-- C15, amended. For a length below `2^32` and a `ReadSample` that changes nothing when
it is run again on the instrument it has filled (`H1`) or on an instrument that already
holds the sample data it produces (`H2`), `ReadOKT` returns, and run again with the same
stream on the state it produced it returns the same result and leaves the same song:
channel and sample counts, instruments, names, orders, default speed, row counts and
pattern cells. -/
theorem ReadOKT_idempotent (K : Consts) (E : Collab) (lpStream : Option (Nat → BYTE))
    (dwMemLength : Nat) (s : St) (hlen : dwMemLength < 2 ^ 32)
    (H1 : ∀ ins f d n, E.ReadSample (E.ReadSample ins f d n) f d n = E.ReadSample ins f d n)
    (H2 : ∀ ins f d n,
      E.ReadSample { ins with pSample := (E.ReadSample ins f d n).pSample } f d n
        = E.ReadSample ins f d n) :
    ∃ r t, ReadOKT K E lpStream dwMemLength s = some (r, t) ∧
      ∃ u, ReadOKT K E lpStream dwMemLength t = some (r, u) ∧ u.song = t.song := by
  have hlen' : dwMemLength < 4294967296 := by norm_num at hlen; exact hlen
  by_cases hr : Rejected lpStream dwMemLength
  · obtain ⟨t, ht, -⟩ := ReadOKT_rejects K E lpStream dwMemLength s hr
    obtain ⟨u, hu, hs⟩ := ReadOKT_rejects K E lpStream dwMemLength t hr
    exact ⟨false, t, ht, u, hu, hs⟩
  · cases lpStream with
    | none => exact absurd trivial hr
    | some lp =>
      have h1 : 1024 ≤ dwMemLength := by
        by_contra hc; exact hr (Or.inl (by omega))
      have hh : ¬ badHeader lp := fun hb => hr (Or.inr hb)
      obtain ⟨t, ht, -⟩ := ReadOKT_accepts K E lp dwMemLength s h1 hlen' hh
      refine ⟨true, t, ht, ?_⟩
      unfold ReadOKT at ht ⊢
      simp only [if_neg (Nat.not_lt.mpr h1), if_neg hh] at ht ⊢
      have hA : (parseBody K E lp dwMemLength
          { (s.rd dwMemLength 0 32) with song := initSong K lp s.song }).state = some t := by
        cases hq : parseBody K E lp dwMemLength
            { (s.rd dwMemLength 0 32) with song := initSong K lp s.song } with
        | done t0 =>
          rw [hq] at ht
          simp only [Option.some.injEq, Prod.mk.injEq, true_and] at ht
          rw [ht]; rfl
        | next x t0 =>
          rw [hq] at ht
          simp only [Option.some.injEq, Prod.mk.injEq, true_and] at ht
          rw [ht]; rfl
        | stuck =>
          rw [hq] at ht
          exact absurd ht (fun h => nomatch h)
      obtain ⟨u, hu, hs⟩ := parseBody_ends K E lp dwMemLength H1 H2 _
        { (t.rd dwMemLength 0 32) with song := initSong K lp t.song } t
        (Replay.init K lp s.song t.song) hA
      cases hq : parseBody K E lp dwMemLength
          { (t.rd dwMemLength 0 32) with song := initSong K lp t.song } with
      | done t0 =>
        rw [hq] at hu
        simp only [Flow.state, Option.some.injEq] at hu
        exact ⟨u, by rw [hu], hs⟩
      | next x t0 =>
        rw [hq] at hu
        simp only [Flow.state, Option.some.injEq] at hu
        exact ⟨u, by rw [hu], hs⟩
      | stuck =>
        rw [hq] at hu
        exact absurd hu (fun h => nomatch h)

/-- Witness of the amended C15: `sbodFile` with the `ReadSample` that leaves the
instrument as it is. -/
theorem ReadOKT_idempotent_witness :
    (1024 : Nat) < 2 ^ 32 ∧
    (∀ ins f d n, allocAlways.ReadSample (allocAlways.ReadSample ins f d n) f d n
      = allocAlways.ReadSample ins f d n) ∧
    (∀ ins f d n, allocAlways.ReadSample
        { ins with pSample := (allocAlways.ReadSample ins f d n).pSample } f d n
      = allocAlways.ReadSample ins f d n) ∧
    ∃ r t, ReadOKT libmodplug allocAlways (some (memOf sbodFile)) 1024 st0 = some (r, t) ∧
      ∃ u, ReadOKT libmodplug allocAlways (some (memOf sbodFile)) 1024 t = some (r, u) ∧
        u.song = t.song :=
  ⟨by decide, fun _ _ _ _ => rfl, fun _ _ _ _ => rfl,
    ReadOKT_idempotent libmodplug allocAlways (some (memOf sbodFile)) 1024 st0 (by decide)
      (fun _ _ _ _ => rfl) (fun _ _ _ _ => rfl)⟩

/-! ## C22: an optional chunk whose tag does not match -/

/-- The walker does not search ahead. In `earlyPattFile` the `PATT` chunk stands at
cursor 32: the `SPEE`, `SLEN` and `PLEN` checks leave the cursor at 32 and the `PATT`
check matches it and moves to 42.  In `lateSpeeFile` the `SPEE` chunk (speed 6) stands
after the `SLEN` chunk: the `SPEE` check at 32 does not match, `SLEN` moves the cursor to
42, no later check matches the `SPEE` tag there, and `ReadOKT` returns `TRUE` with the
default speed unchanged. -/
theorem optional_chunk_examples :
    (speeChunk (memOf earlyPattFile) 1024 32 st0).cursor = some 32 ∧
    (slenChunk (memOf earlyPattFile) 1024 32 st0).cursor = some 32 ∧
    (plenChunk (memOf earlyPattFile) 1024 32 st0).state.isSome = true ∧
    (pattChunk libmodplug (memOf earlyPattFile) 1024 32 0 st0).cursor = some 42 ∧
    (speeChunk (memOf lateSpeeFile) 1024 32 st0).cursor = some 32 ∧
    (slenChunk (memOf lateSpeeFile) 1024 32 st0).cursor = some 42 ∧
    readBE32 (ptr (memOf lateSpeeFile) 42) = MAGIC (chr 'S') (chr 'P') (chr 'E') (chr 'E') ∧
    (pattChunk libmodplug (memOf lateSpeeFile) 1024 42 0 st0).cursor = some 42 ∧
    (ReadOKT libmodplug allocAlways (some (memOf lateSpeeFile)) 1024 st0).map
      (fun r => (r.1, r.2.song.m_nDefaultSpeed)) = some (true, 0) := by
  refine ⟨?_, ?_, ?_, ?_, ?_, ?_, ?_, ?_, ?_⟩ <;> decide!

/-! ## C23: records that are consumed but not stored -/

/-- The sample loop leaves the slots `k ≥ MAX_SAMPLES` alone. -/
theorem readSamples_high (K : Consts) (lp : Nat → BYTE) (len k : Nat)
    (hk : K.MAX_SAMPLES ≤ k) :
    ∀ (n smp pos : Nat) (s t : St), (readSamples K lp len n smp pos s).state = some t →
      t.song.Ins k = s.song.Ins k ∧ t.song.m_szNames k = s.song.m_szNames k := by
  intro n
  induction n with
  | zero =>
    intro smp pos s t h
    rw [readSamples] at h
    simp only [Flow.state, Option.some.injEq] at h
    subst h
    exact ⟨rfl, rfl⟩
  | succ n ih =>
    intro smp pos s t h
    rw [readSamples] at h
    by_cases h1 : pos ≥ len - 32
    · rw [if_pos h1] at h
      simp only [Flow.state, Option.some.injEq] at h
      subst h
      exact ⟨rfl, rfl⟩
    · rw [if_neg h1] at h
      by_cases h2 : smp < K.MAX_SAMPLES
      · simp only [if_pos h2] at h
        have hne : k ≠ smp := by omega
        have hi := ih (smp + 1) _ _ t h
        simp only [storeSample, Function.update_noteq hne] at hi
        exact hi
      · simp only [if_neg h2] at h
        have hi := ih (smp + 1) _ _ t h
        exact hi

/-- C23. The sample loop moves the cursor by 32 for every record it consumes, stored or
not: a consumed record continues the loop at `c + 32` (storing it only if its number is
below `MAX_SAMPLES`; a record numbered `MAX_SAMPLES` or higher leaves the state as it
is); a loop of `n` records that falls through ends at `c + 32 n`, so the loop `ReadOKT`
runs for the `N` records the header declares hands the cursor `32 (N + 1)` to the chunk
walk, whatever `MAX_SAMPLES` is; and no slot `k ≥ MAX_SAMPLES` is modified. -/
theorem readSamples_alignment (K : Consts) (lp : Nat → BYTE) (dwMemLength : Nat)
    (h1024 : 1024 ≤ dwMemLength) (hlen : dwMemLength < 2 ^ 32) :
    (∀ (n smp c : Nat) (s : St), c + 32 < dwMemLength →
      ∃ s1, s1.song = (if smp < K.MAX_SAMPLES then storeSample K lp c smp s.song else s.song) ∧
        readSamples K lp dwMemLength (n + 1) smp c s
          = readSamples K lp dwMemLength n (smp + 1) (c + 32) s1) ∧
    (∀ (n smp c : Nat) (s : St), c + 32 < dwMemLength → K.MAX_SAMPLES ≤ smp →
      readSamples K lp dwMemLength (n + 1) smp c s
        = readSamples K lp dwMemLength n (smp + 1) (c + 32) s) ∧
    (∀ (n smp c : Nat) (s : St) (p : Nat) (t : St),
      readSamples K lp dwMemLength n smp c s = Flow.next p t → p = c + 32 * n) ∧
    (∀ (s : St) (p : Nat) (t : St),
      readSamples K lp dwMemLength (bswapBE32 (ptr lp 28) >>> 5) 1 32 s = Flow.next p t →
      p = 32 * ((bswapBE32 (ptr lp 28) >>> 5) + 1)) ∧
    (∀ (n smp c : Nat) (s t : St) (k : Nat), K.MAX_SAMPLES ≤ k →
      (readSamples K lp dwMemLength n smp c s).state = some t →
      t.song.Ins k = s.song.Ins k ∧ t.song.m_szNames k = s.song.m_szNames k) := by
  have hlen' : dwMemLength < 4294967296 := by norm_num at hlen; exact hlen
  refine ⟨?_, ?_, ?_, ?_, ?_⟩
  · intro n smp c s h
    have hc : ¬ c ≥ dwMemLength - 32 := by omega
    have hu : u32 (c + 32) = c + 32 := by unfold u32; omega
    rw [readSamples, if_neg hc, hu]
    refine ⟨_, ?_, rfl⟩
    split_ifs <;> rfl
  · intro n smp c s h hs
    have hc : ¬ c ≥ dwMemLength - 32 := by omega
    have hu : u32 (c + 32) = c + 32 := by unfold u32; omega
    rw [readSamples, if_neg hc, hu]
    simp only [if_neg (Nat.not_lt.mpr hs)]
  · intro n smp c s p t h
    exact readSamples_cursor K lp dwMemLength (by omega) hlen' n smp c s p t h
  · intro s p t h
    have := readSamples_cursor K lp dwMemLength (by omega) hlen' _ 1 32 s p t h
    omega
  · intro n smp c s t k hk h
    exact readSamples_high K lp dwMemLength k hk n smp c s t h

/-- Witness of C23: `lastRecordFile` (31 declared records) with 2048 bytes. -/
theorem readSamples_alignment_witness :
    1024 ≤ 2048 ∧ (2048 : Nat) < 2 ^ 32 ∧
    (∀ (s : St) (p : Nat) (t : St),
      readSamples libmodplug (memOf lastRecordFile) 2048
        (bswapBE32 (ptr (memOf lastRecordFile) 28) >>> 5) 1 32 s = Flow.next p t →
      p = 32 * ((bswapBE32 (ptr (memOf lastRecordFile) 28) >>> 5) + 1)) ∧
    (readSamples libmodplug (memOf lastRecordFile) 2048
      (bswapBE32 (ptr (memOf lastRecordFile) 28) >>> 5) 1 32 st0).cursor = some 1024 :=
  ⟨by decide, by decide,
    (readSamples_alignment libmodplug (memOf lastRecordFile) 2048 (by decide)
      (by decide)).2.2.2.1, by decide!⟩

/-! ## C24: the running pattern index -/

/-- Sequencing after the skip discipline written as a case distinction. -/
theorem Flow.bind_ite {α β : Type} (p : Prop) [Decidable p] (a : α) (t : St)
    (k : α → St → Flow β) :
    (if p then Flow.next a t else Flow.done t).bind k = if p then k a t else Flow.done t := by
  split_ifs <;> rfl

/-- A section that goes on after the skip discipline ends in the state the skip returns
early with, or in a state of what follows. -/
theorem skipChunk_bind_state {β : Type} (lp : Nat → BYTE) (len pos : Nat) (u : St)
    (k : Nat → St → Flow β) (t : St)
    (h : ((skipChunk lp len pos u).bind k).state = some t) :
    t = u.rd len (pos + 4) 4 ∨ ∃ p, (k p (u.rd len (pos + 4) 4)).state = some t := by
  unfold skipChunk at h
  simp only [] at h
  split_ifs at h
  · simp only [Flow.bind, Flow.state, Option.some.injEq] at h
    exact Or.inl h.symm
  · simp only [Flow.bind] at h
    exact Or.inr ⟨_, h⟩

/-- The PBOD loop started at pattern index `npat` writes no slot `k < npat` and no slot
`k ≥ MAX_PATTERNS`. -/
theorem pbodLoop_slots (K : Consts) (E : Collab) (lp : Nat → BYTE) (len k : Nat) :
    ∀ (fuel npat pos : Nat) (s t : St), (k < npat ∨ K.MAX_PATTERNS ≤ k) →
      (pbodLoop K E lp len fuel npat pos s).state = some t →
      t.song.Patterns k = s.song.Patterns k ∧ t.song.PatternSize k = s.song.PatternSize k := by
  intro fuel
  induction fuel with
  | zero =>
    intro npat pos s t _ h
    rw [pbodLoop] at h
    exact absurd h (by simp only [Flow.state]; exact fun h => nomatch h)
  | succ fuel ih =>
    intro npat pos s t hk h
    have tail : ∀ u : St,
        ((skipChunk lp len pos u).bind
          (fun p s2 => pbodLoop K E lp len fuel (npat + 1) p s2)).state = some t →
        t.song.Patterns k = u.song.Patterns k ∧
          t.song.PatternSize k = u.song.PatternSize k := by
      intro u hu
      unfold skipChunk at hu
      simp only [] at hu
      split_ifs at hu
      · simp only [Flow.bind, Flow.state, Option.some.injEq] at hu
        rw [← hu]
        exact ⟨rfl, rfl⟩
      · simp only [Flow.bind] at hu
        have hi := ih (npat + 1) _ _ t (by omega) hu
        exact hi
    rw [pbodLoop] at h
    by_cases h1 : pos < subDW len 10
    · rw [if_pos h1] at h
      by_cases h2 : readBE32 (ptr lp pos) = MAGIC (chr 'P') (chr 'B') (chr 'O') (chr 'D')
      · simp only [if_pos h2] at h
        by_cases h3 : npat < K.MAX_PATTERNS
        · have hne : k ≠ npat := by omega
          simp only [if_pos h3] at h
          unfold AllocatePattern at h
          by_cases h4 : E.allocOk npat = true
          · simp only [h4, if_true] at h
            have ht := tail _ h
            simp only [Function.update_noteq hne] at ht
            exact ht
          · have h4' : E.allocOk npat = false := by simpa using h4
            simp only [h4', Bool.false_eq_true, if_false, Flow.state,
              Option.some.injEq] at h
            rw [← h]
            simp only [Function.update_noteq hne]
            exact ⟨rfl, rfl⟩
        · simp only [if_neg h3] at h
          have ht := tail _ h
          exact ht
      · simp only [if_neg h2, Flow.state, Option.some.injEq] at h
        rw [← h]
        exact ⟨rfl, rfl⟩
    · rw [if_neg h1] at h
      simp only [Flow.state, Option.some.injEq] at h
      subst h
      exact ⟨rfl, rfl⟩

/-- The SBOD loop started at sample index `nsmp` writes no slot `k < nsmp` and no slot
`k ≥ MAX_SAMPLES`. -/
theorem sbodLoop_slots (K : Consts) (E : Collab) (lp : Nat → BYTE) (len k : Nat) :
    ∀ (fuel nsmp pos : Nat) (s t : St), (k < nsmp ∨ K.MAX_SAMPLES ≤ k) →
      (sbodLoop K E lp len fuel nsmp pos s).state = some t →
      t.song.Ins k = s.song.Ins k := by
  intro fuel
  induction fuel with
  | zero =>
    intro nsmp pos s t _ h
    rw [sbodLoop] at h
    exact absurd h (by simp only [Flow.state]; exact fun h => nomatch h)
  | succ fuel ih =>
    intro nsmp pos s t hk h
    rw [sbodLoop] at h
    by_cases h1 : pos < subDW len 10
    · rw [if_pos h1] at h
      by_cases h2 : readBE32 (ptr lp pos) = MAGIC (chr 'S') (chr 'B') (chr 'O') (chr 'D')
      · simp only [if_pos h2] at h
        by_cases h3 : nsmp < K.MAX_SAMPLES
        · have hne : k ≠ nsmp := by omega
          simp only [if_pos h3] at h
          rcases skipChunk_bind_state lp len pos _ _ t h with h | ⟨p, h⟩
          · rw [h]
            simp only [St.rd, St.ix, Function.update_noteq hne]
          · have hi := ih (nsmp + 1) _ _ t (by omega) h
            simp only [St.rd, St.ix, Function.update_noteq hne] at hi
            exact hi
        · simp only [if_neg h3] at h
          rcases skipChunk_bind_state lp len pos _ _ t h with h | ⟨p, h⟩
          · rw [h]
            rfl
          · have hi := ih (nsmp + 1) _ _ t (by omega) h
            exact hi
      · simp only [if_neg h2, Flow.state, Option.some.injEq] at h
        rw [← h]
        rfl
    · rw [if_neg h1] at h
      simp only [Flow.state, Option.some.injEq] at h
      subst h
      rfl

/-- C25. A processed `SBOD` chunk at cursor `c` with running index `nsmp` (length in
`[1024, 2^32)`): if `nsmp < MAX_SAMPLES` slot `nsmp` becomes what `ReadSample` returns
for it with format `RS_PCM8S`, the data at `c + 8` and the byte count `length - c - 8`,
and nothing else of the song changes; if `nsmp ≥ MAX_SAMPLES` the song is unchanged; in
both cases the chunk is skipped by its declared length `d` and the loop goes on at
`c + d + 8` with index `nsmp + 1` (or returns if `c + d + 8` exceeds the length).  The
loop writes no slot below its starting index and none from `MAX_SAMPLES` on. -/
theorem sbodLoop_delegates (K : Consts) (E : Collab) (lp : Nat → BYTE) (dwMemLength : Nat)
    (h1024 : 1024 ≤ dwMemLength) (hlen : dwMemLength < 2 ^ 32) :
    (∀ (fuel nsmp c : Nat) (s : St), c + 10 < dwMemLength →
      readBE32 (ptr lp c) = MAGIC (chr 'S') (chr 'B') (chr 'O') (chr 'D') →
      nsmp < K.MAX_SAMPLES →
      ∃ s1, s1.song = { s.song with
          Ins := Function.update s.song.Ins nsmp
            (E.ReadSample (s.song.Ins nsmp) K.RS_PCM8S (ptr lp (c + 8))
              (dwMemLength - c - 8)) } ∧
        sbodLoop K E lp dwMemLength (fuel + 1) nsmp c s =
          (if c + readBE32 (ptr lp (c + 4)) + 8 ≤ dwMemLength
            then sbodLoop K E lp dwMemLength fuel (nsmp + 1)
              (c + readBE32 (ptr lp (c + 4)) + 8) s1
            else Flow.done s1)) ∧
    (∀ (fuel nsmp c : Nat) (s : St), c + 10 < dwMemLength →
      readBE32 (ptr lp c) = MAGIC (chr 'S') (chr 'B') (chr 'O') (chr 'D') →
      K.MAX_SAMPLES ≤ nsmp →
      ∃ s1, s1.song = s.song ∧
        sbodLoop K E lp dwMemLength (fuel + 1) nsmp c s =
          (if c + readBE32 (ptr lp (c + 4)) + 8 ≤ dwMemLength
            then sbodLoop K E lp dwMemLength fuel (nsmp + 1)
              (c + readBE32 (ptr lp (c + 4)) + 8) s1
            else Flow.done s1)) ∧
    (∀ (fuel nsmp c : Nat) (s t : St) (k : Nat), (k < nsmp ∨ K.MAX_SAMPLES ≤ k) →
      (sbodLoop K E lp dwMemLength fuel nsmp c s).state = some t →
      t.song.Ins k = s.song.Ins k) := by
  have hlen' : dwMemLength < 4294967296 := by norm_num at hlen; exact hlen
  refine ⟨?_, ?_, ?_⟩
  · intro fuel nsmp c s hc h2 h3
    have h1 : c < subDW dwMemLength 10 := by unfold subDW; omega
    have h8 : subDW (subDW dwMemLength c) 8 = dwMemLength - c - 8 := by unfold subDW; omega
    rw [sbodLoop, if_pos h1]
    simp only [if_pos h2, if_pos h3, h8]
    rw [(skipChunk_exact lp dwMemLength c _ (by omega) hlen').2, Flow.bind_ite]
    refine ⟨_, ?_, rfl⟩
    rfl
  · intro fuel nsmp c s hc h2 h3
    have h1 : c < subDW dwMemLength 10 := by unfold subDW; omega
    rw [sbodLoop, if_pos h1]
    simp only [if_pos h2, if_neg (Nat.not_lt.mpr h3)]
    rw [(skipChunk_exact lp dwMemLength c _ (by omega) hlen').2, Flow.bind_ite]
    refine ⟨_, ?_, rfl⟩
    rfl
  · intro fuel nsmp c s t k hk h
    exact sbodLoop_slots K E lp dwMemLength k fuel nsmp c s t hk h

/-- Witness of C25: the `SBOD` chunk of `sbodFile` at cursor 32, running index 1. -/
theorem sbodLoop_delegates_witness :
    1024 ≤ 1024 ∧ (1024 : Nat) < 2 ^ 32 ∧ 32 + 10 < 1024 ∧
    readBE32 (ptr (memOf sbodFile) 32) = MAGIC (chr 'S') (chr 'B') (chr 'O') (chr 'D') ∧
    1 < libmodplug.MAX_SAMPLES ∧
    ∃ s1, s1.song = { st0.song with
        Ins := Function.update st0.song.Ins 1
          (bumpSample.ReadSample (st0.song.Ins 1) libmodplug.RS_PCM8S
            (ptr (memOf sbodFile) (32 + 8)) (1024 - 32 - 8)) } ∧
      sbodLoop libmodplug bumpSample (memOf sbodFile) 1024 (1024 + 1) 1 32 st0 =
        (if 32 + readBE32 (ptr (memOf sbodFile) (32 + 4)) + 8 ≤ 1024
          then sbodLoop libmodplug bumpSample (memOf sbodFile) 1024 1024 (1 + 1)
            (32 + readBE32 (ptr (memOf sbodFile) (32 + 4)) + 8) s1
          else Flow.done s1) :=
  ⟨by decide, by decide, by decide, by decide!, by decide,
    (sbodLoop_delegates libmodplug bumpSample (memOf sbodFile) 1024 (by decide)
      (by decide)).1 1024 1 32 st0 (by decide) (by decide!) (by decide)⟩

/-! ## C21: which cells of a pattern are filled -/

/-- A cell of a list after one cell has been set. -/
theorem getD_set (g : List MODCOMMAND) (i j : Nat) (v : MODCOMMAND) :
    (g.set i v).getD j zeroCell
      = if j = i ∧ i < g.length then v else g.getD j zeroCell := by
  simp only [List.getD_eq_getElem?_getD]
  by_cases h : j = i
  · subst h
    by_cases hl : j < g.length
    · rw [List.getElem?_set_self hl, if_pos ⟨rfl, hl⟩]
      rfl
    · rw [if_neg (fun h => hl h.2), List.getElem?_eq_none (by simpa using hl),
        List.getElem?_eq_none (by omega)]
  · rw [List.getElem?_set_ne (fun e => h e.symm), if_neg (fun e => h e.1)]

/-- The cells after the cell loop, when `dwPos + 4` cannot wrap: cell `j` of the range
`[i, i + n)` is decoded from the quad at `dwPos + 4 (j - i)` if that quad ends within the
stream, every other cell is as before. -/
theorem fillCells_cells (lp : Nat → BYTE) (len : Nat) (hwrap : len + 4 < 4294967296) :
    ∀ (n i pos : Nat) (g : List MODCOMMAND × Bool), pos ≤ len → ∀ j,
      (fillCells lp len n i pos g).1.getD j zeroCell =
        if i ≤ j ∧ j < i + n ∧ pos + 4 * (j - i) + 4 ≤ len ∧ j < g.1.length
        then decodeCell (g.1.getD j zeroCell) (ptr lp (pos + 4 * (j - i)))
        else g.1.getD j zeroCell := by
  intro n
  induction n with
  | zero =>
    intro i pos g _ j
    rw [fillCells, if_neg (by omega)]
  | succ n ih =>
    intro i pos g hp j
    have hu : u32 (pos + 4) = pos + 4 := by unfold u32; omega
    rw [fillCells, hu]
    by_cases h : pos + 4 > len
    · rw [if_pos h, if_neg (by omega)]
    · rw [if_neg h, ih (i + 1) (pos + 4) _ (by omega) j]
      simp only [List.length_set, getD_set]
      by_cases hj : j = i
      · subst hj
        rw [if_neg (by omega)]
        by_cases hl : j < g.1.length
        · rw [if_pos ⟨rfl, hl⟩, if_pos ⟨Nat.le_refl _, by omega, by omega, hl⟩,
            Nat.sub_self, Nat.mul_zero, Nat.add_zero]
        · rw [if_neg (fun e => hl e.2), if_neg (fun e => hl e.2.2.2)]
      · have hset : ∀ d : MODCOMMAND,
            (if j = i ∧ i < g.1.length then d else g.1.getD j zeroCell)
              = g.1.getD j zeroCell := fun d => if_neg (fun e => hj e.1)
        simp only [hset]
        by_cases hc : i + 1 ≤ j ∧ j < i + 1 + n ∧ pos + 4 + 4 * (j - (i + 1)) + 4 ≤ len
            ∧ j < g.1.length
        · have he : pos + 4 + 4 * (j - (i + 1)) = pos + 4 * (j - i) := by omega
          rw [if_pos hc, if_pos ⟨by omega, by omega, by omega, hc.2.2.2⟩, he]
        · rw [if_neg hc, if_neg (by omega)]

/-- The cells a processed `PBOD` chunk leaves in its slot, for a length at most
`2^32 - 5` (so that `dwPos + 4` cannot wrap): of the `R × C` cells, cell `i` is decoded
from the quad at `c + 10 + 4 i` if `i < (length - c - 10) / 4`, and is zero otherwise. -/
theorem pbodLoop_cells (K : Consts) (E : Collab) (lp : Nat → BYTE)
    (dwMemLength fuel npat c : Nat) (s t : St) (h1024 : 1024 ≤ dwMemLength)
    (hwrap : dwMemLength + 4 < 4294967296) (hc : c + 10 < dwMemLength)
    (htag : readBE32 (ptr lp c) = MAGIC (chr 'P') (chr 'B') (chr 'O') (chr 'D'))
    (hnp : npat < K.MAX_PATTERNS) (hok : E.allocOk npat = true)
    (hch : s.song.m_nChannels * 255 < 4294967296)
    (ht : (pbodLoop K E lp dwMemLength fuel npat c s).state = some t) :
    ∃ g, t.song.Patterns npat = some g ∧
      g.length = (if (lp (c + 9)).val = 0 then 64 else (lp (c + 9)).val)
        * s.song.m_nChannels ∧
      ∀ i, i < (if (lp (c + 9)).val = 0 then 64 else (lp (c + 9)).val)
          * s.song.m_nChannels →
        g.getD i zeroCell = if i < (dwMemLength - c - 10) / 4
          then decodeCell zeroCell (ptr lp (c + 10 + 4 * i)) else zeroCell := by
  have h1 : c < subDW dwMemLength 10 := by unfold subDW; omega
  have h9 : u32 (c + 9) = c + 9 := by unfold u32; omega
  have h10 : u32 (c + 10) = c + 10 := by unfold u32; omega
  have hr255 : (if (lp (c + 9)).val = 0 then 64 else (lp (c + 9)).val) ≤ 255 := by
    have := (lp (c + 9)).isLt
    split_ifs <;> omega
  have himax : u32 (s.song.m_nChannels
      * (if (lp (c + 9)).val = 0 then 64 else (lp (c + 9)).val))
      = s.song.m_nChannels * (if (lp (c + 9)).val = 0 then 64 else (lp (c + 9)).val) := by
    have : s.song.m_nChannels * (if (lp (c + 9)).val = 0 then 64 else (lp (c + 9)).val)
        ≤ s.song.m_nChannels * 255 := Nat.mul_le_mul_left _ hr255
    unfold u32
    omega
  have key : ∀ o : Bool, ∀ i,
      i < (if (lp (c + 9)).val = 0 then 64 else (lp (c + 9)).val) * s.song.m_nChannels →
      (fillCells lp dwMemLength
        (s.song.m_nChannels * (if (lp (c + 9)).val = 0 then 64 else (lp (c + 9)).val)) 0
        (c + 10)
        (List.replicate ((if (lp (c + 9)).val = 0 then 64 else (lp (c + 9)).val)
          * s.song.m_nChannels) zeroCell, o)).1.getD i zeroCell
      = if i < (dwMemLength - c - 10) / 4
          then decodeCell zeroCell (ptr lp (c + 10 + 4 * i)) else zeroCell := by
    intro o i hi
    have hz : (List.replicate ((if (lp (c + 9)).val = 0 then 64 else (lp (c + 9)).val)
        * s.song.m_nChannels) zeroCell).getD i zeroCell = zeroCell := by
      simp only [List.getD_eq_getElem?_getD, List.getElem?_replicate_of_lt hi,
        Option.getD_some]
    rw [fillCells_cells lp dwMemLength hwrap _ 0 (c + 10) _ (by omega) i]
    simp only [List.length_replicate, hz, Nat.sub_zero]
    have hi' : i < 0 + s.song.m_nChannels
        * (if (lp (c + 9)).val = 0 then 64 else (lp (c + 9)).val) := by
      rw [Nat.zero_add, Nat.mul_comm]
      exact hi
    by_cases hq : i < (dwMemLength - c - 10) / 4
    · rw [if_pos hq, if_pos ⟨Nat.zero_le _, hi', by omega, hi⟩]
    · rw [if_neg hq, if_neg (fun e => hq (by have := e.2.2.1; omega))]
  have klen : ∀ o : Bool, (fillCells lp dwMemLength
        (s.song.m_nChannels * (if (lp (c + 9)).val = 0 then 64 else (lp (c + 9)).val)) 0
        (c + 10)
        (List.replicate ((if (lp (c + 9)).val = 0 then 64 else (lp (c + 9)).val)
          * s.song.m_nChannels) zeroCell, o)).1.length
      = (if (lp (c + 9)).val = 0 then 64 else (lp (c + 9)).val) * s.song.m_nChannels := by
    intro o
    rw [(fillCells_range lp dwMemLength _ _ _ _).1]
    simp only [List.length_replicate]
  cases fuel with
  | zero =>
    rw [pbodLoop] at ht
    exact absurd ht (by simp only [Flow.state]; exact fun h => nomatch h)
  | succ fuel =>
    rw [pbodLoop, if_pos h1] at ht
    simp only [if_pos htag, if_pos hnp, AllocatePattern, hok, if_true, h9, h10] at ht
    rcases skipChunk_bind_state lp dwMemLength c _ _ t ht with h | ⟨p, h⟩
    · rw [h]
      simp only [St.rd, St.ix, Function.update_same, himax]
      exact ⟨_, rfl, klen _, key _⟩
    · have hk := pbodLoop_slots K E lp dwMemLength npat fuel (npat + 1) _ _ t
        (Or.inl (by omega)) h
      rw [hk.1]
      simp only [St.rd, St.ix, Function.update_same, himax]
      exact ⟨_, rfl, klen _, key _⟩

/-- The cells of `pbodFile` with 1024 bytes: the pattern has `1 × 8` cells, cell 0 is
decoded from the quad `7 2 1 5` at offset 42 and cell 1 from the zero bytes after it. -/
theorem pbodLoop_cells_examples :
    (ReadOKT libmodplug allocAlways (some (memOf pbodFile)) 1024 st0).map
      (fun r => (r.2.song.Patterns 0).map
        (fun g => (g.length, g.getD 0 zeroCell, g.getD 1 zeroCell)))
      = some (some (8, ⟨55, 3, Command.CMD_PORTAMENTOUP, 5⟩, zeroCell)) := by
  decide!

/-- C21, the failing input. `farPbodFile` has `0xFFFFFFFF` bytes; the `SPEE` skip brings
the cursor to `c = 0xFFFFFFF4`, where a `PBOD` chunk with 1 row stands, and
`(length - c - 10) / 4 = 0`: no cell quad lies within the stream.  The cell loop
computes `dwPos + 4` in 32 bits: `0xFFFFFFFE + 4` wraps to 2, which is not above the
length, so the loop does not stop.  It decodes cell 0 from `0xFFFFFFFE ..` (past the end
of the stream: the ghost flag is raised) and cells 1 .. 7 from the offsets 2, 6, ..: cell
1 is the decoding of the header bytes `'T' 'A' 'S' 'O'` (note `84 + 48`, instrument
`65 + 1`, parameter 79), not the zero cell. -/
theorem pattern_cells_wrap :
    (speeChunk farPbodFile 0xFFFFFFFF 32 st0).cursor = some 0xFFFFFFF4 ∧
    readBE32 (ptr farPbodFile 0xFFFFFFF4) = MAGIC (chr 'P') (chr 'B') (chr 'O') (chr 'D') ∧
    0xFFFFFFF4 + 10 < 0xFFFFFFFF ∧ (0xFFFFFFFF - 0xFFFFFFF4 - 10) / 4 = 0 ∧
    u32 (u32 (0xFFFFFFF4 + 10) + 4) = 2 ∧
    (ReadOKT libmodplug allocAlways (some farPbodFile) 0xFFFFFFFF st0).map
      (fun r => (r.1, r.2.oob, r.2.song.PatternSize 0,
        (r.2.song.Patterns 0).map (fun g => (g.length, g.getD 1 zeroCell))))
      = some (true, true, 1, some (8, ⟨132, 66, Command.CMD_NONE, 79⟩)) ∧
    decodeCell zeroCell (ptr farPbodFile 2) = ⟨132, 66, Command.CMD_NONE, 79⟩ := by
  refine ⟨?_, ?_, by decide, by decide, ?_, ?_, ?_⟩ <;> decide!

/-! ## C27: the cursor invariant -/

/-- A successful skip moves the cursor forward and keeps it within the stream. -/
theorem skipChunk_range (lp : Nat → BYTE) (len pos : Nat) (s : St)
    (h12 : 12 ≤ len) (hlen : len < 4294967296) :
    (skipChunk lp len pos s).Sat (fun _ => True) (fun p _ => pos ≤ p ∧ p ≤ len) :=
  Flow.Sat_mono (skipChunk_sat lp len pos s h12 hlen) (fun _ _ => trivial)
    (fun p _ h => ⟨by have := h.2.1; omega, h.2.2⟩)

/-- The sample loop moves the cursor forward and keeps it within the stream. -/
theorem readSamples_range (K : Consts) (lp : Nat → BYTE) (len : Nat)
    (hlen : len < 4294967296) :
    ∀ (n smp pos : Nat) (s : St), pos ≤ len →
      (readSamples K lp len n smp pos s).Sat (fun _ => True)
        (fun p _ => pos ≤ p ∧ p ≤ len) := by
  intro n
  induction n with
  | zero =>
    intro smp pos s h
    rw [readSamples]
    exact ⟨Nat.le_refl _, h⟩
  | succ n ih =>
    intro smp pos s h
    rw [readSamples]
    by_cases h1 : pos ≥ len - 32
    · rw [if_pos h1]
      trivial
    · rw [if_neg h1]
      have hu : u32 (pos + 32) = pos + 32 := by unfold u32; omega
      rw [hu]
      exact Flow.Sat_mono (ih (smp + 1) (pos + 32) _ (by omega)) (fun _ h => h)
        (fun p _ hp => ⟨by omega, hp.2⟩)

/-- The SPEE section moves the cursor forward and keeps it within the stream. -/
theorem speeChunk_range (lp : Nat → BYTE) (len pos : Nat) (s : St)
    (h12 : 12 ≤ len) (hlen : len < 4294967296) (h : pos ≤ len) :
    (speeChunk lp len pos s).Sat (fun _ => True) (fun p _ => pos ≤ p ∧ p ≤ len) := by
  unfold speeChunk
  split_ifs with h1 h2
  · trivial
  · exact skipChunk_range lp len pos _ h12 hlen
  · exact ⟨Nat.le_refl _, h⟩

/-- The SLEN section moves the cursor forward and keeps it within the stream. -/
theorem slenChunk_range (lp : Nat → BYTE) (len pos : Nat) (s : St)
    (h12 : 12 ≤ len) (hlen : len < 4294967296) (h : pos ≤ len) :
    (slenChunk lp len pos s).Sat (fun _ => True) (fun p _ => pos ≤ p ∧ p ≤ len) := by
  unfold slenChunk
  split_ifs with h1 h2
  · trivial
  · exact skipChunk_range lp len pos _ h12 hlen
  · exact ⟨Nat.le_refl _, h⟩

/-- The PLEN section moves the cursor forward and keeps it within the stream. -/
theorem plenChunk_range (lp : Nat → BYTE) (len pos : Nat) (s : St)
    (h12 : 12 ≤ len) (hlen : len < 4294967296) (h : pos ≤ len) :
    (plenChunk lp len pos s).Sat (fun _ => True) (fun pn _ => pos ≤ pn.1 ∧ pn.1 ≤ len) := by
  unfold plenChunk
  split_ifs with h1 h2
  · trivial
  · exact Flow.Sat_bind (skipChunk_range lp len pos _ h12 hlen) (fun p _ hp => hp)
  · exact ⟨Nat.le_refl _, h⟩

/-- The PATT section moves the cursor forward and keeps it within the stream. -/
theorem pattChunk_range (K : Consts) (lp : Nat → BYTE) (len pos norders : Nat) (s : St)
    (h12 : 12 ≤ len) (hlen : len < 4294967296) (h : pos ≤ len) :
    (pattChunk K lp len pos norders s).Sat (fun _ => True)
      (fun p _ => pos ≤ p ∧ p ≤ len) := by
  unfold pattChunk
  simp only []
  by_cases h1 : u32 (pos + 8) > len
  · rw [if_pos h1]
    trivial
  · rw [if_neg h1]
    by_cases h2 : readBE32 (ptr lp pos) = MAGIC (chr 'P') (chr 'A') (chr 'T') (chr 'T')
    · rw [if_pos h2]
      by_cases h3 : u32 (u32 (pos + 8)
          + (if norders ≥ K.MAX_ORDERS then K.MAX_ORDERS - 1 else norders)) > len
      · rw [if_pos h3]
        trivial
      · rw [if_neg h3]
        exact skipChunk_range lp len pos _ h12 hlen
    · rw [if_neg h2]
      exact ⟨Nat.le_refl _, h⟩

/-- The PBOD loop moves the cursor forward and keeps it within the stream. -/
theorem pbodLoop_range (K : Consts) (E : Collab) (lp : Nat → BYTE) (len : Nat)
    (h12 : 12 ≤ len) (hlen : len < 4294967296) :
    ∀ (fuel npat pos : Nat) (s : St), pos ≤ len → len - pos < fuel →
      (pbodLoop K E lp len fuel npat pos s).Sat (fun _ => True)
        (fun p _ => pos ≤ p ∧ p ≤ len) := by
  intro fuel
  induction fuel with
  | zero =>
    intro npat pos s _ hf
    omega
  | succ fuel ih =>
    intro npat pos s h hf
    have step : ∀ u : St,
        ((skipChunk lp len pos u).bind
          (fun p s2 => pbodLoop K E lp len fuel (npat + 1) p s2)).Sat (fun _ => True)
          (fun p _ => pos ≤ p ∧ p ≤ len) := by
      intro u
      refine Flow.Sat_bind (N := fun p _ => pos + 8 ≤ p ∧ p ≤ len) ?_ ?_
      · exact Flow.Sat_mono (skipChunk_sat lp len pos u h12 hlen) (fun _ _ => trivial)
          (fun p _ hp => ⟨by have := hp.2.1; omega, hp.2.2⟩)
      · intro p t hp
        exact Flow.Sat_mono (ih (npat + 1) p t hp.2 (by omega)) (fun _ h => h)
          (fun q _ hq => ⟨by omega, hq.2⟩)
    rw [pbodLoop]
    by_cases h1 : pos < subDW len 10
    · rw [if_pos h1]
      by_cases h2 : readBE32 (ptr lp pos) = MAGIC (chr 'P') (chr 'B') (chr 'O') (chr 'D')
      · simp only [if_pos h2]
        by_cases h3 : npat < K.MAX_PATTERNS
        · simp only [if_pos h3]
          unfold AllocatePattern
          by_cases h4 : E.allocOk npat = true
          · simp only [h4, if_true]
            exact step _
          · have h4' : E.allocOk npat = false := by simpa using h4
            simp only [h4', Bool.false_eq_true, if_false]
            trivial
        · simp only [if_neg h3]
          exact step _
      · simp only [if_neg h2]
        exact ⟨Nat.le_refl _, h⟩
    · rw [if_neg h1]
      exact ⟨Nat.le_refl _, h⟩

/-- The SBOD loop moves the cursor forward and keeps it within the stream. -/
theorem sbodLoop_range (K : Consts) (E : Collab) (lp : Nat → BYTE) (len : Nat)
    (h12 : 12 ≤ len) (hlen : len < 4294967296) :
    ∀ (fuel nsmp pos : Nat) (s : St), pos ≤ len → len - pos < fuel →
      (sbodLoop K E lp len fuel nsmp pos s).Sat (fun _ => True)
        (fun p _ => pos ≤ p ∧ p ≤ len) := by
  intro fuel
  induction fuel with
  | zero =>
    intro nsmp pos s _ hf
    omega
  | succ fuel ih =>
    intro nsmp pos s h hf
    have step : ∀ u : St,
        ((skipChunk lp len pos u).bind
          (fun p s2 => sbodLoop K E lp len fuel (nsmp + 1) p s2)).Sat (fun _ => True)
          (fun p _ => pos ≤ p ∧ p ≤ len) := by
      intro u
      refine Flow.Sat_bind (N := fun p _ => pos + 8 ≤ p ∧ p ≤ len) ?_ ?_
      · exact Flow.Sat_mono (skipChunk_sat lp len pos u h12 hlen) (fun _ _ => trivial)
          (fun p _ hp => ⟨by have := hp.2.1; omega, hp.2.2⟩)
      · intro p t hp
        exact Flow.Sat_mono (ih (nsmp + 1) p t hp.2 (by omega)) (fun _ h => h)
          (fun q _ hq => ⟨by omega, hq.2⟩)
    rw [sbodLoop]
    by_cases h1 : pos < subDW len 10
    · rw [if_pos h1]
      by_cases h2 : readBE32 (ptr lp pos) = MAGIC (chr 'S') (chr 'B') (chr 'O') (chr 'D')
      · simp only [if_pos h2]
        exact step _
      · simp only [if_neg h2]
        exact ⟨Nat.le_refl _, h⟩
    · rw [if_neg h1]
      exact ⟨Nat.le_refl _, h⟩

/-- C27. The cursor invariant, for a length in `[1024, 2^32)`.  The cursor is assigned
in two places only.  The sample step, taken when `dwMemPos < dwMemLength - 32`, adds 32
without wrap-around and stays below the length; a successful skip adds `d + 8` without
wrap-around (neither `d + 8` nor `c + d + 8` wraps) and stays at most the length.  Every
section entered with a cursor `c ≤ dwMemLength` that falls through hands on a cursor `p`
with `c ≤ p ≤ dwMemLength`, the loops included, and the body of `ReadOKT`, entered with
the cursor 32, ends with a cursor in `[32, dwMemLength]` and never out of fuel. -/
theorem cursor_invariant (K : Consts) (E : Collab) (lp : Nat → BYTE) (dwMemLength : Nat)
    (h1024 : 1024 ≤ dwMemLength) (hlen : dwMemLength < 2 ^ 32) :
    (∀ (n smp c : Nat) (s : St), ¬ c ≥ dwMemLength - 32 →
      u32 (c + 32) = c + 32 ∧ c + 32 < dwMemLength ∧
      ∃ s1, readSamples K lp dwMemLength (n + 1) smp c s
        = readSamples K lp dwMemLength n (smp + 1) (c + 32) s1) ∧
    (∀ (c : Nat) (s : St) (p : Nat) (t : St),
      skipChunk lp dwMemLength c s = Flow.next p t →
      u32 (readBE32 (ptr lp (c + 4)) + 8) = readBE32 (ptr lp (c + 4)) + 8 ∧
      u32 (c + u32 (readBE32 (ptr lp (c + 4)) + 8)) = c + readBE32 (ptr lp (c + 4)) + 8 ∧
      p = c + readBE32 (ptr lp (c + 4)) + 8 ∧ p ≤ dwMemLength) ∧
    (∀ (n smp c : Nat) (s : St), c ≤ dwMemLength →
      (readSamples K lp dwMemLength n smp c s).Sat (fun _ => True)
        (fun p _ => c ≤ p ∧ p ≤ dwMemLength)) ∧
    (∀ (c : Nat) (s : St), c ≤ dwMemLength →
      (speeChunk lp dwMemLength c s).Sat (fun _ => True)
        (fun p _ => c ≤ p ∧ p ≤ dwMemLength)) ∧
    (∀ (c : Nat) (s : St), c ≤ dwMemLength →
      (slenChunk lp dwMemLength c s).Sat (fun _ => True)
        (fun p _ => c ≤ p ∧ p ≤ dwMemLength)) ∧
    (∀ (c : Nat) (s : St), c ≤ dwMemLength →
      (plenChunk lp dwMemLength c s).Sat (fun _ => True)
        (fun pn _ => c ≤ pn.1 ∧ pn.1 ≤ dwMemLength)) ∧
    (∀ (c norders : Nat) (s : St), c ≤ dwMemLength →
      (pattChunk K lp dwMemLength c norders s).Sat (fun _ => True)
        (fun p _ => c ≤ p ∧ p ≤ dwMemLength)) ∧
    (∀ (fuel npat c : Nat) (s : St), c ≤ dwMemLength → dwMemLength - c < fuel →
      (pbodLoop K E lp dwMemLength fuel npat c s).Sat (fun _ => True)
        (fun p _ => c ≤ p ∧ p ≤ dwMemLength)) ∧
    (∀ (fuel nsmp c : Nat) (s : St), c ≤ dwMemLength → dwMemLength - c < fuel →
      (sbodLoop K E lp dwMemLength fuel nsmp c s).Sat (fun _ => True)
        (fun p _ => c ≤ p ∧ p ≤ dwMemLength)) ∧
    (∀ s : St, (parseBody K E lp dwMemLength s).Sat (fun _ => True)
      (fun p _ => 32 ≤ p ∧ p ≤ dwMemLength)) := by
  have hlen' : dwMemLength < 4294967296 := by norm_num at hlen; exact hlen
  have h12 : 12 ≤ dwMemLength := by omega
  refine ⟨?_, ?_, ?_, ?_, ?_, ?_, ?_, ?_, ?_, ?_⟩
  · intro n smp c s hc
    have hu : u32 (c + 32) = c + 32 := by unfold u32; omega
    refine ⟨hu, by omega, ?_⟩
    rw [readSamples, if_neg hc, hu]
    exact ⟨_, rfl⟩
  · intro c s p t h
    have hs := skipChunk_sat lp dwMemLength c s h12 hlen'
    rw [h] at hs
    have hd := readBE32_lt (ptr lp (c + 4))
    have h1 := hs.2.1
    have h2 := hs.2.2
    refine ⟨by unfold u32; omega, ?_, h1, h2⟩
    have h8 : u32 (readBE32 (ptr lp (c + 4)) + 8) = readBE32 (ptr lp (c + 4)) + 8 := by
      unfold u32; omega
    rw [h8]
    unfold u32
    omega
  · intro n smp c s h
    exact readSamples_range K lp dwMemLength hlen' n smp c s h
  · intro c s h
    exact speeChunk_range lp dwMemLength c s h12 hlen' h
  · intro c s h
    exact slenChunk_range lp dwMemLength c s h12 hlen' h
  · intro c s h
    exact plenChunk_range lp dwMemLength c s h12 hlen' h
  · intro c norders s h
    exact pattChunk_range K lp dwMemLength c norders s h12 hlen' h
  · intro fuel npat c s h hf
    exact pbodLoop_range K E lp dwMemLength h12 hlen' fuel npat c s h hf
  · intro fuel nsmp c s h hf
    exact sbodLoop_range K E lp dwMemLength h12 hlen' fuel nsmp c s h hf
  · intro s
    unfold parseBody
    refine Flow.Sat_bind (N := fun p _ => 32 ≤ p ∧ p ≤ dwMemLength)
      (readSamples_range K lp dwMemLength hlen' _ 1 32 s (by omega)) ?_
    intro p1 s1 hp1
    refine Flow.Sat_bind (N := fun p _ => 32 ≤ p ∧ p ≤ dwMemLength)
      (Flow.Sat_mono (speeChunk_range lp dwMemLength p1 s1 h12 hlen' hp1.2) (fun _ h => h)
        (fun p _ hp => ⟨by omega, hp.2⟩)) ?_
    intro p2 s2 hp2
    refine Flow.Sat_bind (N := fun p _ => 32 ≤ p ∧ p ≤ dwMemLength)
      (Flow.Sat_mono (slenChunk_range lp dwMemLength p2 s2 h12 hlen' hp2.2) (fun _ h => h)
        (fun p _ hp => ⟨by omega, hp.2⟩)) ?_
    intro p3 s3 hp3
    refine Flow.Sat_bind (N := fun pn _ => 32 ≤ pn.1 ∧ pn.1 ≤ dwMemLength)
      (Flow.Sat_mono (plenChunk_range lp dwMemLength p3 s3 h12 hlen' hp3.2) (fun _ h => h)
        (fun p _ hp => ⟨by omega, hp.2⟩)) ?_
    intro pn s4 hp4
    refine Flow.Sat_bind (N := fun p _ => 32 ≤ p ∧ p ≤ dwMemLength)
      (Flow.Sat_mono (pattChunk_range K lp dwMemLength pn.1 pn.2 s4 h12 hlen' hp4.2)
        (fun _ h => h) (fun p _ hp => ⟨by omega, hp.2⟩)) ?_
    intro p5 s5 hp5
    refine Flow.Sat_bind (N := fun p _ => 32 ≤ p ∧ p ≤ dwMemLength)
      (Flow.Sat_mono (pbodLoop_range K E lp dwMemLength h12 hlen' _ 0 p5 s5 hp5.2 (by omega))
        (fun _ h => h) (fun p _ hp => ⟨by omega, hp.2⟩)) ?_
    intro p6 s6 hp6
    exact Flow.Sat_mono
      (sbodLoop_range K E lp dwMemLength h12 hlen' _ 1 p6 s6 hp6.2 (by omega))
      (fun _ h => h) (fun p _ hp => ⟨by omega, hp.2⟩)

/-- Witness of C27: `pbodFile` with 1024 bytes; the body ends with the cursor at 46,
after the one `PBOD` chunk. -/
theorem cursor_invariant_witness :
    1024 ≤ 1024 ∧ (1024 : Nat) < 2 ^ 32 ∧
    (parseBody libmodplug allocAlways (memOf pbodFile) 1024 st0).Sat (fun _ => True)
      (fun p _ => 32 ≤ p ∧ p ≤ 1024) ∧
    (parseBody libmodplug allocAlways (memOf pbodFile) 1024 st0).cursor = some 46 :=
  ⟨by decide, by decide,
    (cursor_invariant libmodplug allocAlways (memOf pbodFile) 1024 (by decide)
      (by decide)).2.2.2.2.2.2.2.2.2 st0, by decide!⟩

/-! ## C28: the cells do not depend on the declared length -/

/-- The cell decoder reads the four bytes of the quad only. -/
theorem decodeCell_congr (m : MODCOMMAND) (p p' : Nat → BYTE)
    (h : ∀ k, k < 4 → p' k = p k) : decodeCell m p' = decodeCell m p := by
  simp only [decodeCell, h 0 (by decide), h 1 (by decide), h 2 (by decide), h 3 (by decide)]

/-- The cell loop started at `c + 10` never reads the bytes `c + 4 .. c + 7`: two streams
that agree everywhere else give the same cells (below `2^30 - 2` cells). -/
theorem fillCells_congr (lp lp' : Nat → BYTE) (len c : Nat)
    (hag : ∀ x, x < c + 4 ∨ c + 8 ≤ x → lp' x = lp x) :
    ∀ (n i pos : Nat) (g : List MODCOMMAND × Bool) (j : Nat),
      pos = (c + 10 + 4 * j) % 4294967296 → j + n < 1073741822 →
      fillCells lp' len n i pos g = fillCells lp len n i pos g := by
  intro n
  induction n with
  | zero =>
    intro i pos g j _ _
    rw [fillCells, fillCells]
  | succ n ih =>
    intro i pos g j hp hj
    rw [fillCells, fillCells]
    by_cases h : u32 (pos + 4) > len
    · rw [if_pos h, if_pos h]
    · rw [if_neg h, if_neg h]
      have hcell : decodeCell (g.1.getD i zeroCell) (ptr lp' pos)
          = decodeCell (g.1.getD i zeroCell) (ptr lp pos) := by
        apply decodeCell_congr
        intro k hk
        unfold ptr
        apply hag
        omega
      rw [hcell]
      exact ih (i + 1) (u32 (pos + 4)) _ (j + 1) (by unfold u32; omega) (by omega)

/-- Two runs of the pattern loop on streams that differ in the declared length of the
chunk at the cursor only leave the same row count and the same cells in its slot. -/
theorem pbodLoop_slot_congr (K : Consts) (E : Collab) (lp lp' : Nat → BYTE)
    (dwMemLength fuel npat c : Nat) (s s' : St) (h1024 : 1024 ≤ dwMemLength)
    (hlen : dwMemLength < 2 ^ 32) (hc : c + 10 < dwMemLength)
    (htag : readBE32 (ptr lp c) = MAGIC (chr 'P') (chr 'B') (chr 'O') (chr 'D'))
    (hag : ∀ x, x < c + 4 ∨ c + 8 ≤ x → lp' x = lp x)
    (hnp : npat < K.MAX_PATTERNS) (hok : E.allocOk npat = true)
    (hch : s'.song.m_nChannels = s.song.m_nChannels) (hch22 : s.song.m_nChannels < 4194304)
    (t t' : St) (ht : (pbodLoop K E lp dwMemLength fuel npat c s).state = some t)
    (ht' : (pbodLoop K E lp' dwMemLength fuel npat c s').state = some t') :
    t'.song.PatternSize npat = t.song.PatternSize npat ∧
    t'.song.Patterns npat = t.song.Patterns npat ∧
    t.song.PatternSize npat = (if (lp (c + 9)).val = 0 then 64 else (lp (c + 9)).val) ∧
    t.song.Patterns npat = some (fillCells lp dwMemLength
      (s.song.m_nChannels * (if (lp (c + 9)).val = 0 then 64 else (lp (c + 9)).val)) 0
      (c + 10)
      (List.replicate ((if (lp (c + 9)).val = 0 then 64 else (lp (c + 9)).val)
        * s.song.m_nChannels) zeroCell, false)).1 := by
  have hlen' : dwMemLength < 4294967296 := by norm_num at hlen; exact hlen
  have h1 : c < subDW dwMemLength 10 := by unfold subDW; omega
  have h9 : u32 (c + 9) = c + 9 := by unfold u32; omega
  have h10 : u32 (c + 10) = c + 10 := by unfold u32; omega
  have htag' : readBE32 (ptr lp' c) = MAGIC (chr 'P') (chr 'B') (chr 'O') (chr 'D') := by
    rw [← htag]
    apply readBE32_congr
    intro k hk
    unfold ptr
    apply hag
    omega
  have hrow : lp' (c + 9) = lp (c + 9) := hag _ (by omega)
  have hr255 : (if (lp (c + 9)).val = 0 then 64 else (lp (c + 9)).val) ≤ 255 := by
    have := (lp (c + 9)).isLt
    split_ifs <;> omega
  have himax : u32 (s.song.m_nChannels
      * (if (lp (c + 9)).val = 0 then 64 else (lp (c + 9)).val))
      = s.song.m_nChannels * (if (lp (c + 9)).val = 0 then 64 else (lp (c + 9)).val) := by
    have : s.song.m_nChannels * (if (lp (c + 9)).val = 0 then 64 else (lp (c + 9)).val)
        ≤ s.song.m_nChannels * 255 := Nat.mul_le_mul_left _ hr255
    unfold u32
    omega
  have hbound : 0 + s.song.m_nChannels
      * (if (lp (c + 9)).val = 0 then 64 else (lp (c + 9)).val) < 1073741822 := by
    have : s.song.m_nChannels * (if (lp (c + 9)).val = 0 then 64 else (lp (c + 9)).val)
        ≤ s.song.m_nChannels * 255 := Nat.mul_le_mul_left _ hr255
    omega
  cases fuel with
  | zero =>
    rw [pbodLoop] at ht
    exact absurd ht (by simp only [Flow.state]; exact fun h => nomatch h)
  | succ fuel =>
    rw [pbodLoop, if_pos h1] at ht ht'
    simp only [if_pos htag, if_pos hnp, AllocatePattern, hok, if_true, h9, h10] at ht
    simp only [if_pos htag', if_pos hnp, AllocatePattern, hok, if_true, h9, h10, hrow]
      at ht'
    have hA : t.song.PatternSize npat
          = (if (lp (c + 9)).val = 0 then 64 else (lp (c + 9)).val) ∧
        t.song.Patterns npat = some (fillCells lp dwMemLength
          (s.song.m_nChannels * (if (lp (c + 9)).val = 0 then 64 else (lp (c + 9)).val)) 0
          (c + 10)
          (List.replicate ((if (lp (c + 9)).val = 0 then 64 else (lp (c + 9)).val)
            * s.song.m_nChannels) zeroCell, false)).1 := by
      rcases skipChunk_bind_state lp dwMemLength c _ _ t ht with h | ⟨p, h⟩
      · rw [h]
        simp only [St.rd, St.ix, Function.update_same, himax]
        exact ⟨trivial, congrArg some (fillCells_fst lp dwMemLength _ _ _ _ _ _)⟩
      · have hk := pbodLoop_slots K E lp dwMemLength npat fuel (npat + 1) _ _ t
          (Or.inl (by omega)) h
        rw [hk.1, hk.2]
        simp only [St.rd, St.ix, Function.update_same, himax]
        exact ⟨trivial, congrArg some (fillCells_fst lp dwMemLength _ _ _ _ _ _)⟩
    have hB : t'.song.PatternSize npat
          = (if (lp (c + 9)).val = 0 then 64 else (lp (c + 9)).val) ∧
        t'.song.Patterns npat = some (fillCells lp' dwMemLength
          (s.song.m_nChannels * (if (lp (c + 9)).val = 0 then 64 else (lp (c + 9)).val)) 0
          (c + 10)
          (List.replicate ((if (lp (c + 9)).val = 0 then 64 else (lp (c + 9)).val)
            * s.song.m_nChannels) zeroCell, false)).1 := by
      rcases skipChunk_bind_state lp' dwMemLength c _ _ t' ht' with h | ⟨p, h⟩
      · rw [h]
        simp only [St.rd, St.ix, Function.update_same, hch, himax]
        exact ⟨trivial, congrArg some (fillCells_fst lp' dwMemLength _ _ _ _ _ _)⟩
      · have hk := pbodLoop_slots K E lp' dwMemLength npat fuel (npat + 1) _ _ t'
          (Or.inl (by omega)) h
        rw [hk.1, hk.2]
        simp only [St.rd, St.ix, Function.update_same, hch, himax]
        exact ⟨trivial, congrArg some (fillCells_fst lp' dwMemLength _ _ _ _ _ _)⟩
    have hcg := fillCells_congr lp lp' dwMemLength c hag
      (s.song.m_nChannels * (if (lp (c + 9)).val = 0 then 64 else (lp (c + 9)).val)) 0
      (c + 10)
      (List.replicate ((if (lp (c + 9)).val = 0 then 64 else (lp (c + 9)).val)
        * s.song.m_nChannels) zeroCell, false) 0 (by omega) hbound
    refine ⟨by rw [hB.1, hA.1], ?_, hA.1, hA.2⟩
    rw [hB.2, hA.2, hcg]

/-- A section that is not out of fuel ends in a state. -/
theorem Flow.state_of_ne_stuck {α : Type} {f : Flow α} (h : f ≠ Flow.stuck) :
    ∃ t, f.state = some t := by
  cases f with
  | done t => exact ⟨t, rfl⟩
  | next a t => exact ⟨t, rfl⟩
  | stuck => exact absurd rfl h

/-- C28. Let two streams of the same length in `[1024, 2^32)` agree everywhere but in the
bytes `c+4 .. c+7`, the declared length of a `PBOD` chunk at cursor `c` that the pattern
loop processes with running index `npat < MAX_PATTERNS` (the allocation succeeding), on
songs with the same channel count `C` (below `2^22`; `ReadOKT` clamps it to
`MAX_CHANNELS`).  Then both runs of the loop end, with the same row count and the same
cells in slot `npat`.  The row count `R` is the byte at `c + 9` (0 read as 64).  The
pattern has `R × C` cells; they are what the cell loop leaves, started at `c + 10` on
zero cells, and for a length up to `2^32 - 5` cell `i` is the decoding of the four bytes
at `c + 10 + 4 i` if `i < (length - c - 10) / 4`, that is if the quad ends within the
stream, and zero otherwise: the declared length takes no part, and quads beyond the
declared end of the payload are decoded like the others. -/
theorem pattern_ignores_declared_length (K : Consts) (E : Collab) (lp lp' : Nat → BYTE)
    (dwMemLength fuel npat c : Nat) (s s' : St) (h1024 : 1024 ≤ dwMemLength)
    (hlen : dwMemLength < 2 ^ 32) (hc : c + 10 < dwMemLength)
    (htag : readBE32 (ptr lp c) = MAGIC (chr 'P') (chr 'B') (chr 'O') (chr 'D'))
    (hag : ∀ x, x < c + 4 ∨ c + 8 ≤ x → lp' x = lp x)
    (hnp : npat < K.MAX_PATTERNS) (hok : E.allocOk npat = true)
    (hch : s'.song.m_nChannels = s.song.m_nChannels) (hch22 : s.song.m_nChannels < 4194304)
    (hf : dwMemLength - c < fuel) :
    ∃ t t', (pbodLoop K E lp dwMemLength fuel npat c s).state = some t ∧
      (pbodLoop K E lp' dwMemLength fuel npat c s').state = some t' ∧
      t'.song.PatternSize npat = t.song.PatternSize npat ∧
      t'.song.Patterns npat = t.song.Patterns npat ∧
      t.song.PatternSize npat = (if (lp (c + 9)).val = 0 then 64 else (lp (c + 9)).val) ∧
      ∃ g, t.song.Patterns npat = some g ∧
        g = (fillCells lp dwMemLength
          (s.song.m_nChannels * (if (lp (c + 9)).val = 0 then 64 else (lp (c + 9)).val)) 0
          (c + 10)
          (List.replicate ((if (lp (c + 9)).val = 0 then 64 else (lp (c + 9)).val)
            * s.song.m_nChannels) zeroCell, false)).1 ∧
        g.length = (if (lp (c + 9)).val = 0 then 64 else (lp (c + 9)).val)
          * s.song.m_nChannels ∧
        (dwMemLength + 4 < 2 ^ 32 →
          ∀ i, i < (if (lp (c + 9)).val = 0 then 64 else (lp (c + 9)).val)
              * s.song.m_nChannels →
            g.getD i zeroCell = if i < (dwMemLength - c - 10) / 4
              then decodeCell zeroCell (ptr lp (c + 10 + 4 * i)) else zeroCell) := by
  have hlen' : dwMemLength < 4294967296 := by norm_num at hlen; exact hlen
  obtain ⟨t, ht⟩ := Flow.state_of_ne_stuck (Flow.Sat_ne_stuck
    (pbodLoop_frame K E lp dwMemLength (by omega) hlen' fuel npat c s s hf (Frame.refl s)))
  obtain ⟨t', ht'⟩ := Flow.state_of_ne_stuck (Flow.Sat_ne_stuck
    (pbodLoop_frame K E lp' dwMemLength (by omega) hlen' fuel npat c s' s' hf
      (Frame.refl s')))
  obtain ⟨h1, h2, h3, h4⟩ := pbodLoop_slot_congr K E lp lp' dwMemLength fuel npat c s s'
    h1024 hlen hc htag hag hnp hok hch hch22 t t' ht ht'
  refine ⟨t, t', ht, ht', h1, h2, h3, _, h4, rfl, ?_, ?_⟩
  · rw [(fillCells_range lp dwMemLength _ _ _ _).1]
    simp only [List.length_replicate]
  · intro hwrap i hi
    have hwrap' : dwMemLength + 4 < 4294967296 := by norm_num at hwrap; exact hwrap
    obtain ⟨g, hg, _, hcells⟩ := pbodLoop_cells K E lp dwMemLength fuel npat c s t h1024
      hwrap' hc htag hnp hok (by omega) ht
    rw [h4] at hg
    rw [Option.some.inj hg]
    exact hcells i hi

/-- Witness of C28: `shortPbodFile` and `longPbodFile` (declared lengths 2 and 258),
1024 bytes, the chunk at cursor 32, on the song the header of `shortPbodFile` sets up
(8 channels).  Both runs store 1 row of 8 cells; cell 0 is decoded from the quad
`12 4 0 0` at the offsets 42 .. 45, beyond the 2 declared bytes (note `12 + 48`,
instrument `4 + 1`), the cells 1 .. 7 from zero bytes. -/
theorem pattern_ignores_declared_length_witness :
    1024 ≤ 1024 ∧ (1024 : Nat) < 2 ^ 32 ∧ 32 + 10 < 1024 ∧
    readBE32 (ptr (memOf shortPbodFile) 32) = MAGIC (chr 'P') (chr 'B') (chr 'O') (chr 'D') ∧
    (∀ x, x < 32 + 4 ∨ 32 + 8 ≤ x → longPbodFile x = memOf shortPbodFile x) ∧
    0 < libmodplug.MAX_PATTERNS ∧ allocAlways.allocOk 0 = true ∧
    (initSong libmodplug (memOf shortPbodFile) song0).m_nChannels < 4194304 ∧
    1024 - 32 < 1025 ∧
    ∃ t t', (pbodLoop libmodplug allocAlways (memOf shortPbodFile) 1024 1025 0 32
        ⟨initSong libmodplug (memOf shortPbodFile) song0, false⟩).state = some t ∧
      (pbodLoop libmodplug allocAlways longPbodFile 1024 1025 0 32
        ⟨initSong libmodplug (memOf shortPbodFile) song0, false⟩).state = some t' ∧
      t.song.PatternSize 0 = 1 ∧ t'.song.PatternSize 0 = 1 ∧
      t.song.Patterns 0 = some (⟨60, 5, Command.CMD_NONE, 0⟩ :: List.replicate 7 zeroCell) ∧
      t'.song.Patterns 0
        = some (⟨60, 5, Command.CMD_NONE, 0⟩ :: List.replicate 7 zeroCell) ∧
      decodeCell zeroCell (ptr (memOf shortPbodFile) (32 + 10 + 4 * 0))
        = ⟨60, 5, Command.CMD_NONE, 0⟩ := by
  obtain ⟨t, t', ht, ht', h1, h2, h3, g, hg, hfc, _, _⟩ :=
    pattern_ignores_declared_length libmodplug allocAlways (memOf shortPbodFile)
      longPbodFile 1024 1025 0 32 ⟨initSong libmodplug (memOf shortPbodFile) song0, false⟩
      ⟨initSong libmodplug (memOf shortPbodFile) song0, false⟩ (by decide) (by decide)
      (by decide) (by decide!) (fun x hx => if_neg (by omega)) (by decide) rfl rfl
      (by decide!) (by decide)
  have hR : t.song.PatternSize 0 = 1 := by
    rw [h3]
    decide
  have hG : t.song.Patterns 0
      = some (⟨60, 5, Command.CMD_NONE, 0⟩ :: List.replicate 7 zeroCell) := by
    rw [hg, hfc]
    decide!
  exact ⟨by decide, by decide, by decide, by decide!,
    fun x hx => if_neg (by omega), by decide, rfl, by decide!, by decide,
    t, t', ht, ht', hR, by rw [h1, hR], hG, by rw [h2, hG], by decide!⟩

/-- The cells lie beyond the declared payload. In `shortPbodFile` the `PBOD` chunk at
cursor 32 declares 2 bytes, so its payload ends at 42; the cell loop starts at
`32 + 10 = 42` and decodes cell 0 from the bytes 42 .. 45 (note `12 + 48`, instrument
`4 + 1`).  `ReadOKT` stores the same row count and the same cell for `longPbodFile`,
whose declared length is 258. -/
theorem declared_length_examples :
    readBE32 (ptr (memOf shortPbodFile) 36) = 2 ∧ readBE32 (ptr longPbodFile 36) = 258 ∧
    32 + 8 + 2 ≤ 32 + 10 ∧
    (ReadOKT libmodplug allocAlways (some (memOf shortPbodFile)) 1024 st0).map
      (fun r => (r.1, r.2.song.PatternSize 0,
        (r.2.song.Patterns 0).map (fun g => (g.length, g.getD 0 zeroCell))))
      = some (true, 1, some (8, ⟨60, 5, Command.CMD_NONE, 0⟩)) ∧
    (ReadOKT libmodplug allocAlways (some longPbodFile) 1024 st0).map
      (fun r => (r.1, r.2.song.PatternSize 0,
        (r.2.song.Patterns 0).map (fun g => (g.length, g.getD 0 zeroCell))))
      = some (true, 1, some (8, ⟨60, 5, Command.CMD_NONE, 0⟩)) := by
  refine ⟨?_, ?_, by decide, ?_, ?_⟩ <;> decide!

end OKT

namespace Gnulib

/-! ## C17: `iswdigit` -/

/-- C17. For every wide-character value `wc`, `iswdigit wc` is 1 if `48 ≤ wc ≤ 57` (the
characters `'0'` to `'9'`) and 0 otherwise. -/
theorem iswdigit_spec (wc : Int) :
    iswdigit wc = (if 48 ≤ wc ∧ wc ≤ 57 then 1 else 0) ∧
    (iswdigit wc = 1 ↔ ∃ d : Nat, d < 10 ∧ wc = (Char.ofNat ('0'.toNat + d)).toNat) ∧
    (iswdigit wc = 0 ∨ iswdigit wc = 1) := by
  have h0 : (('0'.toNat : Nat) : Int) = 48 := by decide
  have h9 : (('9'.toNat : Nat) : Int) = 57 := by decide
  have e : iswdigit wc = (if 48 ≤ wc ∧ wc ≤ 57 then 1 else 0) := by
    unfold iswdigit
    rw [h0, h9]
  refine ⟨e, ?_, ?_⟩
  · rw [e]
    constructor
    · intro h
      have hw : 48 ≤ wc ∧ wc ≤ 57 := by
        by_contra hc
        rw [if_neg hc] at h
        exact absurd h (by decide)
      refine ⟨(wc - 48).toNat, by omega, ?_⟩
      have hd : (wc - 48).toNat < 10 := by omega
      have : ∀ d : Nat, d < 10 → ((Char.ofNat ('0'.toNat + d)).toNat : Int) = 48 + d := by
        intro d hd
        interval_cases d <;> rfl
      rw [this _ hd]
      omega
    · rintro ⟨d, hd, hw⟩
      have : ∀ d : Nat, d < 10 → ((Char.ofNat ('0'.toNat + d)).toNat : Int) = 48 + d := by
        intro d hd
        interval_cases d <;> rfl
      rw [this d hd] at hw
      rw [if_pos (by omega)]
  · rw [e]
    split_ifs
    · exact Or.inr rfl
    · exact Or.inl rfl

/-! ## C26: the decomposition of `log1p` -/

/-- The value `round` returns is within `1/2` of its argument. -/
theorem round_near (t : ℚ) : t - 1 / 2 ≤ (round t : ℚ) ∧ (round t : ℚ) ≤ t + 1 / 2 := by
  unfold round
  split_ifs with h
  · have h1 := Int.floor_le (t + 1 / 2)
    have h2 := Int.lt_floor_add_one (t + 1 / 2)
    constructor <;> linarith
  · have h1 := Int.le_ceil (t - 1 / 2)
    have h2 := Int.ceil_lt_add_one (t - 1 / 2)
    constructor <;> linarith

/-- The function `round` is monotone enough: between integer bounds of its argument it
stays between them. -/
theorem round_bounds (t : ℚ) (a b : ℤ) (ha : (a : ℚ) ≤ t) (hb : t ≤ (b : ℚ)) :
    a ≤ round t ∧ round t ≤ b := by
  unfold round
  split_ifs with h
  · constructor
    · apply Int.le_floor.mpr
      linarith
    · have h2 : ⌊t + 1 / 2⌋ < b + 1 := by
        apply Int.floor_lt.mpr
        push_cast
        linarith
      omega
  · constructor
    · have h2 : a - 1 < ⌈t - 1 / 2⌉ := by
        apply Int.lt_ceil.mpr
        push_cast
        linarith
      omega
    · apply Int.ceil_le.mpr
      linarith

/-- C26. On the table path of `log1p`, that is for every rational `x` with
`-1/2 ≤ x ≤ 1` and `x ≠ 0`: `m = round (256 x)` (halfway cases away from zero) satisfies
`-128 ≤ m ≤ 256`, the index `128 + m` lies in `[0, 384]`, within the 385 entries of
`log_table`; `y = (256 x - m) / (256 + m)` satisfies `(1 + m/256) (1 + y) = 1 + x` and
`|y| ≤ 1/256`. -/
theorem log1p_decomposition (x : ℚ) (hlo : -(1 / 2) ≤ x) (hhi : x ≤ 1) (h0 : x ≠ 0) :
    ∃ d, log1p_table_path x = some d ∧
      d.m = round (256 * x) ∧ -128 ≤ d.m ∧ d.m ≤ 256 ∧
      d.index = 128 + d.m ∧ 0 ≤ d.index ∧ d.index ≤ 384 ∧ d.index < log_table_size ∧
      d.y = (256 * x - d.m) / (256 + d.m) ∧
      (1 + (d.m : ℚ) / 256) * (1 + d.y) = 1 + x ∧ |d.y| ≤ 1 / 256 := by
  have hb := round_bounds (x * 256) (-128) 256 (by push_cast; linarith)
    (by push_cast; linarith)
  have hn := round_near (x * 256)
  have hm1 : (-128 : ℚ) ≤ (round (x * 256) : ℚ) := by exact_mod_cast hb.1
  have hpos : (0 : ℚ) < (round (x * 256) : ℚ) + 256 := by linarith
  refine ⟨⟨round (x * 256), ((x * 256) - round (x * 256)) / (round (x * 256) + 256),
    128 + round (x * 256)⟩, ?_, ?_, hb.1, hb.2, rfl, ?_, ?_, ?_, ?_, ?_, ?_⟩
  · unfold log1p_table_path
    rw [if_neg (by linarith), if_neg (by push_neg; exact ⟨hlo, hhi⟩), if_neg h0]
  · show round (x * 256) = round (256 * x)
    rw [mul_comm]
  · show 0 ≤ 128 + round (x * 256)
    omega
  · show 128 + round (x * 256) ≤ 384
    omega
  · show 128 + round (x * 256) < log_table_size
    unfold log_table_size
    omega
  · show ((x * 256) - round (x * 256)) / (round (x * 256) + 256)
      = (256 * x - round (x * 256)) / (256 + round (x * 256))
    rw [mul_comm x 256, add_comm (round (256 * x) : ℚ) 256]
  · show (1 + (round (x * 256) : ℚ) / 256)
      * (1 + ((x * 256) - round (x * 256)) / (round (x * 256) + 256)) = 1 + x
    field_simp
    ring
  · show |((x * 256) - round (x * 256)) / (round (x * 256) + 256)| ≤ 1 / 256
    rw [abs_div, abs_of_pos hpos, div_le_iff₀ hpos]
    have habs : |x * 256 - (round (x * 256) : ℚ)| ≤ 1 / 2 := by
      rw [abs_le]
      constructor <;> linarith [hn.1, hn.2]
    nlinarith [habs, hm1]

/-- Witness of C26: `x = 1/2`. -/
theorem log1p_decomposition_witness :
    -(1 / 2) ≤ (1 / 2 : ℚ) ∧ (1 / 2 : ℚ) ≤ 1 ∧ (1 / 2 : ℚ) ≠ 0 ∧
    ∃ d, log1p_table_path (1 / 2) = some d ∧
      d.m = round (256 * (1 / 2)) ∧ -128 ≤ d.m ∧ d.m ≤ 256 ∧
      d.index = 128 + d.m ∧ 0 ≤ d.index ∧ d.index ≤ 384 ∧ d.index < log_table_size ∧
      d.y = (256 * (1 / 2) - d.m) / (256 + d.m) ∧
      (1 + (d.m : ℚ) / 256) * (1 + d.y) = 1 + 1 / 2 ∧ |d.y| ≤ 1 / 256 :=
  ⟨by norm_num, by norm_num, by norm_num,
    log1p_decomposition (1 / 2) (by norm_num) (by norm_num) (by norm_num)⟩

/-- Values of the decomposition: the ends of the table (`x = -1/2`, index 0; `x = 1`,
index 384), the halfway cases `x = ±1/512`, rounded away from zero, and arguments off
the table path. -/
theorem log1p_decomposition_examples :
    log1p_table_path (-(1 / 2)) = some ⟨-128, 0, 0⟩ ∧
    log1p_table_path 1 = some ⟨256, 0, 384⟩ ∧
    log1p_table_path (1 / 512) = some ⟨1, -(1 / 514), 129⟩ ∧
    log1p_table_path (-(1 / 512)) = some ⟨-1, 1 / 510, 127⟩ ∧
    log1p_table_path 0 = none ∧ log1p_table_path 2 = none ∧
    log1p_table_path (-(3 / 4)) = none := by
  have r1 : round (-(1 / 2 : ℚ) * 256) = -128 := by
    unfold round
    norm_num [Int.ceil_eq_iff]
  have r2 : round ((1 : ℚ) * 256) = 256 := by
    unfold round
    norm_num [Int.floor_eq_iff]
  have r3 : round ((1 / 512 : ℚ) * 256) = 1 := by
    unfold round
    norm_num [Int.floor_eq_iff]
  have r4 : round (-(1 / 512 : ℚ) * 256) = -1 := by
    unfold round
    norm_num [Int.ceil_eq_iff]
  refine ⟨?_, ?_, ?_, ?_, ?_, ?_, ?_⟩
  · unfold log1p_table_path
    rw [if_neg (by norm_num), if_neg (by norm_num), if_neg (by norm_num)]
    simp only [r1]
    norm_num
  · unfold log1p_table_path
    rw [if_neg (by norm_num), if_neg (by norm_num), if_neg (by norm_num)]
    simp only [r2]
    norm_num
  · unfold log1p_table_path
    rw [if_neg (by norm_num), if_neg (by norm_num), if_neg (by norm_num)]
    simp only [r3]
    norm_num
  · unfold log1p_table_path
    rw [if_neg (by norm_num), if_neg (by norm_num), if_neg (by norm_num)]
    simp only [r4]
    norm_num
  · unfold log1p_table_path
    norm_num
  · unfold log1p_table_path
    norm_num
  · unfold log1p_table_path
    norm_num

end Gnulib
